import Mathlib

/-!
# VP8 decoder core (alfalfa): tree decoding and loop-filter parameters

A shallow embedding of `dx3/tree.cc` (`BoolDecoder::tree`),
`src/decoder/loopfilter.cc` (filter parameters, derived limits, the
per-macroblock loop-filter driver) and the loop-filter entry point of
`src/decoder/macroblock.cc`, followed by theorems about them.

Conventions of the embedding:

* a C++ exception, a failed `assert` and a checked `.at( i )` outside its
  array are results `Except.error _`; a `while` loop is bounded by a fuel
  argument and running out of fuel is the separate error `DecodeError.fuel`;
* `int` values are `Int` (the `int` sums of the code add six-bit and `int8_t`
  values to a level read from a six-bit field, far from the `int` range);
  `uint8_t` values are naturals below 256, and every store of an `int`
  expression into a `uint8_t` is written `to_uint8`;
* declarations of the headers that the sources include but that are not
  part of the translated files (the bool decoder's `get`, the loop-filter
  kernels, the header records) are parameters or records marked as such.
-/

namespace VP8

/-! ## Common definitions -/

/-- Failure outcomes of the embedded code. -/
inductive DecodeError where
  /-- An `Invalid( ... )` exception (the stream is malformed). -/
  | Invalid
  /-- A checked `.at( i )` with `i` outside the array. -/
  | out_of_range
  /-- A failed `assert( ... )`. -/
  | assertion
  /-- The loop budget of the model ran out: the C++ loop is still running. -/
  | fuel
  /-- The value of an absent `Optional` was read with `get()`. -/
  | uninitialized
  /-- An integer that is the value of no enumerator was cast to an
  enumeration: the result is not specified. -/
  | unspecified
  deriving DecidableEq, Repr

deriving instance DecidableEq for Except

/-- Conversion of an `int` value to `uint8_t` (reduction modulo 256). -/
def to_uint8 (x : Int) : Nat := (x % 256).toNat

/-- The checked element access `.at( i )` of `std::array` / `SafeArray`,
with the index computed as an `int`. -/
def at_index {α : Type} (xs : List α) (i : Int) : Except DecodeError α :=
  if i < 0 then .error .out_of_range
  else
    match xs[i.toNat]? with
    | some x => .ok x
    | none => .error .out_of_range

/-- Modelled from the spec: the enumeration `mbmode` of macroblock prediction
modes (declared in `modemv_data.hh`), a closed enumeration with dense integer
values: the five intra modes, then the five inter modes. -/
inductive mbmode where
  | DC_PRED | V_PRED | H_PRED | TM_PRED | B_PRED
  | NEARESTMV | NEARMV | ZEROMV | NEWMV | SPLITMV
  deriving DecidableEq, Repr

/-- The integer value of an `mbmode` enumerator. -/
def mbmode.val : mbmode → Int
  | .DC_PRED => 0 | .V_PRED => 1 | .H_PRED => 2 | .TM_PRED => 3 | .B_PRED => 4
  | .NEARESTMV => 5 | .NEARMV => 6 | .ZEROMV => 7 | .NEWMV => 8 | .SPLITMV => 9

/-! ## `BoolDecoder::tree` (dx3/tree.cc)

The bool decoder itself (`bool_decoder.hh`) is a parameter: a state type `σ`
and the bit read `get : σ → Nat → Bool × σ`, which takes the probability and
returns the decoded bit with the next state. -/

section Tree

variable {σ : Type}

/-- The first loop of `tree`: `assert( value % 2 == 0 )` for every positive
entry. `true` when no assertion fails. -/
def tree_verify (nodes : List Int) : Bool :=
  nodes.all fun value => if value > 0 then value % 2 == 0 else true

/-- The loop `while ( ( i = nodes.at( i + get( probabilities.at( i >> 1 ) ) ) ) > 0 ) {}`
started with the given `i`; returns the final (non-positive) `i` and the
decoder state. One unit of fuel is one evaluation of the loop condition. -/
def tree_loop (get : σ → Nat → Bool × σ) (nodes : List Int) (probabilities : List Nat) :
    Nat → Int → σ → Except DecodeError (Int × σ)
  | 0, _, _ => .error .fuel
  | fuel + 1, i, st =>
    match at_index probabilities (i >>> (1 : Nat)) with
    | .error e => .error e
    | .ok p =>
      match at_index nodes (i + (if (get st p).1 then 1 else 0)) with
      | .error e => .error e
      | .ok v => if v > 0 then tree_loop get nodes probabilities fuel v (get st p).2
                 else .ok (v, (get st p).2)

/-- The method `BoolDecoder::tree`: verify the tree, walk it from `i = 0`, and return
`static_cast< T >( -i )` (as the integer value of the enumerator of `T`)
with the decoder state after the walk. -/
def tree (get : σ → Nat → Bool × σ) (fuel : Nat) (nodes : List Int) (probabilities : List Nat)
    (st : σ) : Except DecodeError (Int × σ) :=
  if tree_verify nodes then
    match tree_loop get nodes probabilities fuel 0 st with
    | .error e => .error e
    | .ok (i, st') => .ok (-i, st')
  else .error .assertion

/-- Reference walk of the specification, one step from index `i`: read one
bit `b` with probability `probs[i >> 1]` and move to `nodes[i + b]`. -/
def ref_step (get : σ → Nat → Bool × σ) (nodes : List Int) (probs : List Nat)
    (i : Nat) (st : σ) : Option (Int × σ) :=
  match probs[i / 2]? with
  | none => none
  | some p =>
    match nodes[i + (get st p).1.toNat]? with
    | none => none
    | some v => some (v, (get st p).2)

/-- Reference walk of the specification: the index and decoder state after
exactly `k` steps from index `i`, provided the walk has not stopped before
(every index reached after fewer steps is positive). -/
def ref_walk (get : σ → Nat → Bool × σ) (nodes : List Int) (probs : List Nat) :
    Nat → Nat → σ → Option (Int × σ)
  | 0, i, st => some ((i : Int), st)
  | 1, i, st => ref_step get nodes probs i st
  | k + 2, i, st =>
    match ref_step get nodes probs i st with
    | none => none
    | some (v, st') => if 0 < v then ref_walk get nodes probs (k + 1) v.toNat st' else none

/-- A bit source instrumented with the number of bits read so far. -/
def counting (get : σ → Nat → Bool × σ) : σ × Nat → Nat → Bool × (σ × Nat) :=
  fun s p => ((get s.1 p).1, ((get s.1 p).2, s.2 + 1))

end Tree

/-- A scripted bit source: the bits still to be returned (zeros once the
script is exhausted) and the probabilities asked for so far. -/
structure Script where
  bits : List Bool
  asked : List Nat
  deriving DecidableEq, Repr

/-- Bit read of the scripted source. -/
def Script.get (s : Script) (p : Nat) : Bool × Script :=
  (s.bits.headD false, { bits := s.bits.tail, asked := s.asked ++ [p] })

/-- The key-frame-style four-symbol tree `[2, 4, -DC, -V, -H, -TM]`. -/
def small_tree : List Int :=
  [2, 4, -mbmode.DC_PRED.val, -mbmode.V_PRED.val, -mbmode.H_PRED.val, -mbmode.TM_PRED.val]

/-- Modelled from the spec: the constant `mv_ref_tree` (declared in
`modemv_data.hh`), the tree over the five motion-vector reference modes
`{NEAREST, NEAR, ZERO, NEW, SPLIT}` that `decode_prediction_modes` passes to
`tree< 5, mbmode >`, in the layout of RFC 6386:
`[-ZEROMV, 2, -NEARESTMV, 4, -NEARMV, 6, -NEWMV, -SPLITMV]`. -/
def mv_ref_tree : List Int :=
  [-mbmode.ZEROMV.val, 2, -mbmode.NEARESTMV.val, 4, -mbmode.NEARMV.val, 6,
   -mbmode.NEWMV.val, -mbmode.SPLITMV.val]

/-! ## Loop-filter parameters (src/decoder/loopfilter.cc) -/

/-- Modelled from the spec: the fixed-size array `SafeArray< T, n >` (declared
in `safe_array.hh`): exactly `n` elements, with bounds-checked access. -/
structure SafeArray (α : Type) (n : Nat) where
  storage : Fin n → α

/-- Modelled from the spec: the checked access `SafeArray::at( index )`, which
fails for an index outside the array. -/
def SafeArray.at_ {α : Type} {n : Nat} (a : SafeArray α n) (index : Nat) : Except DecodeError α :=
  if h : index < n then .ok (a.storage ⟨index, h⟩) else .error .out_of_range

/-- Modelled from the spec: the enumeration `LoopFilterType` (declared in
`loopfilter.hh`) of the two loop-filter variants. -/
inductive LoopFilterType where
  | Normal | Simple
  deriving DecidableEq, Repr

/-- Modelled from the spec: the enumeration `reference_frame` (declared in
`modemv_data.hh`) of the four reference slots, in the order
`{CURRENT, LAST, GOLDEN, ALTREF}` (`num_reference_frames = 4`). -/
inductive reference_frame where
  | CURRENT_FRAME | LAST_FRAME | GOLDEN_FRAME | ALTREF_FRAME
  deriving DecidableEq, Repr

/-- The integer value of a `reference_frame` enumerator, used as array index. -/
def reference_frame.val : reference_frame → Nat
  | .CURRENT_FRAME => 0 | .LAST_FRAME => 1 | .GOLDEN_FRAME => 2 | .ALTREF_FRAME => 3

/-- Modelled from the spec: the segment feature data of a segmentation
update (declared in `frame_header.hh`), reduced to the fields the loop
filter reads: the mode flag (`true` = absolute values, `false` = deltas) and
the optional loop-filter update of each of the four segments. -/
structure SegmentFeatureData where
  segment_feature_mode : Bool
  loop_filter_update : SafeArray (Option Int) 4

/-- Modelled from the spec: the segmentation update block of a frame header
(declared in `frame_header.hh`). -/
structure UpdateSegmentation where
  update_mb_segmentation_map : Bool
  segment_feature_data : Option SegmentFeatureData

/-- Modelled from the spec: the key-frame header (declared in
`frame_header.hh`), reduced to the fields read by the translated code:
`filter_type` is one bit, `loop_filter_level` six bits, `sharpness_level`
three bits, `prob_skip_false` an optional probability. -/
structure KeyFrameHeader where
  filter_type : Bool
  loop_filter_level : Nat
  sharpness_level : Nat
  update_segmentation : Option UpdateSegmentation
  prob_skip_false : Option Nat

/-- Modelled from the spec: the record `FilterParameters` (declared in
`loopfilter.hh`): the filter type, the not yet clamped `int` filter level and
the `uint8_t` sharpness level. -/
structure FilterParameters where
  type : LoopFilterType
  filter_level : Int
  sharpness_level : Nat
  deriving DecidableEq, Repr

/-- The function `clamp63`: an `int` clamped to `0 .. 63`, returned as `uint8_t`. -/
def clamp63 (input : Int) : Nat :=
  if input > 63 then 63
  else if input < 0 then 0
  else to_uint8 input

/-- The constructor `FilterParameters::FilterParameters( const KeyFrameHeader & header )`:
the frame-wide parameters. -/
def FilterParameters.of_header (header : KeyFrameHeader) : FilterParameters :=
  { type := if header.filter_type then LoopFilterType.Simple else LoopFilterType.Normal
    filter_level := (header.loop_filter_level : Int)
    sharpness_level := header.sharpness_level }

/-- The constructor
`FilterParameters::FilterParameters( segment_id, header, update_segmentation )`:
the parameters of one segment. -/
def FilterParameters.of_segment (segment_id : Nat) (header : KeyFrameHeader)
    (update_segmentation : Option UpdateSegmentation) : Except DecodeError FilterParameters :=
  match update_segmentation with
  | none => .ok (FilterParameters.of_header header)
  | some us =>
    match us.segment_feature_data with
    | none => .ok (FilterParameters.of_header header)
    | some feature_data =>
      match feature_data.loop_filter_update.at_ segment_id with
      | .error e => .error e
      | .ok none => .ok (FilterParameters.of_header header)
      | .ok (some update) =>
        if feature_data.segment_feature_mode then
          if update < 0 ∨ update > 63 then .error .Invalid
          else .ok { FilterParameters.of_header header with filter_level := update }
        else
          .ok { FilterParameters.of_header header with
                filter_level := (FilterParameters.of_header header).filter_level + update }

/-- The function `mode_adjustment`: the `int8_t` adjustment for the macroblock's
prediction mode (the entries of both adjustment tables are `int8_t` values,
held as `Int`). -/
def mode_adjustment (mode_adjustments : SafeArray Int 4)
    (macroblock_reference_frame : reference_frame) (macroblock_y_mode : mbmode) :
    Except DecodeError Int :=
  if macroblock_reference_frame = reference_frame.CURRENT_FRAME then
    if macroblock_y_mode = mbmode.B_PRED then mode_adjustments.at_ 0 else .ok 0
  else
    mode_adjustments.at_ 2

/-- The method `FilterParameters::adjust`: add the reference-frame and mode
adjustments to the filter level. -/
def FilterParameters.adjust (params : FilterParameters)
    (ref_adjustments : SafeArray Int 4) (mode_adjustments : SafeArray Int 4)
    (macroblock_reference_frame : reference_frame) (macroblock_y_mode : mbmode) :
    Except DecodeError FilterParameters :=
  match ref_adjustments.at_ macroblock_reference_frame.val with
  | .error e => .error e
  | .ok r =>
    match mode_adjustment mode_adjustments macroblock_reference_frame macroblock_y_mode with
    | .error e => .error e
    | .ok m => .ok { params with filter_level := params.filter_level + (r + m) }

/-- Modelled from the spec: the members of `SimpleLoopFilter` (declared in
`loopfilter.hh`): the clamped level and the derived limits, all `uint8_t`. -/
structure SimpleLoopFilter where
  filter_level_ : Nat
  interior_limit_ : Nat
  macroblock_edge_limit_ : Nat
  subblock_edge_limit_ : Nat
  deriving DecidableEq, Repr

/-- The constructor `SimpleLoopFilter::SimpleLoopFilter( const FilterParameters & params )`.
`sharpened` is `interior_limit_` after `if ( params.sharpness_level ) { ... }`. -/
def SimpleLoopFilter.of_params (params : FilterParameters) : SimpleLoopFilter :=
  let filter_level_ : Nat := clamp63 params.filter_level
  let sharpened : Nat :=
    if params.sharpness_level ≠ 0 then
      let shifted : Nat :=
        to_uint8 ((filter_level_ : Int) >>> (if params.sharpness_level > 4 then 2 else 1 : Nat))
      if (shifted : Int) > 9 - (params.sharpness_level : Int) then
        to_uint8 (9 - (params.sharpness_level : Int))
      else shifted
    else filter_level_
  let interior_limit_ : Nat := if sharpened < 1 then 1 else sharpened
  { filter_level_ := filter_level_
    interior_limit_ := interior_limit_
    macroblock_edge_limit_ := to_uint8 ((((filter_level_ : Int) + 2) * 2) + interior_limit_)
    subblock_edge_limit_ := to_uint8 (((filter_level_ : Int) * 2) + interior_limit_) }

/-- Modelled from the spec: the members of `NormalLoopFilter` (declared in
`loopfilter.hh`): the simple filter with its limits and the `uint8_t`
high-edge-variance threshold. -/
structure NormalLoopFilter where
  simple_ : SimpleLoopFilter
  high_edge_variance_threshold_ : Nat
  deriving DecidableEq, Repr

/-- The constructor `NormalLoopFilter::NormalLoopFilter( key_frame, params )`. -/
def NormalLoopFilter.of_params (key_frame : Bool) (params : FilterParameters) :
    Except DecodeError NormalLoopFilter :=
  let simple_ := SimpleLoopFilter.of_params params
  let hev0 : Nat := if simple_.filter_level_ ≥ 15 then 1 else 0
  if params.type ≠ LoopFilterType.Normal then .error .assertion
  else
    let hev1 : Nat := if simple_.filter_level_ ≥ 40 then to_uint8 ((hev0 : Int) + 1) else hev0
    let hev2 : Nat :=
      if simple_.filter_level_ ≥ 20 ∧ key_frame = false then to_uint8 ((hev1 : Int) + 1) else hev1
    .ok { simple_ := simple_, high_edge_variance_threshold_ := hev2 }

/-- The derived limits in the words of the specification, from the clamped
level `L` and the sharpness level `s`: the interior limit is `L`, shifted
right by 2 (`s > 4`) or 1 and capped at `9 - s` when `s > 0`, then floored at
1; the macroblock edge limit is `2 * (L + 2) + interior_limit` and the
sub-block edge limit `2 * L + interior_limit`. -/
def derived_limits (L s : Nat) : SimpleLoopFilter :=
  let interior_limit : Nat :=
    max 1 (if s > 0 then min (L >>> (if s > 4 then 2 else 1)) (9 - s) else L)
  { filter_level_ := L
    interior_limit_ := interior_limit
    macroblock_edge_limit_ := 2 * (L + 2) + interior_limit
    subblock_edge_limit_ := 2 * L + interior_limit }

/-- The high-edge-variance threshold in the words of the specification, from
the clamped level `L`: `(L ≥ 15) + (L ≥ 40) + (L ≥ 20 and not key_frame)`. -/
def derived_hev_threshold (L : Nat) (key_frame : Bool) : Nat :=
  (if L ≥ 15 then 1 else 0) + (if L ≥ 40 then 1 else 0)
    + (if L ≥ 20 ∧ key_frame = false then 1 else 0)

/-- The `FilterParameters` values that the decoder builds from a key-frame
header: the value of either constructor, and every value that
`FilterParameters::adjust` makes of such a value. -/
inductive FilterParameters.built (header : KeyFrameHeader) : FilterParameters → Prop where
  | of_header : FilterParameters.built header (FilterParameters.of_header header)
  | of_segment (segment_id : Nat) (update_segmentation : Option UpdateSegmentation)
      (params : FilterParameters)
      (h : FilterParameters.of_segment segment_id header update_segmentation = .ok params) :
      FilterParameters.built header params
  | adjust (params adjusted : FilterParameters)
      (ref_adjustments mode_adjustments : SafeArray Int 4)
      (macroblock_reference_frame : reference_frame) (macroblock_y_mode : mbmode)
      (hparams : FilterParameters.built header params)
      (h : params.adjust ref_adjustments mode_adjustments macroblock_reference_frame
        macroblock_y_mode = .ok adjusted) :
      FilterParameters.built header adjusted

/-! ## The per-macroblock loop filter

`Plane` is the type of a sample plane of the raster. The four edge passes
of `NormalLoopFilter` over one plane are parameters (`EdgeFilters`): they
are built on the kernels of `loopfilter_filters.hh`. -/

section LoopFilter

variable {Plane : Type}

/-- Modelled from the spec: the macroblock view of the raster
(`Raster::Macroblock`, declared in `raster.hh`): the three planes and the
presence of the left and above neighbours in the context of `Y`. -/
structure RasterMacroblock (Plane : Type) where
  Y : Plane
  U : Plane
  V : Plane
  left : Bool
  above : Bool

/-- The four edge passes `filter_mb_vertical`, `filter_sb_vertical`,
`filter_mb_horizontal`, `filter_sb_horizontal` of a `NormalLoopFilter` on one
plane, as functions of the filter and the plane: their bodies address the
samples through pointers into the raster and call the kernels
`vp8_filter_mask`, `vp8_hevmask`, `vp8_mbfilter` and `vp8_filter` of
`loopfilter_filters.hh`. -/
structure EdgeFilters (Plane : Type) where
  filter_mb_vertical : NormalLoopFilter → Plane → Plane
  filter_sb_vertical : NormalLoopFilter → Plane → Plane
  filter_mb_horizontal : NormalLoopFilter → Plane → Plane
  filter_sb_horizontal : NormalLoopFilter → Plane → Plane

/-- The method `NormalLoopFilter::filter( raster, skip_subblock_edges )`: the
four steps in the order of the source, each on `Y`, `U`, `V`. -/
def NormalLoopFilter.filter (E : EdgeFilters Plane) (f : NormalLoopFilter)
    (raster : RasterMacroblock Plane) (skip_subblock_edges : Bool) : RasterMacroblock Plane :=
  let r1 := if raster.left then
      { raster with Y := E.filter_mb_vertical f raster.Y
                    U := E.filter_mb_vertical f raster.U
                    V := E.filter_mb_vertical f raster.V }
    else raster
  let r2 := if skip_subblock_edges = false then
      { r1 with Y := E.filter_sb_vertical f r1.Y
                U := E.filter_sb_vertical f r1.U
                V := E.filter_sb_vertical f r1.V }
    else r1
  let r3 := if r2.above then
      { r2 with Y := E.filter_mb_horizontal f r2.Y
                U := E.filter_mb_horizontal f r2.U
                V := E.filter_mb_horizontal f r2.V }
    else r2
  if skip_subblock_edges = false then
    { r3 with Y := E.filter_sb_horizontal f r3.Y
              U := E.filter_sb_horizontal f r3.U
              V := E.filter_sb_horizontal f r3.V }
  else r3

/-- The method `SimpleLoopFilter::filter`: `assert( false )`. -/
def SimpleLoopFilter.filter (_f : SimpleLoopFilter) (_raster : RasterMacroblock Plane)
    (_skip_subblock_edges : Bool) : Except DecodeError (RasterMacroblock Plane) :=
  .error .assertion

/-- The state of a macroblock read by its loop filter: the optional segment
id of its header, the prediction mode of its `Y2` block and the aggregate
`has_nonzero_` flag. -/
structure MacroblockState where
  segment_id : Option Nat
  Y2_prediction_mode : mbmode
  has_nonzero_ : Bool
  deriving DecidableEq, Repr

/-- The method
`Macroblock::loopfilter( decoder_state, frame_loopfilter, segment_loopfilters, raster )`
(macroblock.cc); the decoder state is given by its two adjustment tables.
Returns the raster after the call. -/
def Macroblock.loopfilter (E : EdgeFilters Plane) (mb : MacroblockState)
    (loopfilter_ref_adjustments : SafeArray Int 4) (loopfilter_mode_adjustments : SafeArray Int 4)
    (frame_loopfilter : FilterParameters) (segment_loopfilters : SafeArray FilterParameters 4)
    (raster : RasterMacroblock Plane) : Except DecodeError (RasterMacroblock Plane) :=
  let skip_subblock_edges : Bool :=
    (mb.Y2_prediction_mode != mbmode.B_PRED) && (!mb.has_nonzero_)
  let selected : Except DecodeError FilterParameters :=
    match mb.segment_id with
    | some id => segment_loopfilters.at_ id
    | none => .ok frame_loopfilter
  match selected with
  | .error e => .error e
  | .ok selected_parameters =>
    match selected_parameters.adjust loopfilter_ref_adjustments loopfilter_mode_adjustments
        reference_frame.CURRENT_FRAME mb.Y2_prediction_mode with
    | .error e => .error e
    | .ok filter_parameters =>
      if filter_parameters.filter_level ≤ 0 then .ok raster
      else
        match filter_parameters.type with
        | .Normal =>
          match NormalLoopFilter.of_params true filter_parameters with
          | .error e => .error e
          | .ok filter => .ok (filter.filter E raster skip_subblock_edges)
        | .Simple =>
          (SimpleLoopFilter.of_params filter_parameters).filter raster skip_subblock_edges

/-- Modelled from the spec: the `DerivedQuantities` of a key-frame header
(declared in `frame_header.hh`), reduced to the four members read by the loop
filter. -/
structure DerivedQuantities where
  loop_filter : FilterParameters
  segment_loop_filters : SafeArray FilterParameters 4
  loopfilter_ref_adjustments : SafeArray Int 4
  loopfilter_mode_adjustments : SafeArray Int 4

/-- The method `KeyFrameMacroblockHeader::loopfilter( derived )` (loopfilter.cc): the
same steps, on the raster held by the macroblock. Returns the raster after
the call. -/
def KeyFrameMacroblockHeader.loopfilter (E : EdgeFilters Plane) (mb : MacroblockState)
    (raster_ : RasterMacroblock Plane) (derived : DerivedQuantities) :
    Except DecodeError (RasterMacroblock Plane) :=
  let skip_subblock_edges : Bool :=
    (mb.Y2_prediction_mode != mbmode.B_PRED) && (!mb.has_nonzero_)
  let selected : Except DecodeError FilterParameters :=
    match mb.segment_id with
    | some id => derived.segment_loop_filters.at_ id
    | none => .ok derived.loop_filter
  match selected with
  | .error e => .error e
  | .ok selected_parameters =>
    match selected_parameters.adjust derived.loopfilter_ref_adjustments
        derived.loopfilter_mode_adjustments reference_frame.CURRENT_FRAME
        mb.Y2_prediction_mode with
    | .error e => .error e
    | .ok filter_parameters =>
      if filter_parameters.filter_level ≤ 0 then .ok raster_
      else
        match filter_parameters.type with
        | .Normal =>
          match NormalLoopFilter.of_params true filter_parameters with
          | .error e => .error e
          | .ok filter => .ok (filter.filter E raster_ skip_subblock_edges)
        | .Simple =>
          (SimpleLoopFilter.of_params filter_parameters).filter raster_ skip_subblock_edges

end LoopFilter

/-! ## Concrete inputs of the examples -/

/-- Segment feature data in absolute mode with update 0 for segment 0,
update 10 for segment 1 and no update for segments 2 and 3. -/
def two_segment_update : UpdateSegmentation :=
  { update_mb_segmentation_map := true
    segment_feature_data := some
      { segment_feature_mode := true
        loop_filter_update := ⟨![some 0, some 10, none, none]⟩ } }

/-- Edge passes on a plane of one sample that each add a constant, so that
any pass that runs is visible in the result. -/
def marking_filters : EdgeFilters Nat :=
  { filter_mb_vertical := fun _ p => p + 1
    filter_sb_vertical := fun _ p => p + 10
    filter_mb_horizontal := fun _ p => p + 100
    filter_sb_horizontal := fun _ p => p + 1000 }

/-! ## Macroblock headers (src/decoder/macroblock.cc) -/

/-- Modelled from the spec: the getter `Optional::get()` (declared in
`optional.hh`) of a tagged-optional value; reading the value of an absent
optional fails. The getter `get_or( d )` is `Option.getD`. -/
def optional_get {α : Type} (o : Option α) : Except DecodeError α :=
  match o with
  | some x => .ok x
  | none => .error .uninitialized

/-- Modelled from the spec: the constant `segment_id_tree` (declared in
`modemv_data.hh`), the tree of the four segment ids in the layout of
RFC 6386: `[2, 4, -0, -1, -2, -3]`. -/
def segment_id_tree : List Int := [2, 4, 0, -1, -2, -3]

/-- Modelled from the spec: the inter-frame header (declared in
`frame_header.hh`), reduced to the fields read by the macroblock header. -/
structure InterFrameHeader where
  update_segmentation : Option UpdateSegmentation
  prob_skip_false : Option Nat
  prob_inter : Nat
  prob_references_last : Nat
  prob_references_golden : Nat
  sign_bias_golden : Bool
  sign_bias_alternate : Bool

/-- Modelled from the spec: the members of `KeyFrameMacroblockHeader`
(declared in `macroblock_header.hh`) set by its constructor. -/
structure KeyFrameMacroblockHeader where
  segment_id : Option Nat
  mb_skip_coeff : Option Bool
  deriving DecidableEq, Repr

/-- Modelled from the spec: the members of `InterFrameMacroblockHeader`
(declared in `macroblock_header.hh`), in the order of its constructor's
initialiser list. -/
structure InterFrameMacroblockHeader where
  segment_id : Option Nat
  mb_skip_coeff : Option Bool
  is_inter_mb : Bool
  mb_ref_frame_sel1 : Option Bool
  mb_ref_frame_sel2 : Option Bool
  motion_vectors_flipped_ : Bool
  deriving DecidableEq, Repr

/-- The method `InterFrameMacroblockHeader::reference()`. -/
def InterFrameMacroblockHeader.reference (h : InterFrameMacroblockHeader) :
    Except DecodeError reference_frame :=
  if h.is_inter_mb = false then .ok reference_frame.CURRENT_FRAME
  else
    match optional_get h.mb_ref_frame_sel1 with
    | .error e => .error e
    | .ok sel1 =>
      if sel1 = false then .ok reference_frame.LAST_FRAME
      else
        match optional_get h.mb_ref_frame_sel2 with
        | .error e => .error e
        | .ok sel2 =>
          if sel2 = false then .ok reference_frame.GOLDEN_FRAME
          else .ok reference_frame.ALTREF_FRAME

section Headers

variable {σ : Type}

/-- The initialiser `segment_id( present, data, decoder_state.mb_segment_tree_probs )`
shared by both header constructors: when `present`, the segment id is decoded
with `tree< 4, uint8_t >( segment_id_tree, mb_segment_tree_probs )`. -/
def read_segment_id (get : σ → Nat → Bool × σ) (fuel : Nat) (present : Bool)
    (mb_segment_tree_probs : List Nat) (data : σ) : Except DecodeError (Option Nat × σ) :=
  if present then
    match tree get fuel segment_id_tree mb_segment_tree_probs data with
    | .error e => .error e
    | .ok (symbol, data') => .ok (some (to_uint8 symbol), data')
  else .ok (none, data)

/-- The condition `update_segmentation.initialized() and
update_segmentation.get().update_mb_segmentation_map` of both header
constructors (the right operand is evaluated only when the left holds). -/
def updates_segmentation_map (update_segmentation : Option UpdateSegmentation) : Bool :=
  match update_segmentation with
  | none => false
  | some us => us.update_mb_segmentation_map

/-- Modelled from the spec: the conditional constructor
`Optional< Flag >( is_present, data, probability )` (declared in `optional.hh`):
when `is_present`, the flag is the bit decoded with `probability`; otherwise
the optional is absent and no bit is read. -/
def read_optional_flag (get : σ → Nat → Bool × σ) (is_present : Bool) (probability : Nat)
    (data : σ) : Option Bool × σ :=
  if is_present then (some (get data probability).1, (get data probability).2)
  else (none, data)

/-- The constructor `KeyFrameMacroblockHeader::KeyFrameMacroblockHeader( data,
frame_header, decoder_state )`; the decoder state is given by its
`mb_segment_tree_probs`. The arguments of the initialiser of `mb_skip_coeff`,
among them `frame_header.prob_skip_false.get()`, are evaluated before the
optional flag is built. -/
def KeyFrameMacroblockHeader.of_data (get : σ → Nat → Bool × σ) (fuel : Nat) (data : σ)
    (frame_header : KeyFrameHeader) (mb_segment_tree_probs : List Nat) :
    Except DecodeError (KeyFrameMacroblockHeader × σ) :=
  match read_segment_id get fuel (updates_segmentation_map frame_header.update_segmentation)
      mb_segment_tree_probs data with
  | .error e => .error e
  | .ok (segment_id, data1) =>
    match optional_get frame_header.prob_skip_false with
    | .error e => .error e
    | .ok prob =>
      let skip := read_optional_flag get frame_header.prob_skip_false.isSome prob data1
      .ok ({ segment_id := segment_id, mb_skip_coeff := skip.1 }, skip.2)

/-- The initialiser of `motion_vectors_flipped_` in the constructor of
`InterFrameMacroblockHeader`, evaluated on the members initialised before it:
`( (reference() == GOLDEN_FRAME) and (frame_header.sign_bias_golden) ) or
( (reference() == ALTREF_FRAME) and (frame_header.sign_bias_alternate) )`. -/
def init_motion_vectors_flipped (partly : InterFrameMacroblockHeader)
    (frame_header : InterFrameHeader) : Except DecodeError InterFrameMacroblockHeader :=
  match partly.reference with
  | .error e => .error e
  | .ok r =>
    .ok { partly with
          motion_vectors_flipped_ :=
            (r == reference_frame.GOLDEN_FRAME && frame_header.sign_bias_golden)
            || (r == reference_frame.ALTREF_FRAME && frame_header.sign_bias_alternate) }

/-- The constructor `InterFrameMacroblockHeader::InterFrameMacroblockHeader(
data, frame_header, decoder_state )`; the decoder state is given by its
`mb_segment_tree_probs`. The arguments of the initialiser of `mb_skip_coeff`,
among them `frame_header.prob_skip_false.get()`, are evaluated before the
optional flag is built. -/
def InterFrameMacroblockHeader.of_data (get : σ → Nat → Bool × σ) (fuel : Nat) (data : σ)
    (frame_header : InterFrameHeader) (mb_segment_tree_probs : List Nat) :
    Except DecodeError (InterFrameMacroblockHeader × σ) :=
  match read_segment_id get fuel (updates_segmentation_map frame_header.update_segmentation)
      mb_segment_tree_probs data with
  | .error e => .error e
  | .ok (segment_id, data1) =>
    match optional_get frame_header.prob_skip_false with
    | .error e => .error e
    | .ok prob =>
      let skip := read_optional_flag get frame_header.prob_skip_false.isSome prob data1
      let inter := get skip.2 frame_header.prob_inter
      let sel1 := read_optional_flag get inter.1 frame_header.prob_references_last inter.2
      let sel2 := read_optional_flag get (sel1.1.getD false)
        frame_header.prob_references_golden sel1.2
      match init_motion_vectors_flipped
          { segment_id := segment_id, mb_skip_coeff := skip.1, is_inter_mb := inter.1
            mb_ref_frame_sel1 := sel1.1, mb_ref_frame_sel2 := sel2.1
            motion_vectors_flipped_ := false } frame_header with
      | .error e => .error e
      | .ok h => .ok (h, sel2.2)

end Headers

/-- An inter-frame header with golden sign bias, used in the examples. -/
def golden_biased_header : InterFrameHeader :=
  { update_segmentation := none, prob_skip_false := some 200, prob_inter := 100
    prob_references_last := 110, prob_references_golden := 120
    sign_bias_golden := true, sign_bias_alternate := false }

/-! ## Blocks and macroblocks (src/decoder/macroblock.cc) -/

/-- Modelled from the spec: a motion vector (declared in `modemv_data.hh`), a
pair of 16-bit signed components; `MotionVector()` is the zero vector. -/
abbrev MotionVector : Type := Int × Int

/-- Modelled from the spec: the enumeration `bmode` of the ten sub-block
prediction modes (declared in `modemv_data.hh`), in the order
`B_DC, TM, VE, HE, LD, RD, VR, VL, HD, HU`. -/
inductive bmode where
  | B_DC_PRED | B_TM_PRED | B_VE_PRED | B_HE_PRED | B_LD_PRED
  | B_RD_PRED | B_VR_PRED | B_VL_PRED | B_HD_PRED | B_HU_PRED
  deriving DecidableEq, Repr

/-- The integer value of a `bmode` enumerator. -/
def bmode.val : bmode → Int
  | .B_DC_PRED => 0 | .B_TM_PRED => 1 | .B_VE_PRED => 2 | .B_HE_PRED => 3 | .B_LD_PRED => 4
  | .B_RD_PRED => 5 | .B_VR_PRED => 6 | .B_VL_PRED => 7 | .B_HD_PRED => 8 | .B_HU_PRED => 9

/-- The cast `static_cast< bmode >( n )`, defined on the values of the
enumerators. -/
def bmode.of_val (n : Int) : Option bmode :=
  [bmode.B_DC_PRED, .B_TM_PRED, .B_VE_PRED, .B_HE_PRED, .B_LD_PRED,
   .B_RD_PRED, .B_VR_PRED, .B_VL_PRED, .B_HD_PRED, .B_HU_PRED].find? fun m => m.val == n

/-- The cast `static_cast< mbmode >( n )`, defined on the values of the
enumerators. -/
def mbmode.of_val (n : Int) : Option mbmode :=
  [mbmode.DC_PRED, .V_PRED, .H_PRED, .TM_PRED, .B_PRED,
   .NEARESTMV, .NEARMV, .ZEROMV, .NEWMV, .SPLITMV].find? fun m => m.val == n

/-- Modelled from the spec: a 4x4 block (declared in `block.hh`): sixteen
signed coefficients with the flags `coded` and `has_nonzero`, the prediction
mode (an `mbmode` for `Y2Block` and `UVBlock`, a `bmode` for `YBlock`), the
mark set by `set_Y_without_Y2()` and the motion vector. -/
structure Block (Mode : Type) where
  prediction_mode : Mode
  coded : Bool
  has_nonzero : Bool
  Y_without_Y2 : Bool
  coefficients : List Int
  motion_vector : MotionVector
  deriving DecidableEq, Repr

/-- Modelled from the spec: the members of `Macroblock< FrameHeaderType,
MacroblockHeaderType >` (declared in `macroblock.hh`): the header, the `Y2`
block, the 4x4 grid of `Y` blocks and the 2x2 grids of `U` and `V` blocks
(each grid as the list of its rows, index `width * row + column`), and the
aggregate `has_nonzero_` flag, which starts as `false`. -/
structure Macroblock (Header : Type) where
  header_ : Header
  Y2_ : Block mbmode
  Y_ : List (Block bmode)
  U_ : List (Block mbmode)
  V_ : List (Block mbmode)
  has_nonzero_ : Bool
  deriving DecidableEq, Repr

/-- The members that `Macroblock` reads from either kind of macroblock header. -/
class MacroblockHeader (Header : Type) where
  segment_id : Header → Option Nat
  mb_skip_coeff : Header → Option Bool

instance : MacroblockHeader KeyFrameMacroblockHeader :=
  { segment_id := fun h => h.segment_id, mb_skip_coeff := fun h => h.mb_skip_coeff }

instance : MacroblockHeader InterFrameMacroblockHeader :=
  { segment_id := fun h => h.segment_id, mb_skip_coeff := fun h => h.mb_skip_coeff }

section Tokens

variable {σ Header : Type}

/-- Modelled from the spec: the calls
`block.parse_tokens( data, decoder_state )` of `tokens.cc` on the blocks of a
macroblock, kept as parameters, each a function that returns the parsed block
and the next decoder state. Each gets the index of the block in its grid and the
macroblock as it is when the block is reached (a block reaches its above and
left neighbours through its context). -/
structure TokenDecoder (σ Header : Type) where
  Y2 : Macroblock Header → σ → Block mbmode × σ
  Y : Nat → Macroblock Header → σ → Block bmode × σ
  U : Nat → Macroblock Header → σ → Block mbmode × σ
  V : Nat → Macroblock Header → σ → Block mbmode × σ

/-- The loop `Y_.forall( ... )` of `parse_tokens` over the `Y` blocks from
index `i` on: parse the block, then `has_nonzero_ |= block.has_nonzero()`. -/
def parse_Y_blocks (T : TokenDecoder σ Header) :
    Nat → Nat → Macroblock Header → σ → Macroblock Header × σ
  | 0, _, mb, data => (mb, data)
  | n + 1, i, mb, data =>
    let r := T.Y i mb data
    parse_Y_blocks T n (i + 1)
      { mb with Y_ := mb.Y_.set i r.1, has_nonzero_ := mb.has_nonzero_ || r.1.has_nonzero } r.2

/-- The loop `U_.forall( ... )` of `parse_tokens`. -/
def parse_U_blocks (T : TokenDecoder σ Header) :
    Nat → Nat → Macroblock Header → σ → Macroblock Header × σ
  | 0, _, mb, data => (mb, data)
  | n + 1, i, mb, data =>
    let r := T.U i mb data
    parse_U_blocks T n (i + 1)
      { mb with U_ := mb.U_.set i r.1, has_nonzero_ := mb.has_nonzero_ || r.1.has_nonzero } r.2

/-- The loop `V_.forall( ... )` of `parse_tokens`. -/
def parse_V_blocks (T : TokenDecoder σ Header) :
    Nat → Nat → Macroblock Header → σ → Macroblock Header × σ
  | 0, _, mb, data => (mb, data)
  | n + 1, i, mb, data =>
    let r := T.V i mb data
    parse_V_blocks T n (i + 1)
      { mb with V_ := mb.V_.set i r.1, has_nonzero_ := mb.has_nonzero_ || r.1.has_nonzero } r.2

/-- The method `Macroblock::parse_tokens( data, decoder_state )`: returns the
macroblock and the decoder state after the call. -/
def Macroblock.parse_tokens [MacroblockHeader Header] (T : TokenDecoder σ Header)
    (mb : Macroblock Header) (data : σ) : Macroblock Header × σ :=
  if (MacroblockHeader.mb_skip_coeff mb.header_).getD false then (mb, data)
  else
    let s1 : Macroblock Header × σ :=
      if mb.Y2_.coded then
        let r := T.Y2 mb data
        ({ mb with Y2_ := r.1, has_nonzero_ := mb.has_nonzero_ || r.1.has_nonzero }, r.2)
      else (mb, data)
    let s2 := parse_Y_blocks T s1.1.Y_.length 0 s1.1 s1.2
    let s3 := parse_U_blocks T s2.1.U_.length 0 s2.1 s2.2
    parse_V_blocks T s3.1.V_.length 0 s3.1 s3.2

end Tokens

/-- A block with zero coefficients and clear flags, used in the examples. -/
def blank_block {Mode : Type} (mode : Mode) : Block Mode :=
  { prediction_mode := mode, coded := true, has_nonzero := false, Y_without_Y2 := false
    coefficients := List.replicate 16 0, motion_vector := (0, 0) }

/-- A key-frame macroblock of blank blocks with the given skip flag, as it is
after construction (`has_nonzero_` false), used in the examples. -/
def blank_macroblock (mb_skip_coeff : Option Bool) : Macroblock KeyFrameMacroblockHeader :=
  { header_ := { segment_id := none, mb_skip_coeff := mb_skip_coeff }
    Y2_ := blank_block mbmode.DC_PRED
    Y_ := List.replicate 16 (blank_block bmode.B_DC_PRED)
    U_ := List.replicate 4 (blank_block mbmode.DC_PRED)
    V_ := List.replicate 4 (blank_block mbmode.DC_PRED)
    has_nonzero_ := false }

/-- A block whose coefficient at position 0 and whose `has_nonzero` flag are
the given bit, used in the examples. -/
def marked_block {Mode : Type} (mode : Mode) (bit : Bool) : Block Mode :=
  { prediction_mode := mode, coded := true, has_nonzero := bit, Y_without_Y2 := false
    coefficients := [if bit then 1 else 0], motion_vector := (0, 0) }

/-- A token decoder that reads one bit per block and stores it in the block,
used in the examples. -/
def one_bit_tokens : TokenDecoder Script KeyFrameMacroblockHeader :=
  { Y2 := fun _ data => (marked_block mbmode.DC_PRED (Script.get data 128).1,
                         (Script.get data 128).2)
    Y := fun _ _ data => (marked_block bmode.B_DC_PRED (Script.get data 128).1,
                          (Script.get data 128).2)
    U := fun _ _ data => (marked_block mbmode.DC_PRED (Script.get data 128).1,
                          (Script.get data 128).2)
    V := fun _ _ data => (marked_block mbmode.DC_PRED (Script.get data 128).1,
                          (Script.get data 128).2) }

/-- The shape of a decoder tree from which every walk ends: every positive
entry `nodes[j]` is even, greater than `j` and at most the length of the array
minus 2. -/
def tree_wellformed (nodes : List Int) : Bool :=
  (List.range nodes.length).all fun j =>
    match nodes[j]? with
    | some v => decide (v ≤ 0) ||
        (decide (v % 2 = 0) && decide ((j : Int) < v) && decide (v + 2 ≤ (nodes.length : Int)))
    | none => true

/-! ## The motion-vector census (`Scorer`, src/decoder/macroblock.cc) -/

/-- Conversion of an `int` value to `int16_t` (reduction to `-32768 .. 32767`). -/
def to_int16 (x : Int) : Int := (x + 32768) % 65536 - 32768

/-- The type `ScoredMV` of `Scorer`: a `uint8_t` score and a motion vector. -/
abbrev ScoredMV : Type := Nat × MotionVector

/-- Modelled from the spec: the contract of `std::sort` with the comparator
`a.first > b.first` of `Scorer::calculate`: the result is a rearrangement of
the list in which no element has a greater score than an element before it.
The order of elements of equal score is not specified. -/
structure StdSort where
  sort : List ScoredMV → List ScoredMV
  perm : ∀ l : List ScoredMV, (sort l).Perm l
  sorted : ∀ l : List ScoredMV, (sort l).Pairwise fun a b => ¬ b.1 > a.1

/-- The members of a neighbouring `InterFrameMacroblock` that `Scorer::add`
reads through its pointer: `header().is_inter_mb`,
`header().motion_vectors_flipped_`, `base_motion_vector()` (the motion vector
of the `Y` block at `( 3, 3 )`) and `y_prediction_mode()`. -/
structure Neighbour where
  is_inter_mb : Bool
  motion_vectors_flipped_ : Bool
  base_motion_vector : MotionVector
  y_prediction_mode : mbmode
  deriving DecidableEq, Repr

/-- The members of `Scorer`. -/
structure Scorer where
  scores_ : List ScoredMV
  splitmv_score_ : Nat
  best_ : ScoredMV
  nearest_ : ScoredMV
  near_ : ScoredMV
  motion_vectors_flipped_ : Bool
  deriving DecidableEq, Repr

/-- The constructor `Scorer( motion_vectors_flipped )`: empty score list,
zero scores and zero vectors. -/
def Scorer.of_flipped (motion_vectors_flipped : Bool) : Scorer :=
  { scores_ := [], splitmv_score_ := 0, best_ := (0, (0, 0)), nearest_ := (0, (0, 0))
    near_ := (0, (0, 0)), motion_vectors_flipped_ := motion_vectors_flipped }

/-- The private method `Scorer::add( score, mv )` on the score list: add the
score to the entry of an equal vector, or append a new entry. -/
def add_score : List ScoredMV → Nat → MotionVector → List ScoredMV
  | [], score, mv => [(score, mv)]
  | x :: xs, score, mv =>
    if mv = x.2 then (to_uint8 ((x.1 : Int) + score), x.2) :: xs
    else x :: add_score xs score mv

/-- The public method `Scorer::add( score, mb )` for an optional neighbour. -/
def Scorer.add (s : Scorer) (score : Nat) (mb : Option Neighbour) : Scorer :=
  match mb with
  | some n =>
    if n.is_inter_mb then
      let mv : MotionVector :=
        if n.motion_vectors_flipped_ != s.motion_vectors_flipped_ then
          (to_int16 (-n.base_motion_vector.1), to_int16 (-n.base_motion_vector.2))
        else n.base_motion_vector
      let s1 : Scorer := { s with scores_ := add_score s.scores_ score mv }
      if n.y_prediction_mode = mbmode.SPLITMV then
        { s1 with splitmv_score_ := to_uint8 ((s1.splitmv_score_ : Int) + score) }
      else s1
    else s
  | none => { s with scores_ := add_score s.scores_ score (0, 0) }

/-- The method `Scorer::calculate()`: sort by descending score, pad with
default entries to three, then set `best_`, `nearest_` and `near_`. -/
def Scorer.calculate (S : StdSort) (s : Scorer) : Except DecodeError Scorer :=
  let sorted := S.sort s.scores_
  let scores_ := sorted ++ List.replicate (3 - sorted.length) ((0, (0, 0)) : ScoredMV)
  match at_index scores_ 0 with
  | .error e => .error e
  | .ok first =>
    if first.2 = (0, 0) then
      match at_index scores_ 1 with
      | .error e => .error e
      | .ok second =>
        match at_index scores_ 2 with
        | .error e => .error e
        | .ok third =>
          .ok { s with scores_ := scores_, best_ := first, nearest_ := second, near_ := third }
    else
      match at_index scores_ 1 with
      | .error e => .error e
      | .ok second =>
        .ok { s with scores_ := scores_, best_ := first, nearest_ := first, near_ := second }

/-- The method `Scorer::mode_contexts()`. -/
def Scorer.mode_contexts (s : Scorer) : SafeArray Nat 4 :=
  ⟨![s.best_.1, s.nearest_.1, s.near_.1, s.splitmv_score_]⟩

/-- The census of `InterFrameMacroblock::decode_prediction_modes`: votes of
weight 2, 2 and 1 for the above, left and above-left neighbours, then
`calculate()`. -/
def census (S : StdSort) (motion_vectors_flipped : Bool)
    (above left above_left : Option Neighbour) : Except DecodeError Scorer :=
  ((((Scorer.of_flipped motion_vectors_flipped).add 2 above).add 2 left).add 1
    above_left).calculate S

/-! ## Decoding of the prediction modes (src/decoder/macroblock.cc) -/

/-- Modelled from the spec: the constant `kf_y_mode_tree` (declared in
`modemv_data.hh`), the tree of the five luma modes on key frames, in the
layout of RFC 6386. -/
def kf_y_mode_tree : List Int :=
  [-mbmode.B_PRED.val, 2, 4, 6, -mbmode.DC_PRED.val, -mbmode.V_PRED.val,
   -mbmode.H_PRED.val, -mbmode.TM_PRED.val]

/-- Modelled from the spec: the constant `y_mode_tree` (declared in
`modemv_data.hh`), the tree of the five luma modes on inter frames, in the
layout of RFC 6386. -/
def y_mode_tree : List Int :=
  [-mbmode.DC_PRED.val, 2, 4, 6, -mbmode.V_PRED.val, -mbmode.H_PRED.val,
   -mbmode.TM_PRED.val, -mbmode.B_PRED.val]

/-- Modelled from the spec: the constant `uv_mode_tree` (declared in
`modemv_data.hh`), the tree of the four chroma modes, in the layout of
RFC 6386. -/
def uv_mode_tree : List Int :=
  [-mbmode.DC_PRED.val, 2, -mbmode.V_PRED.val, 4, -mbmode.H_PRED.val, -mbmode.TM_PRED.val]

/-- Modelled from the spec: the constant `b_mode_tree` (declared in
`modemv_data.hh`), the tree of the ten sub-block modes, in the layout of
RFC 6386. -/
def b_mode_tree : List Int :=
  [-bmode.B_DC_PRED.val, 2, -bmode.B_TM_PRED.val, 4, -bmode.B_VE_PRED.val, 6, 8, 12,
   -bmode.B_HE_PRED.val, 10, -bmode.B_RD_PRED.val, -bmode.B_VR_PRED.val,
   -bmode.B_LD_PRED.val, 14, -bmode.B_VL_PRED.val, 16, -bmode.B_HD_PRED.val,
   -bmode.B_HU_PRED.val]

/-- The function `implied_subblock_mode`; the default case is `assert( false )`. -/
def implied_subblock_mode (y_mode : mbmode) : Except DecodeError bmode :=
  match y_mode with
  | .DC_PRED => .ok bmode.B_DC_PRED
  | .V_PRED => .ok bmode.B_VE_PRED
  | .H_PRED => .ok bmode.B_HE_PRED
  | .TM_PRED => .ok bmode.B_TM_PRED
  | _ => .error .assertion

/-- Modelled from the spec: the method `Y2Block::set_if_coded()` (declared in
`block.hh`): the `Y2` block is present for every luma mode except `B_PRED`. -/
def set_if_coded (Y2 : Block mbmode) : Block mbmode :=
  if Y2.prediction_mode = mbmode.B_PRED then { Y2 with coded := false } else Y2

/-- The fixed probability tables of the key-frame modes (the constants
`kf_y_mode_probs`, `kf_b_mode_probs` and `kf_uv_mode_probs` of
`modemv_data.hh`): four, nine (for each pair of an above and a left mode) and
three probabilities. -/
structure KeyFrameModeProbs where
  kf_y_mode_probs : List Nat
  kf_b_mode_probs : bmode → bmode → List Nat
  kf_uv_mode_probs : List Nat

/-- The probability tables read by `InterFrameMacroblock::decode_prediction_modes`:
`y_mode_probs` and `uv_mode_probs` of the decoder state and the constants
`invariant_b_mode_probs` and `mv_counts_to_probs` of `modemv_data.hh`. -/
structure InterFrameModeProbs where
  y_mode_probs : List Nat
  uv_mode_probs : List Nat
  invariant_b_mode_probs : List Nat
  mv_counts_to_probs : SafeArray (SafeArray Nat 4) 6

section PredictionModes

variable {σ : Type}

/-- The loop `Y_.forall( ... )` of `KeyFrameMacroblock::decode_prediction_modes`
in raster order: `done` holds the blocks already visited, so the index of the
next block is `done.length` (column `index % 4`, row `index / 4`). `above` and
`left` are the modes of the bottom row of the macroblock above and of the
right column of the macroblock to the left, when these exist. -/
def kf_sub_block_modes (get : σ → Nat → Bool × σ) (fuel : Nat)
    (kf_b_mode_probs : bmode → bmode → List Nat) (above left : Option (List bmode))
    (y_mode : mbmode) :
    List (Block bmode) → List (Block bmode) → σ → Except DecodeError (List (Block bmode) × σ)
  | done, [], data => .ok (done, data)
  | done, block :: rest, data =>
    if y_mode = mbmode.B_PRED then
      let above_mode : bmode :=
        if done.length / 4 = 0 then
          ((above.bind fun modes => modes[done.length % 4]?).getD bmode.B_DC_PRED)
        else ((done[done.length - 4]?).map fun b => b.prediction_mode).getD bmode.B_DC_PRED
      let left_mode : bmode :=
        if done.length % 4 = 0 then
          ((left.bind fun modes => modes[done.length / 4]?).getD bmode.B_DC_PRED)
        else ((done[done.length - 1]?).map fun b => b.prediction_mode).getD bmode.B_DC_PRED
      match tree get fuel b_mode_tree (kf_b_mode_probs above_mode left_mode) data with
      | .error e => .error e
      | .ok (symbol, data') =>
        match bmode.of_val symbol with
        | none => .error .unspecified
        | some mode =>
          kf_sub_block_modes get fuel kf_b_mode_probs above left y_mode
            (done ++ [{ block with Y_without_Y2 := true, prediction_mode := mode }]) rest data'
    else
      match implied_subblock_mode y_mode with
      | .error e => .error e
      | .ok mode =>
        kf_sub_block_modes get fuel kf_b_mode_probs above left y_mode
          (done ++ [{ block with prediction_mode := mode }]) rest data

/-- The specialisation `KeyFrameMacroblock::decode_prediction_modes( data,
decoder_state, frame_header )`: returns the macroblock and the decoder state
after the call. -/
def KeyFrameMacroblock.decode_prediction_modes (get : σ → Nat → Bool × σ) (fuel : Nat)
    (P : KeyFrameModeProbs) (above left : Option (List bmode))
    (mb : Macroblock KeyFrameMacroblockHeader) (data : σ) :
    Except DecodeError (Macroblock KeyFrameMacroblockHeader × σ) :=
  match tree get fuel kf_y_mode_tree P.kf_y_mode_probs data with
  | .error e => .error e
  | .ok (symbol, data1) =>
    match mbmode.of_val symbol with
    | none => .error .unspecified
    | some y_mode =>
      match kf_sub_block_modes get fuel P.kf_b_mode_probs above left y_mode [] mb.Y_ data1 with
      | .error e => .error e
      | .ok (Y, data2) =>
        match mb.U_ with
        | [] => .error .out_of_range
        | u :: us =>
          match tree get fuel uv_mode_tree P.kf_uv_mode_probs data2 with
          | .error e => .error e
          | .ok (uv_symbol, data3) =>
            match mbmode.of_val uv_symbol with
            | none => .error .unspecified
            | some uv_mode =>
              .ok ({ mb with
                     Y2_ := set_if_coded { mb.Y2_ with prediction_mode := y_mode }
                     Y_ := Y
                     U_ := { u with prediction_mode := uv_mode } :: us }, data3)

/-- The loop `Y_.forall( ... )` of the intra branch of
`InterFrameMacroblock::decode_prediction_modes`, in raster order. -/
def intra_sub_block_modes (get : σ → Nat → Bool × σ) (fuel : Nat)
    (invariant_b_mode_probs : List Nat) (y_mode : mbmode) :
    List (Block bmode) → List (Block bmode) → σ → Except DecodeError (List (Block bmode) × σ)
  | done, [], data => .ok (done, data)
  | done, block :: rest, data =>
    if y_mode = mbmode.B_PRED then
      match tree get fuel b_mode_tree invariant_b_mode_probs data with
      | .error e => .error e
      | .ok (symbol, data') =>
        match bmode.of_val symbol with
        | none => .error .unspecified
        | some mode =>
          intra_sub_block_modes get fuel invariant_b_mode_probs y_mode
            (done ++ [{ block with Y_without_Y2 := true, prediction_mode := mode }]) rest data'
    else
      match implied_subblock_mode y_mode with
      | .error e => .error e
      | .ok mode =>
        intra_sub_block_modes get fuel invariant_b_mode_probs y_mode
          (done ++ [{ block with prediction_mode := mode }]) rest data

/-- The specialisation `InterFrameMacroblock::decode_prediction_modes( data,
decoder_state, frame_header )`; `above`, `left` and `above_left` are the
neighbours of the macroblock's context. Returns the macroblock and the decoder
state after the call. -/
def InterFrameMacroblock.decode_prediction_modes (get : σ → Nat → Bool × σ) (fuel : Nat)
    (S : StdSort) (P : InterFrameModeProbs) (above left above_left : Option Neighbour)
    (mb : Macroblock InterFrameMacroblockHeader) (data : σ) :
    Except DecodeError (Macroblock InterFrameMacroblockHeader × σ) :=
  if mb.header_.is_inter_mb = false then
    match tree get fuel y_mode_tree P.y_mode_probs data with
    | .error e => .error e
    | .ok (symbol, data1) =>
      match mbmode.of_val symbol with
      | none => .error .unspecified
      | some y_mode =>
        match intra_sub_block_modes get fuel P.invariant_b_mode_probs y_mode [] mb.Y_ data1 with
        | .error e => .error e
        | .ok (Y, data2) =>
          match mb.U_ with
          | [] => .error .out_of_range
          | u :: us =>
            match tree get fuel uv_mode_tree P.uv_mode_probs data2 with
            | .error e => .error e
            | .ok (uv_symbol, data3) =>
              match mbmode.of_val uv_symbol with
              | none => .error .unspecified
              | some uv_mode =>
                .ok ({ mb with
                       Y2_ := set_if_coded { mb.Y2_ with prediction_mode := y_mode }
                       Y_ := Y
                       U_ := { u with prediction_mode := uv_mode } :: us }, data3)
  else
    match census S mb.header_.motion_vectors_flipped_ above left above_left with
    | .error e => .error e
    | .ok scorer =>
      let counts := scorer.mode_contexts
      match P.mv_counts_to_probs.at_ (counts.storage 0) with
      | .error e => .error e
      | .ok row0 =>
        match P.mv_counts_to_probs.at_ (counts.storage 1) with
        | .error e => .error e
        | .ok row1 =>
          match P.mv_counts_to_probs.at_ (counts.storage 2) with
          | .error e => .error e
          | .ok row2 =>
            match P.mv_counts_to_probs.at_ (counts.storage 3) with
            | .error e => .error e
            | .ok row3 =>
              match tree get fuel mv_ref_tree
                  [row0.storage 0, row1.storage 1, row2.storage 2, row3.storage 3] data with
              | .error e => .error e
              | .ok (symbol, data1) =>
                match mbmode.of_val symbol with
                | none => .error .unspecified
                | some y_mode =>
                  .ok ({ mb with Y2_ := set_if_coded { mb.Y2_ with prediction_mode := y_mode } },
                       data1)

end PredictionModes

/-- The key-frame mode probabilities of RFC 6386 (with flat sub-block
probabilities), used in the examples. -/
def example_kf_mode_probs : KeyFrameModeProbs :=
  { kf_y_mode_probs := [145, 156, 163, 128]
    kf_b_mode_probs := fun _ _ => List.replicate 9 128
    kf_uv_mode_probs := [142, 114, 183] }

/-! ## Prediction and inverse transforms (src/decoder/macroblock.cc) -/

section Reconstruct

variable {R Header : Type}

/-- Modelled from the spec: the operations of `prediction.cc` and
`transform.cc` on the raster `R` of a macroblock, kept as parameters, each a
function that returns the raster after the call:
`raster.U.intra_predict( mode )`, `raster.V.intra_predict( mode )`,
`raster.Y.intra_predict( mode )`,
`raster.Y_sub.at( column, row ).intra_predict( mode )`,
`block.idct( raster.Y_sub.at( column, row ) )` and its `U` and `V` forms, and
`Y2_.walsh_transform( Y_mutable )`, which returns the changed `Y` blocks. -/
structure Reconstruction (R : Type) where
  intra_predict_U : mbmode → R → R
  intra_predict_V : mbmode → R → R
  intra_predict_Y : mbmode → R → R
  intra_predict_Y_sub : Nat → Nat → bmode → R → R
  idct_Y_sub : Block bmode → Nat → Nat → R → R
  idct_U_sub : Block mbmode → Nat → Nat → R → R
  idct_V_sub : Block mbmode → Nat → Nat → R → R
  walsh_transform : Block mbmode → List (Block bmode) → List (Block bmode)

/-- Modelled from the spec: the method `forall_ij( f )` of a grid of blocks
(declared in `2d.hh`), a loop over the grid of the given width in raster
order, here from index `i` on: `f( block, column, row )` with
`column = i % width` and `row = i / width`. -/
def forall_ij {B S : Type} (f : B → Nat → Nat → S → S) (width : Nat) :
    Nat → List B → S → S
  | _, [], s => s
  | i, b :: rest, s => forall_ij f width (i + 1) rest (f b (i % width) (i / width) s)

/-- The method `Macroblock::intra_predict_and_inverse_transform( raster )`:
returns the raster after the call. `uv_prediction_mode()` is the mode of
`U_.at( 0, 0 )`. -/
def Macroblock.intra_predict_and_inverse_transform (ops : Reconstruction R)
    (mb : Macroblock Header) (raster : R) : Except DecodeError R :=
  match mb.U_ with
  | [] => .error .out_of_range
  | u :: _ =>
    let do_idct : Bool := mb.has_nonzero_
    let r1 : R :=
      ops.intra_predict_V u.prediction_mode (ops.intra_predict_U u.prediction_mode raster)
    let r2 : R :=
      if do_idct then
        forall_ij ops.idct_V_sub 2 0 mb.V_ (forall_ij ops.idct_U_sub 2 0 mb.U_ r1)
      else r1
    if mb.Y2_.prediction_mode = mbmode.B_PRED then
      .ok (forall_ij
        (fun block column row r =>
          let predicted := ops.intra_predict_Y_sub column row block.prediction_mode r
          if do_idct then ops.idct_Y_sub block column row predicted else predicted)
        4 0 mb.Y_ r2)
    else
      let r3 : R := ops.intra_predict_Y mb.Y2_.prediction_mode r2
      if do_idct then
        if mb.Y2_.coded then
          .ok (forall_ij ops.idct_Y_sub 4 0 (ops.walsh_transform mb.Y2_ mb.Y_) r3)
        else
          .ok (forall_ij ops.idct_Y_sub 4 0 mb.Y_ r3)
      else .ok r3

/-- The raster produced by the intra predictions alone, in the words of the
specification: the chroma `U` and `V` prediction, then the whole-macroblock
luma prediction, or the per-sub-block luma predictions in raster order when
the luma mode is `B_PRED`. -/
def predictions_alone (ops : Reconstruction R) (mb : Macroblock Header) (raster : R) :
    Except DecodeError R :=
  match mb.U_ with
  | [] => .error .out_of_range
  | u :: _ =>
    let chroma : R :=
      ops.intra_predict_V u.prediction_mode (ops.intra_predict_U u.prediction_mode raster)
    if mb.Y2_.prediction_mode = mbmode.B_PRED then
      .ok (forall_ij (fun block column row r =>
        ops.intra_predict_Y_sub column row block.prediction_mode r) 4 0 mb.Y_ chroma)
    else .ok (ops.intra_predict_Y mb.Y2_.prediction_mode chroma)

end Reconstruct

/-- The operations on a raster, as recorded by the examples. -/
inductive RasterOp where
  | predict_U (mode : mbmode)
  | predict_V (mode : mbmode)
  | predict_Y (mode : mbmode)
  | predict_Y_sub (column row : Nat) (mode : bmode)
  | idct_Y (column row : Nat)
  | idct_U (column row : Nat)
  | idct_V (column row : Nat)
  deriving DecidableEq, Repr

/-- Raster operations that record themselves in a list, so that every
operation that runs is visible in the result; used in the examples. -/
def recording_ops : Reconstruction (List RasterOp) :=
  { intra_predict_U := fun mode r => r ++ [RasterOp.predict_U mode]
    intra_predict_V := fun mode r => r ++ [RasterOp.predict_V mode]
    intra_predict_Y := fun mode r => r ++ [RasterOp.predict_Y mode]
    intra_predict_Y_sub := fun column row mode r => r ++ [RasterOp.predict_Y_sub column row mode]
    idct_Y_sub := fun _ column row r => r ++ [RasterOp.idct_Y column row]
    idct_U_sub := fun _ column row r => r ++ [RasterOp.idct_U column row]
    idct_V_sub := fun _ column row r => r ++ [RasterOp.idct_V column row]
    walsh_transform := fun _ Y => Y }

/-- A sort that meets the contract of `std::sort` with the comparator of
`Scorer::calculate`: insertion sort by descending score, used in the
examples. -/
def insertion_sort : StdSort :=
  { sort := fun l => List.insertionSort (fun a b : ScoredMV => a.1 ≥ b.1) l
    perm := fun l => List.perm_insertionSort _ l
    sorted := fun l => by
      haveI : IsTotal ScoredMV (fun a b : ScoredMV => a.1 ≥ b.1) :=
        ⟨fun a b => Nat.le_total b.1 a.1⟩
      haveI : IsTrans ScoredMV (fun a b : ScoredMV => a.1 ≥ b.1) :=
        ⟨fun _ _ _ hab hbc => Nat.le_trans hbc hab⟩
      have h : List.Pairwise (fun a b : ScoredMV => a.1 ≥ b.1)
          (List.insertionSort (fun a b : ScoredMV => a.1 ≥ b.1) l) :=
        List.sorted_insertionSort (fun a b : ScoredMV => a.1 ≥ b.1) l
      exact h.imp (fun hab => Nat.not_lt.mpr hab) }

/-- An inter-coded neighbour with the given base motion vector, not flipped,
with mode `NEARESTMV`; used in the examples. -/
def inter_neighbour (mv : MotionVector) : Neighbour :=
  { is_inter_mb := true, motion_vectors_flipped_ := false, base_motion_vector := mv
    y_prediction_mode := mbmode.NEARESTMV }

/-! ## The loop filter of an inter-frame macroblock (src/decoder/macroblock.cc) -/

/-- The members of a macroblock that `Macroblock::loopfilter` reads:
`header_.segment_id`, `Y2_.prediction_mode()` and `has_nonzero_`. -/
def Macroblock.state {Header : Type} [MacroblockHeader Header] (mb : Macroblock Header) :
    MacroblockState :=
  { segment_id := MacroblockHeader.segment_id mb.header_
    Y2_prediction_mode := mb.Y2_.prediction_mode
    has_nonzero_ := mb.has_nonzero_ }

/-- The method `Macroblock::loopfilter` of the instantiation
`Macroblock< InterFrameHeader, InterFrameMacroblockHeader >`: the one template
body serves key frames and inter frames, so the steps are those of
`Macroblock.loopfilter` on the members it reads. -/
def InterFrameMacroblock.loopfilter {Plane : Type} (E : EdgeFilters Plane)
    (mb : Macroblock InterFrameMacroblockHeader)
    (loopfilter_ref_adjustments : SafeArray Int 4) (loopfilter_mode_adjustments : SafeArray Int 4)
    (frame_loopfilter : FilterParameters) (segment_loopfilters : SafeArray FilterParameters 4)
    (raster : RasterMacroblock Plane) : Except DecodeError (RasterMacroblock Plane) :=
  Macroblock.loopfilter E mb.state loopfilter_ref_adjustments loopfilter_mode_adjustments
    frame_loopfilter segment_loopfilters raster

/-- The effective filter parameters in the words of the specification: the
segment-selected or frame-default parameters, adjusted for the macroblock's
own reference frame `header_.reference()` and its luma mode. -/
def own_reference_filter_parameters (mb : Macroblock InterFrameMacroblockHeader)
    (loopfilter_ref_adjustments : SafeArray Int 4) (loopfilter_mode_adjustments : SafeArray Int 4)
    (frame_loopfilter : FilterParameters) (segment_loopfilters : SafeArray FilterParameters 4) :
    Except DecodeError FilterParameters :=
  let selected : Except DecodeError FilterParameters :=
    match mb.header_.segment_id with
    | some id => segment_loopfilters.at_ id
    | none => .ok frame_loopfilter
  match selected with
  | .error e => .error e
  | .ok selected_parameters =>
    match mb.header_.reference with
    | .error e => .error e
    | .ok r =>
      selected_parameters.adjust loopfilter_ref_adjustments loopfilter_mode_adjustments
        r mb.Y2_.prediction_mode

/-- An inter-coded macroblock of an inter frame with mode `NEARESTMV`, no
segment id and the given reference selectors, used in the examples. -/
def inter_macroblock (sel1 sel2 : Option Bool) : Macroblock InterFrameMacroblockHeader :=
  { header_ := { segment_id := none, mb_skip_coeff := some false, is_inter_mb := true
                 mb_ref_frame_sel1 := sel1, mb_ref_frame_sel2 := sel2
                 motion_vectors_flipped_ := false }
    Y2_ := { blank_block mbmode.NEARESTMV with coded := false }
    Y_ := List.replicate 16 (blank_block bmode.B_DC_PRED)
    U_ := List.replicate 4 (blank_block mbmode.DC_PRED)
    V_ := List.replicate 4 (blank_block mbmode.DC_PRED)
    has_nonzero_ := true }

/-! ## The edge passes of the normal filter (src/decoder/loopfilter.cc) -/

/-- Modelled from the spec: a block of the raster as the edge passes see it
(declared in `raster.hh`): the `dimension` of its block type (16 for `Y`, 8
for `U` and `V`) and the samples around it, addressed by column and row
relative to the block's origin. Negative coordinates reach into the left and
above neighbours, as the pointer arithmetic on `&block.at( column, row )`
does. -/
structure SampleBlock where
  dimension : Nat
  sample : Int → Int → Nat

/-- A store to the sample at `( column, row )`. -/
def SampleBlock.set (b : SampleBlock) (position : Int × Int) (value : Nat) : SampleBlock :=
  { b with sample := fun column row =>
      if column = position.1 ∧ row = position.2 then value else b.sample column row }

/-- Modelled from the spec: the kernels of `loopfilter_filters.hh`.
`vp8_filter_mask` takes the interior limit, the edge limit and eight samples,
`vp8_hevmask` the threshold and the four central samples; `vp8_mbfilter` and
`vp8_filter` take the mask, the variance flag and references to six and four
samples, and are given here by the values they leave in these samples. -/
structure Kernels where
  vp8_filter_mask : Nat → Nat → Nat → Nat → Nat → Nat → Nat → Nat → Nat → Nat → Int
  vp8_hevmask : Nat → Nat → Nat → Nat → Nat → Int
  vp8_mbfilter : Int → Int → Nat → Nat → Nat → Nat → Nat → Nat →
    Nat × Nat × Nat × Nat × Nat × Nat
  vp8_filter : Int → Int → Nat → Nat → Nat → Nat → Nat × Nat × Nat × Nat

/-- The body of the loops of `filter_mb_vertical` and `filter_mb_horizontal`
at one position of the edge: `central` is the position of `*central` and
`step` the distance between neighbouring samples across the edge, `( 1, 0 )`
for `central + k` and `( 0, 1 )` for `central + k * stride`. -/
def mbfilter_at (K : Kernels) (f : NormalLoopFilter) (central step : Int × Int)
    (b : SampleBlock) : SampleBlock :=
  let p : Int → Int × Int := fun k => (central.1 + k * step.1, central.2 + k * step.2)
  let s : Int → Nat := fun k => b.sample (p k).1 (p k).2
  let mask : Int :=
    K.vp8_filter_mask f.simple_.interior_limit_ f.simple_.macroblock_edge_limit_
      (s (-4)) (s (-3)) (s (-2)) (s (-1)) (s 0) (s 1) (s 2) (s 3)
  let hev : Int :=
    K.vp8_hevmask f.high_edge_variance_threshold_ (s (-2)) (s (-1)) (s 0) (s 1)
  let out := K.vp8_mbfilter mask hev (s (-3)) (s (-2)) (s (-1)) (s 0) (s 1) (s 2)
  (((((b.set (p (-3)) out.1).set (p (-2)) out.2.1).set (p (-1)) out.2.2.1).set
    (p 0) out.2.2.2.1).set (p 1) out.2.2.2.2.1).set (p 2) out.2.2.2.2.2

/-- The body of the loops of `filter_sb_vertical` and `filter_sb_horizontal`
at one position of the edge, with `central` and `step` as in `mbfilter_at`. -/
def sbfilter_at (K : Kernels) (f : NormalLoopFilter) (central step : Int × Int)
    (b : SampleBlock) : SampleBlock :=
  let p : Int → Int × Int := fun k => (central.1 + k * step.1, central.2 + k * step.2)
  let s : Int → Nat := fun k => b.sample (p k).1 (p k).2
  let mask : Int :=
    K.vp8_filter_mask f.simple_.interior_limit_ f.simple_.subblock_edge_limit_
      (s (-4)) (s (-3)) (s (-2)) (s (-1)) (s 0) (s 1) (s 2) (s 3)
  let hev : Int :=
    K.vp8_hevmask f.high_edge_variance_threshold_ (s (-2)) (s (-1)) (s 0) (s 1)
  let out := K.vp8_filter mask hev (s (-2)) (s (-1)) (s 0) (s 1)
  (((b.set (p (-2)) out.1).set (p (-1)) out.2.1).set (p 0) out.2.2.1).set (p 1) out.2.2.2

/-- The method `NormalLoopFilter::filter_mb_vertical( block )`. -/
def filter_mb_vertical (K : Kernels) (f : NormalLoopFilter) (block : SampleBlock) :
    SampleBlock :=
  let size := block.dimension
  (List.range size).foldl
    (fun (b : SampleBlock) (row : Nat) => mbfilter_at K f (0, (row : Int)) (1, 0) b) block

/-- The method `NormalLoopFilter::filter_mb_horizontal( block )`. -/
def filter_mb_horizontal (K : Kernels) (f : NormalLoopFilter) (block : SampleBlock) :
    SampleBlock :=
  let size := block.dimension
  (List.range size).foldl
    (fun (b : SampleBlock) (column : Nat) => mbfilter_at K f ((column : Int), 0) (0, 1) b) block

/-- The loop `for ( center = 4; center < size; center += 4 )` of the sub-block
passes, from `center` on, with a budget of iterations. -/
def center_loop (size : Nat) (body : Nat → SampleBlock → SampleBlock) :
    Nat → Nat → SampleBlock → SampleBlock
  | 0, _, b => b
  | budget + 1, center, b =>
    if center < size then center_loop size body budget (center + 4) (body center b) else b

/-- The inner loop of `filter_sb_vertical` over the rows of one edge, at
`center_column`. -/
def sb_vertical_edge (K : Kernels) (f : NormalLoopFilter) (size center_column : Nat)
    (block : SampleBlock) : SampleBlock :=
  (List.range size).foldl
    (fun (b : SampleBlock) (row : Nat) =>
      sbfilter_at K f ((center_column : Int), (row : Int)) (1, 0) b) block

/-- The inner loop of `filter_sb_horizontal` over the columns of one edge, at
`center_row`. -/
def sb_horizontal_edge (K : Kernels) (f : NormalLoopFilter) (size center_row : Nat)
    (block : SampleBlock) : SampleBlock :=
  (List.range size).foldl
    (fun (b : SampleBlock) (column : Nat) =>
      sbfilter_at K f ((column : Int), (center_row : Int)) (0, 1) b) block

/-- The method `NormalLoopFilter::filter_sb_vertical( block )`; the budget
`size` of the outer loop is not used up, as the centre advances by 4. -/
def filter_sb_vertical (K : Kernels) (f : NormalLoopFilter) (block : SampleBlock) :
    SampleBlock :=
  let size := block.dimension
  center_loop size (fun center_column b => sb_vertical_edge K f size center_column b)
    size 4 block

/-- The method `NormalLoopFilter::filter_sb_horizontal( block )`. -/
def filter_sb_horizontal (K : Kernels) (f : NormalLoopFilter) (block : SampleBlock) :
    SampleBlock :=
  let size := block.dimension
  center_loop size (fun center_row b => sb_horizontal_edge K f size center_row b)
    size 4 block

/-- The four edge passes of the source on `SampleBlock`. -/
def source_edge_filters (K : Kernels) : EdgeFilters SampleBlock :=
  { filter_mb_vertical := filter_mb_vertical K
    filter_sb_vertical := filter_sb_vertical K
    filter_mb_horizontal := filter_mb_horizontal K
    filter_sb_horizontal := filter_sb_horizontal K }

/-- The samples left on one line by the macroblock-edge filter, in the words
of the specification: the mask is tested against the interior limit and the
macroblock edge limit on the eight samples `s (-4) .. s 3` across the edge,
the variance flag against the threshold on the four central samples, and the
wide kernel gives the six samples `s (-3) .. s 2` their new values. -/
def wide_output (K : Kernels) (f : NormalLoopFilter) (s : Int → Nat) :
    Nat × Nat × Nat × Nat × Nat × Nat :=
  K.vp8_mbfilter
    (K.vp8_filter_mask f.simple_.interior_limit_ f.simple_.macroblock_edge_limit_
      (s (-4)) (s (-3)) (s (-2)) (s (-1)) (s 0) (s 1) (s 2) (s 3))
    (K.vp8_hevmask f.high_edge_variance_threshold_ (s (-2)) (s (-1)) (s 0) (s 1))
    (s (-3)) (s (-2)) (s (-1)) (s 0) (s 1) (s 2)

/-- The samples left on one line by the sub-block filter, in the words of the
specification: the mask is tested against the interior limit and the
sub-block edge limit on the eight samples `s (-4) .. s 3` across the edge, the
variance flag against the threshold on the four central samples, and the
narrow kernel gives the four samples `s (-2) .. s 1` their new values. -/
def narrow_output (K : Kernels) (f : NormalLoopFilter) (s : Int → Nat) :
    Nat × Nat × Nat × Nat :=
  K.vp8_filter
    (K.vp8_filter_mask f.simple_.interior_limit_ f.simple_.subblock_edge_limit_
      (s (-4)) (s (-3)) (s (-2)) (s (-1)) (s 0) (s 1) (s 2) (s 3))
    (K.vp8_hevmask f.high_edge_variance_threshold_ (s (-2)) (s (-1)) (s 0) (s 1))
    (s (-2)) (s (-1)) (s 0) (s 1)

/-- A vertical edge filtered row by row, in the words of the specification,
given sample by sample: the edge lies between the columns `position - 1` and
`position` (the left edge of the block for `position = 0`), and the rows
`0 .. lines - 1` are filtered. On each of these rows the samples of the
columns `position - 3 .. position + 2` (macroblock edge, wide kernel) or
`position - 2 .. position + 1` (sub-block edge, narrow kernel) are replaced by
the output of the kernel on the samples of that row across the edge; every
other sample is kept. -/
def filtered_vertical_edge (K : Kernels) (f : NormalLoopFilter) (macroblock_edge : Bool)
    (position lines : Nat) (b : SampleBlock) : SampleBlock :=
  { dimension := b.dimension
    sample := fun column row =>
      let s : Int → Nat := fun k => b.sample ((position : Int) + k) row
      if 0 ≤ row ∧ row < (lines : Int) then
        if macroblock_edge then
          if column = (position : Int) - 3 then (wide_output K f s).1
          else if column = (position : Int) - 2 then (wide_output K f s).2.1
          else if column = (position : Int) - 1 then (wide_output K f s).2.2.1
          else if column = (position : Int) then (wide_output K f s).2.2.2.1
          else if column = (position : Int) + 1 then (wide_output K f s).2.2.2.2.1
          else if column = (position : Int) + 2 then (wide_output K f s).2.2.2.2.2
          else b.sample column row
        else
          if column = (position : Int) - 2 then (narrow_output K f s).1
          else if column = (position : Int) - 1 then (narrow_output K f s).2.1
          else if column = (position : Int) then (narrow_output K f s).2.2.1
          else if column = (position : Int) + 1 then (narrow_output K f s).2.2.2
          else b.sample column row
      else b.sample column row }

/-- A horizontal edge filtered column by column, in the words of the
specification, given sample by sample: the edge lies between the rows
`position - 1` and `position` (the top edge of the block for `position = 0`),
and the columns `0 .. lines - 1` are filtered. On each of these columns the
samples of the rows `position - 3 .. position + 2` (macroblock edge, wide
kernel) or `position - 2 .. position + 1` (sub-block edge, narrow kernel) are
replaced by the output of the kernel on the samples of that column across the
edge; every other sample is kept. -/
def filtered_horizontal_edge (K : Kernels) (f : NormalLoopFilter) (macroblock_edge : Bool)
    (position lines : Nat) (b : SampleBlock) : SampleBlock :=
  { dimension := b.dimension
    sample := fun column row =>
      let s : Int → Nat := fun k => b.sample column ((position : Int) + k)
      if 0 ≤ column ∧ column < (lines : Int) then
        if macroblock_edge then
          if row = (position : Int) - 3 then (wide_output K f s).1
          else if row = (position : Int) - 2 then (wide_output K f s).2.1
          else if row = (position : Int) - 1 then (wide_output K f s).2.2.1
          else if row = (position : Int) then (wide_output K f s).2.2.2.1
          else if row = (position : Int) + 1 then (wide_output K f s).2.2.2.2.1
          else if row = (position : Int) + 2 then (wide_output K f s).2.2.2.2.2
          else b.sample column row
        else
          if row = (position : Int) - 2 then (narrow_output K f s).1
          else if row = (position : Int) - 1 then (narrow_output K f s).2.1
          else if row = (position : Int) then (narrow_output K f s).2.2.1
          else if row = (position : Int) + 1 then (narrow_output K f s).2.2.2
          else b.sample column row
      else b.sample column row }

/-- The four steps of the normal filter in the words of the specification,
on a raster whose `Y` plane has 16 lines and whose `U` and `V` planes have 8:
(1) the macroblock-edge filter on the left edge of `Y`, `U`, `V` when the
left neighbour exists; (2) the sub-block filter on the vertical edges at
columns 4, 8, 12 of `Y` and column 4 of `U` and `V` unless sub-block edges are
skipped; (3) the macroblock-edge filter on the top edge when the above
neighbour exists; (4) the sub-block filter on the horizontal edges at rows
4, 8, 12 of `Y` and row 4 of `U` and `V` unless sub-block edges are skipped. -/
def four_steps (K : Kernels) (f : NormalLoopFilter) (raster : RasterMacroblock SampleBlock)
    (skip_subblock_edges : Bool) : RasterMacroblock SampleBlock :=
  let step1 : RasterMacroblock SampleBlock :=
    if raster.left then
      { raster with Y := filtered_vertical_edge K f true 0 16 raster.Y
                    U := filtered_vertical_edge K f true 0 8 raster.U
                    V := filtered_vertical_edge K f true 0 8 raster.V }
    else raster
  let step2 : RasterMacroblock SampleBlock :=
    if skip_subblock_edges then step1
    else
      { step1 with
        Y := filtered_vertical_edge K f false 12 16
              (filtered_vertical_edge K f false 8 16
                (filtered_vertical_edge K f false 4 16 step1.Y))
        U := filtered_vertical_edge K f false 4 8 step1.U
        V := filtered_vertical_edge K f false 4 8 step1.V }
  let step3 : RasterMacroblock SampleBlock :=
    if raster.above then
      { step2 with Y := filtered_horizontal_edge K f true 0 16 step2.Y
                   U := filtered_horizontal_edge K f true 0 8 step2.U
                   V := filtered_horizontal_edge K f true 0 8 step2.V }
    else step2
  if skip_subblock_edges then step3
  else
    { step3 with
      Y := filtered_horizontal_edge K f false 12 16
            (filtered_horizontal_edge K f false 8 16
              (filtered_horizontal_edge K f false 4 16 step3.Y))
      U := filtered_horizontal_edge K f false 4 8 step3.U
      V := filtered_horizontal_edge K f false 4 8 step3.V }

/-- Kernels that store constants (the wide kernel `1 .. 6`, the narrow kernel
`11 .. 14`), so that every sample touched by a pass is visible; used in the
examples. -/
def stamping_kernels : Kernels :=
  { vp8_filter_mask := fun _ _ _ _ _ _ _ _ _ _ => -1
    vp8_hevmask := fun _ _ _ _ _ => 0
    vp8_mbfilter := fun _ _ _ _ _ _ _ _ => (1, 2, 3, 4, 5, 6)
    vp8_filter := fun _ _ _ _ _ _ => (11, 12, 13, 14) }

/-- A raster of blank planes (every sample 0) with the given neighbours, used
in the examples. -/
def blank_raster (left above : Bool) : RasterMacroblock SampleBlock :=
  { Y := { dimension := 16, sample := fun _ _ => 0 }
    U := { dimension := 8, sample := fun _ _ => 0 }
    V := { dimension := 8, sample := fun _ _ => 0 }
    left := left, above := above }

/-- The normal filter of level 10 and sharpness 0 on a key frame, used in the
examples. -/
def example_normal_filter : NormalLoopFilter :=
  { simple_ := { filter_level_ := 10, interior_limit_ := 10, macroblock_edge_limit_ := 34
                 subblock_edge_limit_ := 30 }
    high_edge_variance_threshold_ := 0 }

/-- The sum of all scores in a score list. -/
def score_sum (scores : List ScoredMV) : Nat := (scores.map fun x => x.1).sum

/-- An inter-coded neighbour with the given base motion vector, not flipped,
with mode `SPLITMV`; used in the examples. -/
def split_neighbour (mv : MotionVector) : Neighbour :=
  { is_inter_mb := true, motion_vectors_flipped_ := false, base_motion_vector := mv
    y_prediction_mode := mbmode.SPLITMV }

/-- Probability tables with flat mode probabilities and the row number in
every entry of `mv_counts_to_probs`, used in the examples. -/
def example_inter_mode_probs : InterFrameModeProbs :=
  { y_mode_probs := [128, 128, 128, 128]
    uv_mode_probs := [128, 128, 128]
    invariant_b_mode_probs := List.replicate 9 128
    mv_counts_to_probs := ⟨fun row => ⟨fun _ => row.val⟩⟩ }

/-! # Theorems -/

/-! ### Lemmas on the tree walk -/

section TreeLemmas

variable {σ : Type}

theorem at_index_natCast {α : Type} (xs : List α) (i : Nat) :
    at_index xs (i : Int) = match xs[i]? with
      | some x => .ok x
      | none => .error .out_of_range := by
  unfold at_index
  have h : ¬ ((i : Int) < 0) := by omega
  simp [h]

theorem shiftRight_one_natCast (i : Nat) : ((i : Int) >>> (1 : Nat)) = ((i / 2 : Nat) : Int) := by
  rw [Int.shiftRight_eq_div_pow]
  norm_num

theorem add_bit_natCast (i : Nat) (b : Bool) :
    ((i : Int) + (if b then 1 else 0)) = ((i + b.toNat : Nat) : Int) := by
  cases b <;> simp

/-- One evaluation of the loop condition of `tree`, from a natural index,
in terms of the reference step. -/
theorem tree_loop_succ (get : σ → Nat → Bool × σ) (nodes : List Int) (probs : List Nat)
    (fuel i : Nat) (st : σ) :
    tree_loop get nodes probs (fuel + 1) (i : Int) st =
      match ref_step get nodes probs i st with
      | none => .error .out_of_range
      | some (v, st') => if v > 0 then tree_loop get nodes probs fuel v st' else .ok (v, st') := by
  rw [tree_loop, shiftRight_one_natCast, at_index_natCast]
  unfold ref_step
  cases hp : probs[i / 2]? with
  | none => simp
  | some p =>
    simp only [add_bit_natCast, at_index_natCast]
    cases hv : nodes[i + (get st p).1.toNat]? with
    | none => simp
    | some v => simp

/-- The reference step does not depend on the instrumentation of the bit source. -/
theorem ref_step_counting (get : σ → Nat → Bool × σ) (nodes : List Int) (probs : List Nat)
    (i : Nat) (st : σ) (n : Nat) :
    ref_step (counting get) nodes probs i (st, n) =
      (ref_step get nodes probs i st).map fun r => (r.1, (r.2, n + 1)) := by
  unfold ref_step counting
  cases hp : probs[i / 2]? with
  | none => simp
  | some p =>
    cases hv : nodes[i + (get st p).1.toNat]? with
    | none => simp [hv]
    | some v => simp [hv]

/-- The loop of `tree` follows the reference walk: when the walk from index
`i` stops after `k + 1` steps at `v ≤ 0`, the loop returns `v` with the
state reached by the walk, for any fuel of at least `k + 1`. -/
theorem tree_loop_of_ref_walk (get : σ → Nat → Bool × σ) (nodes : List Int) (probs : List Nat) :
    ∀ (k i : Nat) (st st' : σ) (v : Int) (fuel : Nat),
      ref_walk get nodes probs (k + 1) i st = some (v, st') → v ≤ 0 → k + 1 ≤ fuel →
      tree_loop get nodes probs fuel (i : Int) st = .ok (v, st') := by
  intro k
  induction k with
  | zero =>
    intro i st st' v fuel hwalk hv hfuel
    obtain ⟨f, rfl⟩ : ∃ f, fuel = f + 1 := ⟨fuel - 1, by omega⟩
    rw [tree_loop_succ]
    simp only [ref_walk] at hwalk
    rw [hwalk]
    have : ¬ v > 0 := by omega
    simp [this]
  | succ k ih =>
    intro i st st' v fuel hwalk hv hfuel
    obtain ⟨f, rfl⟩ : ∃ f, fuel = f + 1 := ⟨fuel - 1, by omega⟩
    rw [tree_loop_succ]
    rw [ref_walk] at hwalk
    cases hstep : ref_step get nodes probs i st with
    | none => simp [hstep] at hwalk
    | some r =>
      obtain ⟨w, s⟩ := r
      rw [hstep] at hwalk
      simp only at hwalk
      by_cases hw : 0 < w
      · rw [if_pos hw] at hwalk
        have hcast : ((w.toNat : Nat) : Int) = w := Int.toNat_of_nonneg (le_of_lt hw)
        have := ih w.toNat s st' v f hwalk hv (by omega)
        rw [hcast] at this
        simp [hw, this]
      · rw [if_neg hw] at hwalk
        exact absurd hwalk (by simp)

/-- The reference walk under the counting instrumentation: same indices,
same states, and the counter advanced by the number of steps. -/
theorem ref_walk_counting (get : σ → Nat → Bool × σ) (nodes : List Int) (probs : List Nat) :
    ∀ (k i : Nat) (st st' : σ) (v : Int) (n : Nat),
      ref_walk get nodes probs (k + 1) i st = some (v, st') →
      ref_walk (counting get) nodes probs (k + 1) i (st, n) = some (v, (st', n + (k + 1))) := by
  intro k
  induction k with
  | zero =>
    intro i st st' v n hwalk
    simp only [ref_walk] at hwalk ⊢
    rw [ref_step_counting, hwalk]
    simp
  | succ k ih =>
    intro i st st' v n hwalk
    rw [ref_walk] at hwalk ⊢
    rw [ref_step_counting]
    cases hstep : ref_step get nodes probs i st with
    | none => simp [hstep] at hwalk
    | some r =>
      obtain ⟨w, s⟩ := r
      rw [hstep] at hwalk
      simp only at hwalk
      by_cases hw : 0 < w
      · rw [if_pos hw] at hwalk
        have := ih w.toNat s st' v (n + 1) hwalk
        simp only [Option.map_some', if_pos hw, this]
        congr 3
        omega
      · rw [if_neg hw] at hwalk
        exact absurd hwalk (by simp)

/-- Conversely, a result of the loop of `tree` is the stopping point of the
reference walk, reached within the loop budget. -/
theorem ref_walk_of_tree_loop (get : σ → Nat → Bool × σ) (nodes : List Int) (probs : List Nat) :
    ∀ (fuel i : Nat) (st st' : σ) (v : Int),
      tree_loop get nodes probs fuel (i : Int) st = .ok (v, st') →
      ∃ k : Nat, k + 1 ≤ fuel ∧ ref_walk get nodes probs (k + 1) i st = some (v, st') ∧ v ≤ 0 := by
  intro fuel
  induction fuel with
  | zero =>
    intro i st st' v h
    simp [tree_loop] at h
  | succ f ih =>
    intro i st st' v h
    rw [tree_loop_succ] at h
    cases hstep : ref_step get nodes probs i st with
    | none => simp [hstep] at h
    | some r =>
      obtain ⟨w, s⟩ := r
      rw [hstep] at h
      simp only at h
      by_cases hw : w > 0
      · rw [if_pos hw] at h
        have hcast : ((w.toNat : Nat) : Int) = w := Int.toNat_of_nonneg (le_of_lt hw)
        rw [← hcast] at h
        obtain ⟨k, hk, hwalk, hv⟩ := ih w.toNat s st' v h
        refine ⟨k + 1, by omega, ?_, hv⟩
        rw [ref_walk, hstep]
        simp only
        rw [if_pos hw]
        exact hwalk
      · rw [if_neg hw] at h
        simp only [Except.ok.injEq, Prod.mk.injEq] at h
        obtain ⟨rfl, rfl⟩ := h
        exact ⟨0, by omega, by simp [ref_walk, hstep], by omega⟩

end TreeLemmas

/-! ## `BoolDecoder::tree` -/

/-- C1: for every tree array whose positive entries are even (the assertion
of `tree`), every probability array and every bool-decoder state, if the
reference walk (start at `i = 0`, read one bit `b` with probability
`probs[i >> 1]`, set `i = nodes[i + b]`, stop at the first `i ≤ 0`) stops
after `k` steps at `v`, then `tree` returns `-v` with the decoder state of
the walk for every loop budget of at least `k`, and it reads exactly `k`
bits; conversely every value returned by `tree` is the negated stopping
point of that walk. With `nodes = [2, 4, -DC, -V, -H, -TM]` the bit sequences `00`, `01`,
`10`, `11` return `DC`, `V`, `H`, `TM`, asking for `probs[0]` and then
`probs[1]` (first bit 0) or `probs[2]` (first bit 1). -/
theorem tree_returns_reference_walk :
    (∀ (σ : Type) (get : σ → Nat → Bool × σ) (nodes : List Int) (probs : List Nat)
        (st st' : σ) (v : Int) (k fuel : Nat),
        tree_verify nodes = true → 0 < k →
        ref_walk get nodes probs k 0 st = some (v, st') → v ≤ 0 → k ≤ fuel →
        tree get fuel nodes probs st = .ok (-v, st') ∧
        ∀ n : Nat, tree (counting get) fuel nodes probs (st, n) = .ok (-v, (st', n + k))) ∧
    (∀ (σ : Type) (get : σ → Nat → Bool × σ) (nodes : List Int) (probs : List Nat)
        (st st' : σ) (symbol : Int) (fuel : Nat),
        tree get fuel nodes probs st = .ok (symbol, st') →
        ∃ (k : Nat) (v : Int), 0 < k ∧ k ≤ fuel ∧
          ref_walk get nodes probs k 0 st = some (v, st') ∧ v ≤ 0 ∧ symbol = -v) ∧
    (∀ (p0 p1 p2 fuel : Nat) (rest : List Bool),
        tree Script.get (fuel + 2) small_tree [p0, p1, p2] ⟨false :: false :: rest, []⟩
          = .ok (mbmode.DC_PRED.val, ⟨rest, [p0, p1]⟩) ∧
        tree Script.get (fuel + 2) small_tree [p0, p1, p2] ⟨false :: true :: rest, []⟩
          = .ok (mbmode.V_PRED.val, ⟨rest, [p0, p1]⟩) ∧
        tree Script.get (fuel + 2) small_tree [p0, p1, p2] ⟨true :: false :: rest, []⟩
          = .ok (mbmode.H_PRED.val, ⟨rest, [p0, p2]⟩) ∧
        tree Script.get (fuel + 2) small_tree [p0, p1, p2] ⟨true :: true :: rest, []⟩
          = .ok (mbmode.TM_PRED.val, ⟨rest, [p0, p2]⟩)) := by
  have general : ∀ (σ : Type) (get : σ → Nat → Bool × σ) (nodes : List Int) (probs : List Nat)
      (st st' : σ) (v : Int) (k fuel : Nat),
      tree_verify nodes = true → 0 < k →
      ref_walk get nodes probs k 0 st = some (v, st') → v ≤ 0 → k ≤ fuel →
      tree get fuel nodes probs st = .ok (-v, st') ∧
      ∀ n : Nat, tree (counting get) fuel nodes probs (st, n) = .ok (-v, (st', n + k)) := by
    intro σ get nodes probs st st' v k fuel hverify hk hwalk hv hfuel
    obtain ⟨j, rfl⟩ : ∃ j, k = j + 1 := ⟨k - 1, by omega⟩
    constructor
    · have h := tree_loop_of_ref_walk get nodes probs j 0 st st' v fuel hwalk hv hfuel
      simp only [Nat.cast_zero] at h
      simp [tree, hverify, h]
    · intro n
      have hc := ref_walk_counting get nodes probs j 0 st st' v n hwalk
      have h := tree_loop_of_ref_walk (counting get) nodes probs j 0 (st, n) (st', n + (j + 1)) v
        fuel hc hv hfuel
      simp only [Nat.cast_zero] at h
      simp [tree, hverify, h]
  refine ⟨general, ?_, ?_⟩
  · intro σ get nodes probs st st' symbol fuel h
    unfold tree at h
    split at h
    · cases hloop : tree_loop get nodes probs fuel 0 st with
      | error e => simp [hloop] at h
      | ok r =>
        obtain ⟨v, s⟩ := r
        rw [hloop] at h
        simp only [Except.ok.injEq, Prod.mk.injEq] at h
        obtain ⟨rfl, rfl⟩ := h
        have hloop0 : tree_loop get nodes probs fuel ((0 : Nat) : Int) st = .ok (v, s) := by
          simpa using hloop
        obtain ⟨k, hk, hwalk, hv⟩ := ref_walk_of_tree_loop get nodes probs fuel 0 st s v hloop0
        exact ⟨k + 1, v, by omega, hk, hwalk, hv, rfl⟩
    · simp at h
  intro p0 p1 p2 fuel rest
  have hverify : tree_verify small_tree = true := by decide
  refine ⟨?_, ?_, ?_, ?_⟩
  · have h := (general Script Script.get small_tree [p0, p1, p2] ⟨false :: false :: rest, []⟩
      ⟨rest, [p0, p1]⟩ 0 2 (fuel + 2) hverify (by decide)
      (by simp [ref_walk, ref_step, Script.get, small_tree, mbmode.val]) (by decide) (by omega)).1
    simpa [mbmode.val] using h
  · have h := (general Script Script.get small_tree [p0, p1, p2] ⟨false :: true :: rest, []⟩
      ⟨rest, [p0, p1]⟩ (-1) 2 (fuel + 2) hverify (by decide)
      (by simp [ref_walk, ref_step, Script.get, small_tree, mbmode.val]) (by decide) (by omega)).1
    simpa [mbmode.val] using h
  · have h := (general Script Script.get small_tree [p0, p1, p2] ⟨true :: false :: rest, []⟩
      ⟨rest, [p0, p2]⟩ (-2) 2 (fuel + 2) hverify (by decide)
      (by simp [ref_walk, ref_step, Script.get, small_tree, mbmode.val]) (by decide) (by omega)).1
    simpa [mbmode.val] using h
  · have h := (general Script Script.get small_tree [p0, p1, p2] ⟨true :: true :: rest, []⟩
      ⟨rest, [p0, p2]⟩ (-3) 2 (fuel + 2) hverify (by decide)
      (by simp [ref_walk, ref_step, Script.get, small_tree, mbmode.val]) (by decide) (by omega)).1
    simpa [mbmode.val] using h

/-- Witness for C1: the walk on `[2, 4, -DC, -V, -H, -TM]` with bits `1, 0`
stops after two steps at `-H`; `tree` returns `H` and has read two bits. -/
theorem tree_returns_reference_walk_witness :
    tree_verify small_tree = true ∧
    ref_walk Script.get small_tree [10, 20, 30] 2 0 ⟨[true, false, true], []⟩
      = some (-2, ⟨[true], [10, 30]⟩) ∧
    tree Script.get 2 small_tree [10, 20, 30] ⟨[true, false, true], []⟩
      = .ok (2, ⟨[true], [10, 30]⟩) ∧
    tree (counting Script.get) 2 small_tree [10, 20, 30] (⟨[true, false, true], []⟩, 0)
      = .ok (2, (⟨[true], [10, 30]⟩, 2)) := by
  have h := tree_returns_reference_walk.1 Script Script.get small_tree [10, 20, 30]
    ⟨[true, false, true], []⟩ ⟨[true], [10, 30]⟩ (-2) 2 2
    (by decide) (by decide) (by decide) (by decide) (by decide)
  exact ⟨by decide, by decide, h.1, h.2 0⟩

/-- C2 as stated fails: `tree< 5, mbmode >` on the five-leaf tree of the
motion-vector reference modes (eight nodes, four probabilities) with first
bit 0 ends at the leaf `-ZEROMV`; the symbol 7 is at least `alphabet_size = 5`
and `tree` returns it as an ordinary result. -/
theorem tree_returns_symbol_beyond_alphabet_size :
    mv_ref_tree.length = 2 * (5 - 1) ∧
    ([128, 128, 128, 128] : List Nat).length = 5 - 1 ∧
    ref_walk Script.get mv_ref_tree [128, 128, 128, 128] 1 0 ⟨[false], []⟩
      = some (-mbmode.ZEROMV.val, ⟨[], [128]⟩) ∧
    (5 : Int) ≤ mbmode.ZEROMV.val ∧
    tree Script.get 1 mv_ref_tree [128, 128, 128, 128] ⟨[false], []⟩
      = .ok (mbmode.ZEROMV.val, ⟨[], [128]⟩) := by
  decide

/-- C2 (amended): for every tree array of `alphabet_size` leaves (positive
entries even) and every bit source whose walk ends at a leaf `v` with
`-v ≥ alphabet_size`, where `-v` is below the cardinality of the result
type, `tree` returns the symbol `-v` with the decoder state of the walk
instead of failing: `alphabet_size` fixes the lengths of the arrays and is no
bound on the symbols. -/
theorem tree_symbol_not_bounded_by_alphabet_size {σ : Type} (get : σ → Nat → Bool × σ)
    (alphabet_size cardinality : Nat) (nodes : List Int) (probs : List Nat)
    (st st' : σ) (v : Int) (k fuel : Nat)
    (_hnodes : nodes.length = 2 * (alphabet_size - 1))
    (_hprobs : probs.length = alphabet_size - 1)
    (hverify : tree_verify nodes = true) (hk : 0 < k)
    (hwalk : ref_walk get nodes probs k 0 st = some (v, st')) (hv : v ≤ 0)
    (_hbeyond : (alphabet_size : Int) ≤ -v) (_hcardinality : -v < (cardinality : Int))
    (hfuel : k ≤ fuel) :
    tree get fuel nodes probs st = .ok (-v, st') := by
  obtain ⟨j, rfl⟩ : ∃ j, k = j + 1 := ⟨k - 1, by omega⟩
  have h := tree_loop_of_ref_walk get nodes probs j 0 st st' v fuel hwalk hv hfuel
  simp only [Nat.cast_zero] at h
  simp [tree, hverify, h]

/-- Witness for C2 (amended): on the tree of the motion-vector reference
modes (`alphabet_size = 5`, result type `mbmode` of cardinality 10) the bits
`1, 0` end at the leaf `-NEARESTMV` and `tree` returns `NEARESTMV = 5`. -/
theorem tree_symbol_not_bounded_by_alphabet_size_witness :
    tree Script.get 2 mv_ref_tree [128, 128, 128, 128] ⟨[true, false], []⟩
      = .ok (mbmode.NEARESTMV.val, ⟨[], [128, 128]⟩) := by
  have h := tree_symbol_not_bounded_by_alphabet_size Script.get 5 10 mv_ref_tree
    [128, 128, 128, 128] ⟨[true, false], []⟩ ⟨[], [128, 128]⟩ (-mbmode.NEARESTMV.val) 2 2
    (by decide) (by decide) (by decide) (by decide) (by decide) (by decide) (by decide)
    (by decide) (by decide)
  simpa using h

/-! ## Filter parameters of a segment -/

theorem SafeArray.at_lt {α : Type} {n : Nat} (a : SafeArray α n) (i : Nat) (h : i < n) :
    a.at_ i = .ok (a.storage ⟨i, h⟩) := by
  simp [SafeArray.at_, h]

/-- C3: for every segment id `s` in `0 .. 3` and key-frame header, the
per-segment constructor returns the frame-wide type and sharpness level
with the frame-wide filter level when the segmentation update, its feature
data or the update of segment `s` is absent, with the update value `u` when
it is present in absolute mode with `0 ≤ u ≤ 63`, and with
`header.loop_filter_level + u` when it is present in delta mode. In absolute
mode with updates 0 and 10 for segments 0 and 1 the levels are 0 and 10. -/
theorem of_segment_filter_level (s : Nat) (hs : s < 4) (header : KeyFrameHeader) :
    FilterParameters.of_segment s header none = .ok (FilterParameters.of_header header) ∧
    (∀ us : UpdateSegmentation, us.segment_feature_data = none →
      FilterParameters.of_segment s header (some us) = .ok (FilterParameters.of_header header)) ∧
    (∀ (us : UpdateSegmentation) (fd : SegmentFeatureData),
      us.segment_feature_data = some fd → fd.loop_filter_update.storage ⟨s, hs⟩ = none →
      FilterParameters.of_segment s header (some us) = .ok (FilterParameters.of_header header)) ∧
    (∀ (us : UpdateSegmentation) (fd : SegmentFeatureData) (u : Int),
      us.segment_feature_data = some fd → fd.loop_filter_update.storage ⟨s, hs⟩ = some u →
      fd.segment_feature_mode = true → 0 ≤ u → u ≤ 63 →
      FilterParameters.of_segment s header (some us) =
        .ok { type := (FilterParameters.of_header header).type
              filter_level := u
              sharpness_level := (FilterParameters.of_header header).sharpness_level }) ∧
    (∀ (us : UpdateSegmentation) (fd : SegmentFeatureData) (u : Int),
      us.segment_feature_data = some fd → fd.loop_filter_update.storage ⟨s, hs⟩ = some u →
      fd.segment_feature_mode = false →
      FilterParameters.of_segment s header (some us) =
        .ok { type := (FilterParameters.of_header header).type
              filter_level := (header.loop_filter_level : Int) + u
              sharpness_level := (FilterParameters.of_header header).sharpness_level }) ∧
    ((FilterParameters.of_segment 0 header (some two_segment_update)).map
        FilterParameters.filter_level = .ok 0 ∧
     (FilterParameters.of_segment 1 header (some two_segment_update)).map
        FilterParameters.filter_level = .ok 10) := by
  refine ⟨rfl, ?_, ?_, ?_, ?_, ?_, ?_⟩
  · intro us hfd
    simp [FilterParameters.of_segment, hfd]
  · intro us fd hfd hu
    simp [FilterParameters.of_segment, hfd, SafeArray.at_lt _ s hs, hu]
  · intro us fd u hfd hu hmode h0 h63
    have hr : ¬ (u < 0 ∨ u > 63) := by omega
    simp [FilterParameters.of_segment, hfd, SafeArray.at_lt _ s hs, hu, hmode, hr]
  · intro us fd u hfd hu hmode
    simp [FilterParameters.of_segment, hfd, SafeArray.at_lt _ s hs, hu, hmode,
      FilterParameters.of_header]
  · simp [FilterParameters.of_segment, two_segment_update, SafeArray.at_, Except.map]
  · simp [FilterParameters.of_segment, two_segment_update, SafeArray.at_, Except.map]

/-- Witness for C3: a Normal-filter header with level 32 and sharpness 3;
segment 1 with the absolute update 10 gets level 10, the type and the
sharpness of the frame. -/
theorem of_segment_filter_level_witness :
    FilterParameters.of_segment 1
      { filter_type := false, loop_filter_level := 32, sharpness_level := 3
        update_segmentation := some two_segment_update, prob_skip_false := none }
      (some two_segment_update)
      = .ok { type := LoopFilterType.Normal, filter_level := 10, sharpness_level := 3 } :=
  (of_segment_filter_level 1 (by decide)
    { filter_type := false, loop_filter_level := 32, sharpness_level := 3
      update_segmentation := some two_segment_update, prob_skip_false := none }).2.2.2.1
    two_segment_update
    { segment_feature_mode := true
      loop_filter_update := ⟨![some 0, some 10, none, none]⟩ }
    10 rfl (by decide) rfl (by decide) (by decide)

/-- C4: the per-segment constructor raises `Invalid` if and only if the
segmentation update and its feature data are present, the loop-filter update
of the given segment is present, the mode is absolute and the value is below
0 or above 63; for a segment id in `0 .. 3` it returns parameters in every
other case, in particular for a delta-mode update of any value. -/
theorem of_segment_invalid_iff (s : Nat) (header : KeyFrameHeader)
    (update_segmentation : Option UpdateSegmentation) :
    (FilterParameters.of_segment s header update_segmentation = .error .Invalid ↔
      ∃ (us : UpdateSegmentation) (fd : SegmentFeatureData) (u : Int),
        update_segmentation = some us ∧ us.segment_feature_data = some fd ∧
        fd.loop_filter_update.at_ s = .ok (some u) ∧
        fd.segment_feature_mode = true ∧ (u < 0 ∨ u > 63)) ∧
    (s < 4 →
      FilterParameters.of_segment s header update_segmentation ≠ .error .Invalid →
      ∃ p : FilterParameters,
        FilterParameters.of_segment s header update_segmentation = .ok p) ∧
    (s < 4 → ∀ (us : UpdateSegmentation) (fd : SegmentFeatureData),
      update_segmentation = some us → us.segment_feature_data = some fd →
      fd.segment_feature_mode = false →
      ∃ p : FilterParameters,
        FilterParameters.of_segment s header update_segmentation = .ok p) := by
  have key : s < 4 →
      FilterParameters.of_segment s header update_segmentation ≠ .error .Invalid →
      ∃ p : FilterParameters,
        FilterParameters.of_segment s header update_segmentation = .ok p := by
    intro hs hne
    unfold FilterParameters.of_segment at hne ⊢
    cases update_segmentation with
    | none => exact ⟨_, rfl⟩
    | some us =>
      cases hfd : us.segment_feature_data with
      | none => simp [hfd]
      | some fd =>
        simp only [hfd, SafeArray.at_lt _ s hs] at hne ⊢
        cases hu : fd.loop_filter_update.storage ⟨s, hs⟩ with
        | none => simp
        | some u =>
          simp only [hu] at hne ⊢
          cases hmode : fd.segment_feature_mode with
          | false => simp
          | true =>
            simp only [hmode, if_true] at hne ⊢
            by_cases hr : u < 0 ∨ u > 63
            · simp [hr] at hne
            · simp [hr]
  refine ⟨?_, key, ?_⟩
  · constructor
    · intro h
      unfold FilterParameters.of_segment at h
      cases update_segmentation with
      | none => simp at h
      | some us =>
        cases hfd : us.segment_feature_data with
        | none => simp [hfd] at h
        | some fd =>
          simp only [hfd] at h
          cases hat : fd.loop_filter_update.at_ s with
          | error e =>
            rw [hat] at h
            simp only [Except.error.injEq] at h
            subst h
            unfold SafeArray.at_ at hat
            split at hat <;> simp at hat
          | ok o =>
            rw [hat] at h
            cases o with
            | none => simp at h
            | some u =>
              simp only at h
              cases hmode : fd.segment_feature_mode with
              | false => simp [hmode] at h
              | true =>
                simp only [hmode, if_true] at h
                by_cases hr : u < 0 ∨ u > 63
                · exact ⟨us, fd, u, rfl, hfd, hat, hmode, hr⟩
                · simp [hr] at h
    · rintro ⟨us, fd, u, rfl, hfd, hat, hmode, hr⟩
      simp [FilterParameters.of_segment, hfd, hat, hmode, hr]
  · intro hs us fd hus hfd hmode
    apply key hs
    subst hus
    unfold FilterParameters.of_segment
    simp only [hfd, SafeArray.at_lt _ s hs]
    cases hu : fd.loop_filter_update.storage ⟨s, hs⟩ with
    | none => simp
    | some u => simp [hmode]

/-- Witness for C4: in delta mode the update 100 of segment 2 is accepted
(level 32 + 100), while the same value in absolute mode raises `Invalid`. -/
theorem of_segment_invalid_iff_witness :
    FilterParameters.of_segment 2
        { filter_type := false, loop_filter_level := 32, sharpness_level := 0
          update_segmentation := none, prob_skip_false := none }
        (some { update_mb_segmentation_map := false
                segment_feature_data := some
                  { segment_feature_mode := true
                    loop_filter_update := ⟨![none, none, some 100, none]⟩ } })
      = .error .Invalid ∧
    ∃ p : FilterParameters,
      FilterParameters.of_segment 2
        { filter_type := false, loop_filter_level := 32, sharpness_level := 0
          update_segmentation := none, prob_skip_false := none }
        (some { update_mb_segmentation_map := false
                segment_feature_data := some
                  { segment_feature_mode := false
                    loop_filter_update := ⟨![none, none, some 100, none]⟩ } })
      = .ok p :=
  ⟨by decide,
   (of_segment_invalid_iff 2
      { filter_type := false, loop_filter_level := 32, sharpness_level := 0
        update_segmentation := none, prob_skip_false := none }
      (some { update_mb_segmentation_map := false
              segment_feature_data := some
                { segment_feature_mode := false
                  loop_filter_update := ⟨![none, none, some 100, none]⟩ } })).2.1
      (by decide) (by decide)⟩

/-! ## Clamping and derived limits -/

theorem clamp63_eq (x : Int) : ((clamp63 x : Nat) : Int) = min 63 (max 0 x) := by
  unfold clamp63 to_uint8
  split
  · omega
  · split <;> omega

theorem clamp63_le (x : Int) : clamp63 x ≤ 63 := by
  have := clamp63_eq x
  omega

theorem clamp63_clamped (x : Int) : clamp63 (min 63 (max 0 x)) = clamp63 x := by
  have h1 := clamp63_eq x
  have h2 := clamp63_eq (min 63 (max 0 x))
  omega

theorem shiftRight_one (x : Int) : x >>> (1 : Nat) = x / 2 := by
  rw [Int.shiftRight_eq_div_pow]; norm_num

theorem shiftRight_two (x : Int) : x >>> (2 : Nat) = x / 4 := by
  rw [Int.shiftRight_eq_div_pow]; norm_num

/-- The interior limit in closed form, for sharpness levels up to 9. -/
theorem interior_limit_eq (params : FilterParameters) (hs : params.sharpness_level ≤ 9) :
    ((SimpleLoopFilter.of_params params).interior_limit_ : Int) =
      if params.sharpness_level = 0 then max 1 (clamp63 params.filter_level : Int)
      else max 1 (min ((clamp63 params.filter_level : Int) /
                        (if params.sharpness_level > 4 then 4 else 2))
                      (9 - (params.sharpness_level : Int))) := by
  have hL := clamp63_le params.filter_level
  unfold SimpleLoopFilter.of_params
  simp only
  by_cases h0 : params.sharpness_level = 0
  · simp only [h0, ne_eq, not_true_eq_false, if_false, if_true]
    split <;> omega
  · simp only [h0, ne_eq, not_false_eq_true, if_true, if_false]
    by_cases h4 : params.sharpness_level > 4
    · simp only [h4, if_true, shiftRight_two]
      unfold to_uint8
      split <;> split <;> omega
    · simp only [h4, if_false, shiftRight_one]
      unfold to_uint8
      split <;> split <;> omega

theorem reference_frame.val_lt (r : reference_frame) : r.val < 4 := by
  cases r <;> decide

/-- The method `FilterParameters::adjust` always returns, with the adjusted level. -/
theorem adjust_eq (params : FilterParameters) (ref_adjustments mode_adjustments : SafeArray Int 4)
    (r : reference_frame) (m : mbmode) :
    params.adjust ref_adjustments mode_adjustments r m =
      .ok { type := params.type
            filter_level := params.filter_level +
              (ref_adjustments.storage ⟨r.val, r.val_lt⟩ +
                (if r = reference_frame.CURRENT_FRAME then
                  (if m = mbmode.B_PRED then mode_adjustments.storage 0 else 0)
                 else mode_adjustments.storage 2))
            sharpness_level := params.sharpness_level } := by
  unfold FilterParameters.adjust mode_adjustment
  rw [SafeArray.at_lt _ _ r.val_lt]
  by_cases hr : r = reference_frame.CURRENT_FRAME
  · by_cases hm : m = mbmode.B_PRED
    · simp [hr, hm, SafeArray.at_]
    · simp [hr, hm]
  · simp [hr, SafeArray.at_]

/-! ## The loop filter of a macroblock -/

/-- C5: for every macroblock, adjustment tables, filter parameters and
raster, if the selected parameters (those of the macroblock's segment, or the
frame's when it has no segment id) have a filter level `≤ 0` after
`FilterParameters::adjust`, then `Macroblock::loopfilter` and
`KeyFrameMacroblockHeader::loopfilter` return with the raster unchanged,
whatever the filter type and the edge passes are. -/
theorem loopfilter_disabled_unchanged {Plane : Type} (E : EdgeFilters Plane)
    (mb : MacroblockState) (ref_adjustments mode_adjustments : SafeArray Int 4)
    (frame_loopfilter : FilterParameters) (segment_loopfilters : SafeArray FilterParameters 4)
    (raster : RasterMacroblock Plane) (selected adjusted : FilterParameters)
    (hselected : (match mb.segment_id with
        | some id => segment_loopfilters.at_ id
        | none => .ok frame_loopfilter) = .ok selected)
    (hadjust : selected.adjust ref_adjustments mode_adjustments
        reference_frame.CURRENT_FRAME mb.Y2_prediction_mode = .ok adjusted)
    (hlevel : adjusted.filter_level ≤ 0) :
    Macroblock.loopfilter E mb ref_adjustments mode_adjustments frame_loopfilter
        segment_loopfilters raster = .ok raster ∧
    KeyFrameMacroblockHeader.loopfilter E mb raster
        { loop_filter := frame_loopfilter
          segment_loop_filters := segment_loopfilters
          loopfilter_ref_adjustments := ref_adjustments
          loopfilter_mode_adjustments := mode_adjustments } = .ok raster := by
  constructor
  · unfold Macroblock.loopfilter
    simp only [hselected, hadjust, hlevel, if_true]
  · unfold KeyFrameMacroblockHeader.loopfilter
    simp only [hselected, hadjust, hlevel, if_true]

/-- Witness for C5: a `B_PRED` macroblock of segment 0 whose segment level 3
is adjusted by `-1 + -2` to 0 keeps its raster, for the Normal and for the
Simple type; at segment level 13 the same Normal macroblock is filtered. -/
theorem loopfilter_disabled_unchanged_witness :
    (Macroblock.loopfilter marking_filters
        { segment_id := some 0, Y2_prediction_mode := mbmode.B_PRED, has_nonzero_ := true }
        ⟨![-1, 0, 0, 0]⟩ ⟨![-2, 0, 0, 0]⟩
        { type := LoopFilterType.Normal, filter_level := 40, sharpness_level := 0 }
        ⟨fun _ => { type := LoopFilterType.Normal, filter_level := 3, sharpness_level := 0 }⟩
        { Y := 0, U := 0, V := 0, left := true, above := true }
      = .ok { Y := 0, U := 0, V := 0, left := true, above := true } ∧
     KeyFrameMacroblockHeader.loopfilter marking_filters
        { segment_id := some 0, Y2_prediction_mode := mbmode.B_PRED, has_nonzero_ := true }
        { Y := 0, U := 0, V := 0, left := true, above := true }
        { loop_filter := { type := LoopFilterType.Normal, filter_level := 40, sharpness_level := 0 }
          segment_loop_filters :=
            ⟨fun _ => { type := LoopFilterType.Normal, filter_level := 3, sharpness_level := 0 }⟩
          loopfilter_ref_adjustments := ⟨![-1, 0, 0, 0]⟩
          loopfilter_mode_adjustments := ⟨![-2, 0, 0, 0]⟩ }
      = .ok { Y := 0, U := 0, V := 0, left := true, above := true }) ∧
    Macroblock.loopfilter marking_filters
        { segment_id := none, Y2_prediction_mode := mbmode.DC_PRED, has_nonzero_ := false }
        ⟨![0, 0, 0, 0]⟩ ⟨![0, 0, 0, 0]⟩
        { type := LoopFilterType.Simple, filter_level := 0, sharpness_level := 0 }
        ⟨fun _ => { type := LoopFilterType.Simple, filter_level := 9, sharpness_level := 0 }⟩
        { Y := 0, U := 0, V := 0, left := true, above := true }
      = .ok { Y := 0, U := 0, V := 0, left := true, above := true } ∧
    Macroblock.loopfilter marking_filters
        { segment_id := some 0, Y2_prediction_mode := mbmode.B_PRED, has_nonzero_ := true }
        ⟨![-1, 0, 0, 0]⟩ ⟨![-2, 0, 0, 0]⟩
        { type := LoopFilterType.Normal, filter_level := 40, sharpness_level := 0 }
        ⟨fun _ => { type := LoopFilterType.Normal, filter_level := 13, sharpness_level := 0 }⟩
        { Y := 0, U := 0, V := 0, left := true, above := true }
      = .ok { Y := 1111, U := 1111, V := 1111, left := true, above := true } :=
  ⟨loopfilter_disabled_unchanged marking_filters
      { segment_id := some 0, Y2_prediction_mode := mbmode.B_PRED, has_nonzero_ := true }
      ⟨![-1, 0, 0, 0]⟩ ⟨![-2, 0, 0, 0]⟩
      { type := LoopFilterType.Normal, filter_level := 40, sharpness_level := 0 }
      ⟨fun _ => { type := LoopFilterType.Normal, filter_level := 3, sharpness_level := 0 }⟩
      { Y := 0, U := 0, V := 0, left := true, above := true }
      { type := LoopFilterType.Normal, filter_level := 3, sharpness_level := 0 }
      { type := LoopFilterType.Normal, filter_level := 0, sharpness_level := 0 }
      (by rfl) (by decide) (by decide),
   (loopfilter_disabled_unchanged marking_filters
      { segment_id := none, Y2_prediction_mode := mbmode.DC_PRED, has_nonzero_ := false }
      ⟨![0, 0, 0, 0]⟩ ⟨![0, 0, 0, 0]⟩
      { type := LoopFilterType.Simple, filter_level := 0, sharpness_level := 0 }
      ⟨fun _ => { type := LoopFilterType.Simple, filter_level := 9, sharpness_level := 0 }⟩
      { Y := 0, U := 0, V := 0, left := true, above := true }
      { type := LoopFilterType.Simple, filter_level := 0, sharpness_level := 0 }
      { type := LoopFilterType.Simple, filter_level := 0, sharpness_level := 0 }
      (by rfl) (by decide) (by decide)).1,
   by rfl⟩

/-! ## Derived limits of the loop filters -/

/-- The per-segment constructor keeps the sharpness level of the header. -/
theorem of_segment_sharpness (segment_id : Nat) (header : KeyFrameHeader)
    (update_segmentation : Option UpdateSegmentation) (params : FilterParameters)
    (h : FilterParameters.of_segment segment_id header update_segmentation = .ok params) :
    params.sharpness_level = header.sharpness_level := by
  unfold FilterParameters.of_segment at h
  split at h
  · simp only [Except.ok.injEq] at h
    subst h
    rfl
  · split at h
    · simp only [Except.ok.injEq] at h
      subst h
      rfl
    · split at h
      · simp at h
      · simp only [Except.ok.injEq] at h
        subst h
        rfl
      · split at h
        · split at h
          · simp at h
          · simp only [Except.ok.injEq] at h
            subst h
            rfl
        · simp only [Except.ok.injEq] at h
          subst h
          rfl

/-- Every `FilterParameters` value built from a header has the sharpness
level of the header: both constructors copy it and `adjust` keeps it. -/
theorem FilterParameters.built_sharpness (header : KeyFrameHeader) (params : FilterParameters)
    (h : FilterParameters.built header params) :
    params.sharpness_level = header.sharpness_level := by
  induction h with
  | of_header => rfl
  | of_segment segment_id us p hp => exact of_segment_sharpness segment_id header us p hp
  | adjust p q refs modes r m _ hq ih =>
    rw [adjust_eq] at hq
    simp only [Except.ok.injEq] at hq
    subst hq
    exact ih

/-- The edge limits of the `SimpleLoopFilter` are the sums of the clamped
level and the interior limit, below 256, for sharpness levels up to 9. -/
theorem edge_limits_no_wrap (params : FilterParameters) (hs : params.sharpness_level ≤ 9) :
    (SimpleLoopFilter.of_params params).filter_level_ = clamp63 params.filter_level ∧
    (SimpleLoopFilter.of_params params).macroblock_edge_limit_
      = 2 * ((SimpleLoopFilter.of_params params).filter_level_ + 2)
        + (SimpleLoopFilter.of_params params).interior_limit_ ∧
    (SimpleLoopFilter.of_params params).subblock_edge_limit_
      = 2 * (SimpleLoopFilter.of_params params).filter_level_
        + (SimpleLoopFilter.of_params params).interior_limit_ ∧
    2 * ((SimpleLoopFilter.of_params params).filter_level_ + 2)
        + (SimpleLoopFilter.of_params params).interior_limit_ < 256 ∧
    2 * (SimpleLoopFilter.of_params params).filter_level_
        + (SimpleLoopFilter.of_params params).interior_limit_ < 256 := by
  have hL := clamp63_le params.filter_level
  have hI := interior_limit_eq params hs
  have hlevel : (SimpleLoopFilter.of_params params).filter_level_ = clamp63 params.filter_level :=
    rfl
  have hIle : (SimpleLoopFilter.of_params params).interior_limit_ ≤ 63 := by
    split at hI
    · omega
    · split at hI <;> omega
  have hmb : (SimpleLoopFilter.of_params params).macroblock_edge_limit_
      = to_uint8 ((((clamp63 params.filter_level : Nat) : Int) + 2) * 2
          + ((SimpleLoopFilter.of_params params).interior_limit_ : Nat)) := rfl
  have hsb : (SimpleLoopFilter.of_params params).subblock_edge_limit_
      = to_uint8 ((((clamp63 params.filter_level : Nat) : Int)) * 2
          + ((SimpleLoopFilter.of_params params).interior_limit_ : Nat)) := rfl
  refine ⟨rfl, ?_, ?_, ?_, ?_⟩
  · rw [hmb, hlevel]
    unfold to_uint8
    omega
  · rw [hsb, hlevel]
    unfold to_uint8
    omega
  · rw [hlevel]; omega
  · rw [hlevel]; omega

/-- The clamped level as a natural number. -/
theorem clamp63_toNat (x : Int) : clamp63 x = (min 63 (max 0 x)).toNat := by
  have := clamp63_eq x
  omega

/-- For sharpness levels up to 9 the constructed `SimpleLoopFilter` is the one
the specification derives from the clamped level. -/
theorem of_params_eq_derived (params : FilterParameters) (hs : params.sharpness_level ≤ 9) :
    SimpleLoopFilter.of_params params
      = derived_limits (min 63 (max 0 params.filter_level)).toNat params.sharpness_level := by
  obtain ⟨hlevel, hmb, hsb, _, _⟩ := edge_limits_no_wrap params hs
  have hI := interior_limit_eq params hs
  have hL := clamp63_le params.filter_level
  rw [← clamp63_toNat]
  have hinterior : (SimpleLoopFilter.of_params params).interior_limit_
      = max 1 (if params.sharpness_level > 0 then
          min (clamp63 params.filter_level >>> (if params.sharpness_level > 4 then 2 else 1))
            (9 - params.sharpness_level)
        else clamp63 params.filter_level) := by
    by_cases h0 : params.sharpness_level = 0
    · rw [if_pos h0] at hI
      have hn : ¬ params.sharpness_level > 0 := by omega
      rw [if_neg hn]
      omega
    · rw [if_neg h0] at hI
      have hp : params.sharpness_level > 0 := by omega
      rw [if_pos hp]
      by_cases h4 : params.sharpness_level > 4
      · simp only [h4, if_true] at hI ⊢
        rw [Nat.shiftRight_eq_div_pow]
        omega
      · simp only [h4, if_false] at hI ⊢
        rw [Nat.shiftRight_eq_div_pow]
        omega
  have hrecord : SimpleLoopFilter.of_params params
      = { filter_level_ := (SimpleLoopFilter.of_params params).filter_level_
          interior_limit_ := (SimpleLoopFilter.of_params params).interior_limit_
          macroblock_edge_limit_ := (SimpleLoopFilter.of_params params).macroblock_edge_limit_
          subblock_edge_limit_ := (SimpleLoopFilter.of_params params).subblock_edge_limit_ } :=
    rfl
  rw [hrecord, hmb, hsb, hinterior, hlevel]
  rfl

/-- The threshold that the constructor of `NormalLoopFilter` counts up is the
sum of the three tests on the level. -/
theorem hev_threshold_eq (L : Nat) (key_frame : Bool) :
    (if L ≥ 20 ∧ key_frame = false then
        to_uint8 (((if L ≥ 40 then to_uint8 (((if L ≥ 15 then 1 else 0 : Nat) : Int) + 1)
          else (if L ≥ 15 then 1 else 0) : Nat) : Int) + 1)
      else (if L ≥ 40 then to_uint8 (((if L ≥ 15 then 1 else 0 : Nat) : Int) + 1)
          else (if L ≥ 15 then 1 else 0)))
      = derived_hev_threshold L key_frame := by
  unfold derived_hev_threshold
  cases key_frame <;> simp only [to_uint8] <;> split <;> split <;> split <;> simp

/-- C6: for every `FilterParameters` value, whatever its integer filter
level, the level held by the `SimpleLoopFilter` is
`min(63, max(0, params.filter_level))`, and the interior limit, both edge
limits and the high-edge-variance threshold are derived from this clamped
value: the filters are those built from the clamped level (two parameter
values of equal sharpness and type whose levels clamp to the same value give
the same filters), the threshold is
`(L ≥ 15) + (L ≥ 40) + (L ≥ 20 and not key_frame)` of the clamped level `L`,
and for every sharpness level `s` up to 9 (every value of the three-bit
sharpness field, which is all a header gives) the limits are those the
specification derives from `L` and `s`: interior limit `L`, shifted and capped
when `s > 0`, floored at 1; edge limits `2 * (L + 2) + interior_limit` and
`2 * L + interior_limit`. -/
theorem simple_filter_uses_clamped_level (params : FilterParameters) (key_frame : Bool) :
    (((SimpleLoopFilter.of_params params).filter_level_ : Nat) : Int)
      = min 63 (max 0 params.filter_level) ∧
    SimpleLoopFilter.of_params params
      = SimpleLoopFilter.of_params
          { params with filter_level := min 63 (max 0 params.filter_level) } ∧
    NormalLoopFilter.of_params key_frame params
      = NormalLoopFilter.of_params key_frame
          { params with filter_level := min 63 (max 0 params.filter_level) } ∧
    (∀ q : FilterParameters, q.sharpness_level = params.sharpness_level →
      min 63 (max 0 q.filter_level) = min 63 (max 0 params.filter_level) →
      SimpleLoopFilter.of_params q = SimpleLoopFilter.of_params params ∧
      (q.type = params.type →
        NormalLoopFilter.of_params key_frame q = NormalLoopFilter.of_params key_frame params)) ∧
    (params.type = LoopFilterType.Normal →
      NormalLoopFilter.of_params key_frame params
        = .ok { simple_ := SimpleLoopFilter.of_params params
                high_edge_variance_threshold_ :=
                  derived_hev_threshold (min 63 (max 0 params.filter_level)).toNat key_frame }) ∧
    (params.sharpness_level ≤ 9 →
      SimpleLoopFilter.of_params params
        = derived_limits (min 63 (max 0 params.filter_level)).toNat params.sharpness_level ∧
      (params.type = LoopFilterType.Normal →
        NormalLoopFilter.of_params key_frame params
          = .ok { simple_ := derived_limits (min 63 (max 0 params.filter_level)).toNat
                    params.sharpness_level
                  high_edge_variance_threshold_ :=
                    derived_hev_threshold (min 63 (max 0 params.filter_level)).toNat
                      key_frame })) ∧
    (∀ header : KeyFrameHeader, header.sharpness_level ≤ 7 →
      FilterParameters.built header params →
      SimpleLoopFilter.of_params params
        = derived_limits (min 63 (max 0 params.filter_level)).toNat header.sharpness_level) := by
  have hsimple : ∀ p q : FilterParameters, p.sharpness_level = q.sharpness_level →
      clamp63 p.filter_level = clamp63 q.filter_level →
      SimpleLoopFilter.of_params p = SimpleLoopFilter.of_params q := by
    intro p q hs hc
    unfold SimpleLoopFilter.of_params
    rw [hs, hc]
  have hnormal : ∀ p q : FilterParameters, p.sharpness_level = q.sharpness_level →
      clamp63 p.filter_level = clamp63 q.filter_level → p.type = q.type →
      NormalLoopFilter.of_params key_frame p = NormalLoopFilter.of_params key_frame q := by
    intro p q hs hc ht
    unfold NormalLoopFilter.of_params
    rw [hsimple p q hs hc, ht]
  have hhev : params.type = LoopFilterType.Normal →
      NormalLoopFilter.of_params key_frame params
        = .ok { simple_ := SimpleLoopFilter.of_params params
                high_edge_variance_threshold_ :=
                  derived_hev_threshold (min 63 (max 0 params.filter_level)).toNat key_frame } := by
    intro htype
    rw [← clamp63_toNat, ← hev_threshold_eq]
    unfold NormalLoopFilter.of_params
    simp only [htype, ne_eq, not_true_eq_false, if_false]
    rfl
  refine ⟨clamp63_eq params.filter_level, ?_, ?_, ?_, hhev, ?_, ?_⟩
  · exact hsimple _ _ rfl (clamp63_clamped params.filter_level).symm
  · exact hnormal _ _ rfl (clamp63_clamped params.filter_level).symm rfl
  · intro q hs hq
    have hc : clamp63 q.filter_level = clamp63 params.filter_level := by
      have h1 := clamp63_eq q.filter_level
      have h2 := clamp63_eq params.filter_level
      omega
    exact ⟨hsimple q params hs hc, fun ht => hnormal q params hs hc ht⟩
  · intro hs
    refine ⟨of_params_eq_derived params hs, fun htype => ?_⟩
    rw [hhev htype, of_params_eq_derived params hs]
  · intro header hbits hbuilt
    have hsharp := FilterParameters.built_sharpness header params hbuilt
    rw [← hsharp]
    exact of_params_eq_derived params (by omega)

/-- Witness for C6: the level 100 of a Normal parameter value of sharpness 2
clamps to 63; the filters are those of level 63, with interior limit
`min(63 >> 1, 9 - 2) = 7`, edge limits `2 * 65 + 7 = 137` and
`2 * 63 + 7 = 133`, and threshold 3 on a non-key frame. -/
theorem simple_filter_uses_clamped_level_witness :
    SimpleLoopFilter.of_params
        { type := LoopFilterType.Normal, filter_level := 100, sharpness_level := 2 }
      = SimpleLoopFilter.of_params
        { type := LoopFilterType.Normal, filter_level := 63, sharpness_level := 2 } ∧
    NormalLoopFilter.of_params false
        { type := LoopFilterType.Normal, filter_level := 100, sharpness_level := 2 }
      = NormalLoopFilter.of_params false
        { type := LoopFilterType.Normal, filter_level := 63, sharpness_level := 2 } ∧
    SimpleLoopFilter.of_params
        { type := LoopFilterType.Normal, filter_level := 100, sharpness_level := 2 }
      = derived_limits (min 63 (max 0 (100 : Int))).toNat 2 ∧
    NormalLoopFilter.of_params false
        { type := LoopFilterType.Normal, filter_level := 100, sharpness_level := 2 }
      = .ok { simple_ := derived_limits (min 63 (max 0 (100 : Int))).toNat 2
              high_edge_variance_threshold_ :=
                derived_hev_threshold (min 63 (max 0 (100 : Int))).toNat false } ∧
    NormalLoopFilter.of_params false
        { type := LoopFilterType.Normal, filter_level := 100, sharpness_level := 2 }
      = .ok { simple_ := { filter_level_ := 63, interior_limit_ := 7
                           macroblock_edge_limit_ := 137, subblock_edge_limit_ := 133 }
              high_edge_variance_threshold_ := 3 } :=
  ⟨((simple_filter_uses_clamped_level
        { type := LoopFilterType.Normal, filter_level := 63, sharpness_level := 2 } false).2.2.2.1
      { type := LoopFilterType.Normal, filter_level := 100, sharpness_level := 2 }
      rfl (by decide)).1,
   ((simple_filter_uses_clamped_level
        { type := LoopFilterType.Normal, filter_level := 63, sharpness_level := 2 } false).2.2.2.1
      { type := LoopFilterType.Normal, filter_level := 100, sharpness_level := 2 }
      rfl (by decide)).2 rfl,
   ((simple_filter_uses_clamped_level
        { type := LoopFilterType.Normal, filter_level := 100, sharpness_level := 2 }
        false).2.2.2.2.2.1 (by decide)).1,
   ((simple_filter_uses_clamped_level
        { type := LoopFilterType.Normal, filter_level := 100, sharpness_level := 2 }
        false).2.2.2.2.2.1 (by decide)).2 rfl,
   by decide⟩

/-- Outside the range of the three-bit sharpness field the stores of the
constructor wrap: handed the sharpness level 10 with filter level 0, the
interior limit is the 8-bit value of `9 - 10`, that is 255, and the
macroblock edge limit `2 * (0 + 2) + 255 = 259` wraps to 3. No value built
from a header has this sharpness level. -/
theorem edge_limit_wraps_at_sharpness_10 :
    (SimpleLoopFilter.of_params
        { type := LoopFilterType.Normal, filter_level := 0, sharpness_level := 10 })
      = { filter_level_ := 0, interior_limit_ := 255,
          macroblock_edge_limit_ := 3, subblock_edge_limit_ := 255 } ∧
    (SimpleLoopFilter.of_params
        { type := LoopFilterType.Normal, filter_level := 0,
          sharpness_level := 10 }).macroblock_edge_limit_
      ≠ 2 * ((SimpleLoopFilter.of_params
              { type := LoopFilterType.Normal, filter_level := 0,
                sharpness_level := 10 }).filter_level_ + 2)
        + (SimpleLoopFilter.of_params
              { type := LoopFilterType.Normal, filter_level := 0,
                sharpness_level := 10 }).interior_limit_ := by
  decide

/-- C7: for every `FilterParameters` value that the decoder builds from a
header (by either constructor and any number of adjustments; the sharpness
level is the three-bit field of the header), and more generally for every
value whose sharpness level is at most 9, the constructed `SimpleLoopFilter`
has `macroblock_edge_limit = 2 * (filter_level + 2) + interior_limit` and
`subblock_edge_limit = 2 * filter_level + interior_limit` for the clamped
level and the derived interior limit, and both sums are below 256 (at most
193), so the 8-bit stores do not wrap. Level 10 with sharpness 0 gives
interior limit 10 and the edge limits 34 and 30. -/
theorem edge_limits_formula :
    (∀ (header : KeyFrameHeader) (params : FilterParameters),
      header.sharpness_level ≤ 7 → FilterParameters.built header params →
      (SimpleLoopFilter.of_params params).filter_level_ = clamp63 params.filter_level ∧
      (SimpleLoopFilter.of_params params).macroblock_edge_limit_
        = 2 * ((SimpleLoopFilter.of_params params).filter_level_ + 2)
          + (SimpleLoopFilter.of_params params).interior_limit_ ∧
      (SimpleLoopFilter.of_params params).subblock_edge_limit_
        = 2 * (SimpleLoopFilter.of_params params).filter_level_
          + (SimpleLoopFilter.of_params params).interior_limit_ ∧
      2 * ((SimpleLoopFilter.of_params params).filter_level_ + 2)
          + (SimpleLoopFilter.of_params params).interior_limit_ ≤ 193 ∧
      2 * (SimpleLoopFilter.of_params params).filter_level_
          + (SimpleLoopFilter.of_params params).interior_limit_ ≤ 189) ∧
    (∀ params : FilterParameters, params.sharpness_level ≤ 9 →
      (SimpleLoopFilter.of_params params).filter_level_ = clamp63 params.filter_level ∧
      (SimpleLoopFilter.of_params params).macroblock_edge_limit_
        = 2 * ((SimpleLoopFilter.of_params params).filter_level_ + 2)
          + (SimpleLoopFilter.of_params params).interior_limit_ ∧
      (SimpleLoopFilter.of_params params).subblock_edge_limit_
        = 2 * (SimpleLoopFilter.of_params params).filter_level_
          + (SimpleLoopFilter.of_params params).interior_limit_ ∧
      2 * ((SimpleLoopFilter.of_params params).filter_level_ + 2)
          + (SimpleLoopFilter.of_params params).interior_limit_ < 256 ∧
      2 * (SimpleLoopFilter.of_params params).filter_level_
          + (SimpleLoopFilter.of_params params).interior_limit_ < 256) ∧
    (∀ t : LoopFilterType,
      SimpleLoopFilter.of_params { type := t, filter_level := 10, sharpness_level := 0 }
        = { filter_level_ := 10, interior_limit_ := 10,
            macroblock_edge_limit_ := 34, subblock_edge_limit_ := 30 }) := by
  refine ⟨?_, edge_limits_no_wrap, ?_⟩
  · intro header params hbits hbuilt
    have hsharp := FilterParameters.built_sharpness header params hbuilt
    have hs : params.sharpness_level ≤ 9 := by omega
    obtain ⟨hlevel, hmb, hsb, _, _⟩ := edge_limits_no_wrap params hs
    have hL := clamp63_le params.filter_level
    have hI := interior_limit_eq params hs
    have hIle : (SimpleLoopFilter.of_params params).interior_limit_ ≤ 63 := by
      split at hI
      · omega
      · split at hI <;> omega
    refine ⟨hlevel, hmb, hsb, ?_, ?_⟩
    · rw [hlevel]; omega
    · rw [hlevel]; omega
  · intro t
    cases t <;> decide

/-- Witness for C7: the frame-wide parameters of a header with level 20 and
the largest three-bit sharpness 7, adjusted by `+ 3 + 2` for a `B_PRED`
macroblock, have level 25; the filter has interior limit 2 and the edge
limits `2 * (25 + 2) + 2 = 56` and `2 * 25 + 2 = 52`. -/
theorem edge_limits_formula_witness :
    FilterParameters.adjust
        (FilterParameters.of_header
          { filter_type := false, loop_filter_level := 20, sharpness_level := 7
            update_segmentation := none, prob_skip_false := none })
        ⟨![3, 0, 0, 0]⟩ ⟨![2, 0, 0, 0]⟩ reference_frame.CURRENT_FRAME mbmode.B_PRED
      = .ok { type := LoopFilterType.Normal, filter_level := 25, sharpness_level := 7 } ∧
    (SimpleLoopFilter.of_params
        { type := LoopFilterType.Normal, filter_level := 25, sharpness_level := 7 })
      = { filter_level_ := 25, interior_limit_ := 2,
          macroblock_edge_limit_ := 56, subblock_edge_limit_ := 52 } ∧
    (SimpleLoopFilter.of_params
        { type := LoopFilterType.Normal, filter_level := 25,
          sharpness_level := 7 }).macroblock_edge_limit_
      = 2 * ((SimpleLoopFilter.of_params
              { type := LoopFilterType.Normal, filter_level := 25,
                sharpness_level := 7 }).filter_level_ + 2)
        + (SimpleLoopFilter.of_params
              { type := LoopFilterType.Normal, filter_level := 25,
                sharpness_level := 7 }).interior_limit_ :=
  ⟨by decide, by decide,
   (edge_limits_formula.1
      { filter_type := false, loop_filter_level := 20, sharpness_level := 7
        update_segmentation := none, prob_skip_false := none }
      { type := LoopFilterType.Normal, filter_level := 25, sharpness_level := 7 }
      (by decide)
      (FilterParameters.built.adjust _ _ ⟨![3, 0, 0, 0]⟩ ⟨![2, 0, 0, 0]⟩
        reference_frame.CURRENT_FRAME mbmode.B_PRED FilterParameters.built.of_header
        (by decide))).2.1⟩

/-- C8: for every `FilterParameters` value with sharpness level `s` in
`0 .. 7` and clamped level `L`, the interior limit is `max(1, L)` when
`s = 0` and `max(1, min(L >> (2 if s > 4 else 1), 9 - s))` when `s > 0`;
it lies in `1 .. 63`, and is at most `9 - s` when `s > 0`. -/
theorem interior_limit_formula (params : FilterParameters) (hs : params.sharpness_level ≤ 7) :
    (SimpleLoopFilter.of_params params).filter_level_ = clamp63 params.filter_level ∧
    (params.sharpness_level = 0 →
      (SimpleLoopFilter.of_params params).interior_limit_
        = max 1 (SimpleLoopFilter.of_params params).filter_level_) ∧
    (0 < params.sharpness_level →
      (SimpleLoopFilter.of_params params).interior_limit_
        = max 1 (min ((SimpleLoopFilter.of_params params).filter_level_
                        >>> (if params.sharpness_level > 4 then 2 else 1))
                     (9 - params.sharpness_level))) ∧
    1 ≤ (SimpleLoopFilter.of_params params).interior_limit_ ∧
    (SimpleLoopFilter.of_params params).interior_limit_ ≤ 63 ∧
    (0 < params.sharpness_level →
      (SimpleLoopFilter.of_params params).interior_limit_ ≤ 9 - params.sharpness_level) := by
  have hL := clamp63_le params.filter_level
  have hI := interior_limit_eq params (by omega)
  have hlevel : (SimpleLoopFilter.of_params params).filter_level_ = clamp63 params.filter_level :=
    rfl
  refine ⟨rfl, ?_⟩
  rw [hlevel]
  by_cases h0 : params.sharpness_level = 0
  · rw [if_pos h0] at hI
    refine ⟨fun _ => by omega, fun h => by omega, by omega, by omega, fun h => by omega⟩
  · rw [if_neg h0] at hI
    by_cases h4 : params.sharpness_level > 4
    · simp only [h4, if_true] at hI ⊢
      rw [Nat.shiftRight_eq_div_pow]
      refine ⟨fun h => by omega, fun _ => by omega, by omega, by omega, fun _ => by omega⟩
    · simp only [h4, if_false] at hI ⊢
      rw [Nat.shiftRight_eq_div_pow]
      refine ⟨fun h => by omega, fun _ => by omega, by omega, by omega, fun _ => by omega⟩

/-- Witness for C8: level 63 with sharpness 5 is shifted by 2 to 15 and
capped at `9 - 5 = 4`; level 1 with sharpness 1 is shifted to 0 and floored
at 1. -/
theorem interior_limit_formula_witness :
    (SimpleLoopFilter.of_params
        { type := LoopFilterType.Normal, filter_level := 63, sharpness_level := 5 }).interior_limit_
      = 4 ∧
    (SimpleLoopFilter.of_params
        { type := LoopFilterType.Normal, filter_level := 63, sharpness_level := 5 }).interior_limit_
      ≤ 9 - 5 ∧
    (SimpleLoopFilter.of_params
        { type := LoopFilterType.Normal, filter_level := 1, sharpness_level := 1 }).interior_limit_
      = 1 :=
  ⟨by decide,
   (interior_limit_formula
      { type := LoopFilterType.Normal, filter_level := 63, sharpness_level := 5 }
      (by decide)).2.2.2.2.2 (by decide),
   by decide⟩

/-- C9: for every Normal-type `FilterParameters` value and `key_frame` flag
the `NormalLoopFilter` constructor returns a filter over the simple filter
of the same parameters whose high-edge-variance threshold is
`(L ≥ 15) + (L ≥ 40) + (L ≥ 20 and not key_frame)` for the clamped level
`L`; the threshold is at most 3, and at most 2 on key frames. A level of 20
on a non-key frame gives 2. -/
theorem normal_filter_hev_threshold (params : FilterParameters) (key_frame : Bool)
    (htype : params.type = LoopFilterType.Normal) :
    (∃ f : NormalLoopFilter,
      NormalLoopFilter.of_params key_frame params = .ok f ∧
      f.simple_ = SimpleLoopFilter.of_params params ∧
      f.simple_.filter_level_ = clamp63 params.filter_level ∧
      f.high_edge_variance_threshold_
        = (if 15 ≤ f.simple_.filter_level_ then 1 else 0)
          + (if 40 ≤ f.simple_.filter_level_ then 1 else 0)
          + (if 20 ≤ f.simple_.filter_level_ ∧ key_frame = false then 1 else 0) ∧
      f.high_edge_variance_threshold_ ≤ 3 ∧
      (key_frame = true → f.high_edge_variance_threshold_ ≤ 2)) ∧
    (∀ s : Nat,
      (NormalLoopFilter.of_params false
        { type := LoopFilterType.Normal, filter_level := 20, sharpness_level := s }).map
        NormalLoopFilter.high_edge_variance_threshold_ = .ok 2) := by
  constructor
  · unfold NormalLoopFilter.of_params
    simp only [htype, ne_eq, not_true_eq_false, if_false]
    refine ⟨_, rfl, rfl, rfl, ?_, ?_, ?_⟩
    · simp only
      generalize (SimpleLoopFilter.of_params params).filter_level_ = L
      cases key_frame <;> simp only [to_uint8] <;> split <;> split <;> split <;> simp
    · simp only
      generalize (SimpleLoopFilter.of_params params).filter_level_ = L
      cases key_frame <;> simp only [to_uint8] <;> split <;> split <;> split <;> simp
    · intro hk
      subst hk
      simp only
      generalize (SimpleLoopFilter.of_params params).filter_level_ = L
      by_cases h15 : 15 ≤ L <;> by_cases h40 : 40 ≤ L <;>
        simp [h15, h40, to_uint8]
  · intro s
    simp [NormalLoopFilter.of_params, SimpleLoopFilter.of_params, clamp63, to_uint8, Except.map]

/-- Witness for C9: the Normal filter of level 45 on a non-key frame, where
all three tests of the threshold hold. -/
theorem normal_filter_hev_threshold_witness :
    ∃ f : NormalLoopFilter,
      NormalLoopFilter.of_params false
        { type := LoopFilterType.Normal, filter_level := 45, sharpness_level := 0 } = .ok f ∧
      f.simple_ = SimpleLoopFilter.of_params
        { type := LoopFilterType.Normal, filter_level := 45, sharpness_level := 0 } ∧
      f.simple_.filter_level_ = clamp63 45 ∧
      f.high_edge_variance_threshold_
        = (if 15 ≤ f.simple_.filter_level_ then 1 else 0)
          + (if 40 ≤ f.simple_.filter_level_ then 1 else 0)
          + (if 20 ≤ f.simple_.filter_level_ ∧ false = false then 1 else 0) ∧
      f.high_edge_variance_threshold_ ≤ 3 ∧
      (false = true → f.high_edge_variance_threshold_ ≤ 2) :=
  (normal_filter_hev_threshold
    { type := LoopFilterType.Normal, filter_level := 45, sharpness_level := 0 } false rfl).1

/-- C10: for every `FilterParameters` value, adjustment tables, reference
frame `r` and macroblock mode `m`, `FilterParameters::adjust` returns the
same type and sharpness level and the filter level
`filter_level + ref_adjustments[r] + d`, where `d` is `mode_adjustments[0]`
for `CURRENT_FRAME` with `B_PRED`, 0 for `CURRENT_FRAME` with another mode,
and `mode_adjustments[2]` for any other reference frame. -/
theorem adjust_changes_only_filter_level (params : FilterParameters)
    (ref_adjustments mode_adjustments : SafeArray Int 4) (r : reference_frame) (m : mbmode) :
    ∃ adjusted : FilterParameters,
      params.adjust ref_adjustments mode_adjustments r m = .ok adjusted ∧
      adjusted.type = params.type ∧
      adjusted.sharpness_level = params.sharpness_level ∧
      adjusted.filter_level
        = params.filter_level + ref_adjustments.storage ⟨r.val, r.val_lt⟩
          + (if r = reference_frame.CURRENT_FRAME then
              (if m = mbmode.B_PRED then mode_adjustments.storage 0 else 0)
             else mode_adjustments.storage 2) := by
  refine ⟨_, adjust_eq params ref_adjustments mode_adjustments r m, rfl, rfl, ?_⟩
  simp only
  omega

/-! ## Macroblock headers -/

section HeaderLemmas

variable {σ : Type}

/-- Decoding a segment id with three probabilities and a loop budget of at
least 2 always returns, with a symbol in `0 .. 3`. -/
theorem read_segment_id_ok (get : σ → Nat → Bool × σ) (fuel : Nat) (present : Bool)
    (p0 p1 p2 : Nat) (data : σ) :
    ∃ (id : Option Nat) (data' : σ),
      read_segment_id get (fuel + 2) present [p0, p1, p2] data = .ok (id, data') ∧
      (id.isSome = present) ∧ (present = false → data' = data) := by
  cases present with
  | false => exact ⟨none, data, by simp [read_segment_id], rfl, fun _ => rfl⟩
  | true =>
    have hverify : tree_verify segment_id_tree = true := by decide
    have h0 : tree_loop get segment_id_tree [p0, p1, p2] (fuel + 2) ((0 : Nat) : Int) data
        = (if (get data p0).1 then
            (if (get (get data p0).2 p2).1 then .ok (-3, (get (get data p0).2 p2).2)
             else .ok (-2, (get (get data p0).2 p2).2))
           else
            (if (get (get data p0).2 p1).1 then .ok (-1, (get (get data p0).2 p1).2)
             else .ok (0, (get (get data p0).2 p1).2))) := by
      rw [tree_loop_succ]
      cases hb0 : (get data p0).1 with
      | false =>
        have h2 : tree_loop get segment_id_tree [p0, p1, p2] (fuel + 1) ((2 : Nat) : Int)
            (get data p0).2
            = (if (get (get data p0).2 p1).1 then .ok (-1, (get (get data p0).2 p1).2)
               else .ok (0, (get (get data p0).2 p1).2)) := by
          rw [tree_loop_succ]
          cases hb1 : (get (get data p0).2 p1).1 <;>
            simp [ref_step, segment_id_tree, hb1]
        simp only [Nat.cast_ofNat, segment_id_tree] at h2
        simp [ref_step, segment_id_tree, hb0, h2]
      | true =>
        have h4 : tree_loop get segment_id_tree [p0, p1, p2] (fuel + 1) ((4 : Nat) : Int)
            (get data p0).2
            = (if (get (get data p0).2 p2).1 then .ok (-3, (get (get data p0).2 p2).2)
               else .ok (-2, (get (get data p0).2 p2).2)) := by
          rw [tree_loop_succ]
          cases hb1 : (get (get data p0).2 p2).1 <;>
            simp [ref_step, segment_id_tree, hb1]
        simp only [Nat.cast_ofNat, segment_id_tree] at h4
        simp [ref_step, segment_id_tree, hb0, h4]
    simp only [Nat.cast_zero] at h0
    unfold read_segment_id tree
    simp only [hverify, if_true, h0]
    cases (get data p0).1 <;> simp only [if_true, if_false, Bool.false_eq_true]
    · cases (get (get data p0).2 p1).1 <;> simp
    · cases (get (get data p0).2 p2).1 <;> simp

/-- The reference frame of a header does not depend on its
`motion_vectors_flipped_` member. -/
theorem reference_flipped_irrelevant (h : InterFrameMacroblockHeader) (b : Bool) :
    InterFrameMacroblockHeader.reference { h with motion_vectors_flipped_ := b }
      = h.reference := by
  simp [InterFrameMacroblockHeader.reference]

end HeaderLemmas

/-- C11: for every inter-frame macroblock header, `reference()` returns
`CURRENT_FRAME` when `is_inter_mb` is false, `LAST_FRAME` when `is_inter_mb`
holds and `sel1` is false, `GOLDEN_FRAME` when `is_inter_mb` and `sel1` hold
and `sel2` is false, and `ALTREF_FRAME` when `is_inter_mb`, `sel1` and `sel2`
all hold. -/
theorem reference_mapping (h : InterFrameMacroblockHeader) :
    (h.is_inter_mb = false → h.reference = .ok reference_frame.CURRENT_FRAME) ∧
    (h.is_inter_mb = true → h.mb_ref_frame_sel1 = some false →
      h.reference = .ok reference_frame.LAST_FRAME) ∧
    (h.is_inter_mb = true → h.mb_ref_frame_sel1 = some true →
      h.mb_ref_frame_sel2 = some false → h.reference = .ok reference_frame.GOLDEN_FRAME) ∧
    (h.is_inter_mb = true → h.mb_ref_frame_sel1 = some true →
      h.mb_ref_frame_sel2 = some true → h.reference = .ok reference_frame.ALTREF_FRAME) := by
  refine ⟨?_, ?_, ?_, ?_⟩
  · intro hi
    simp [InterFrameMacroblockHeader.reference, hi]
  · intro hi h1
    simp [InterFrameMacroblockHeader.reference, hi, h1, optional_get]
  · intro hi h1 h2
    simp [InterFrameMacroblockHeader.reference, hi, h1, h2, optional_get]
  · intro hi h1 h2
    simp [InterFrameMacroblockHeader.reference, hi, h1, h2, optional_get]

/-- Witness for C11: an inter macroblock with `sel1` set and `sel2` clear
refers to the golden frame. -/
theorem reference_mapping_witness :
    InterFrameMacroblockHeader.reference
      { segment_id := none, mb_skip_coeff := some false, is_inter_mb := true
        mb_ref_frame_sel1 := some true, mb_ref_frame_sel2 := some false
        motion_vectors_flipped_ := false }
      = .ok reference_frame.GOLDEN_FRAME :=
  (reference_mapping
    { segment_id := none, mb_skip_coeff := some false, is_inter_mb := true
      mb_ref_frame_sel1 := some true, mb_ref_frame_sel2 := some false
      motion_vectors_flipped_ := false }).2.2.1 rfl rfl rfl

/-- The header returned by the initialiser of `motion_vectors_flipped_`. -/
theorem flipped_of_init (partly : InterFrameMacroblockHeader) (fh : InterFrameHeader)
    (h : InterFrameMacroblockHeader) (hinit : init_motion_vectors_flipped partly fh = .ok h) :
    (h.motion_vectors_flipped_ = true ↔
      (h.reference = .ok reference_frame.GOLDEN_FRAME ∧ fh.sign_bias_golden = true) ∨
      (h.reference = .ok reference_frame.ALTREF_FRAME ∧ fh.sign_bias_alternate = true)) ∧
    (h.reference = .ok reference_frame.CURRENT_FRAME ∨
      h.reference = .ok reference_frame.LAST_FRAME →
      h.motion_vectors_flipped_ = false) := by
  unfold init_motion_vectors_flipped at hinit
  cases hr : partly.reference with
  | error e => simp [hr] at hinit
  | ok r =>
    simp only [hr, Except.ok.injEq] at hinit
    subst hinit
    rw [reference_flipped_irrelevant, hr]
    cases r <;> cases fh.sign_bias_golden <;> cases fh.sign_bias_alternate <;> simp

/-- The initialiser of `motion_vectors_flipped_` succeeds on the members
that the constructor has read before it: `sel1` is present when the
macroblock is inter-coded and `sel2` when `sel1` is set. -/
theorem init_motion_vectors_flipped_ok {σ : Type} (get : σ → Nat → Bool × σ)
    (segment_id : Option Nat) (skip : Option Bool) (data : σ) (fh : InterFrameHeader) :
    ∃ h : InterFrameMacroblockHeader,
      init_motion_vectors_flipped
        { segment_id := segment_id, mb_skip_coeff := skip
          is_inter_mb := (get data fh.prob_inter).1
          mb_ref_frame_sel1 :=
            (read_optional_flag get (get data fh.prob_inter).1 fh.prob_references_last
              (get data fh.prob_inter).2).1
          mb_ref_frame_sel2 :=
            (read_optional_flag get
              ((read_optional_flag get (get data fh.prob_inter).1 fh.prob_references_last
                (get data fh.prob_inter).2).1.getD false)
              fh.prob_references_golden
              (read_optional_flag get (get data fh.prob_inter).1 fh.prob_references_last
                (get data fh.prob_inter).2).2).1
          motion_vectors_flipped_ := false } fh = .ok h := by
  unfold init_motion_vectors_flipped InterFrameMacroblockHeader.reference read_optional_flag
  cases h1 : (get data fh.prob_inter).1 with
  | false => simp
  | true =>
    cases h2 : (get (get data fh.prob_inter).2 fh.prob_references_last).1 with
    | false => simp [optional_get, h2]
    | true =>
      cases h3 : (get (get (get data fh.prob_inter).2 fh.prob_references_last).2
          fh.prob_references_golden).1 <;>
        simp [optional_get, h2, h3]

/-- C12: whenever the constructor of `InterFrameMacroblockHeader` builds a
header, its `motion_vectors_flipped_` is true if and only if
(`reference()` is `GOLDEN_FRAME` and `sign_bias_golden`) or (`reference()` is
`ALTREF_FRAME` and `sign_bias_alternate`), and it is false when the reference
is `CURRENT_FRAME` or `LAST_FRAME`; and the constructor does build a header
for every bit source when `prob_skip_false` is present (three segment-tree
probabilities, loop budget at least 2). -/
theorem motion_vectors_flipped_iff :
    (∀ (σ : Type) (get : σ → Nat → Bool × σ) (fuel : Nat) (data data' : σ)
        (frame_header : InterFrameHeader) (mb_segment_tree_probs : List Nat)
        (h : InterFrameMacroblockHeader),
        InterFrameMacroblockHeader.of_data get fuel data frame_header mb_segment_tree_probs
          = .ok (h, data') →
        (h.motion_vectors_flipped_ = true ↔
          (h.reference = .ok reference_frame.GOLDEN_FRAME ∧
            frame_header.sign_bias_golden = true) ∨
          (h.reference = .ok reference_frame.ALTREF_FRAME ∧
            frame_header.sign_bias_alternate = true)) ∧
        (h.reference = .ok reference_frame.CURRENT_FRAME ∨
          h.reference = .ok reference_frame.LAST_FRAME →
          h.motion_vectors_flipped_ = false)) ∧
    (∀ (σ : Type) (get : σ → Nat → Bool × σ) (fuel : Nat) (data : σ)
        (frame_header : InterFrameHeader) (p0 p1 p2 : Nat),
        frame_header.prob_skip_false.isSome = true →
        ∃ (h : InterFrameMacroblockHeader) (data' : σ),
          InterFrameMacroblockHeader.of_data get (fuel + 2) data frame_header [p0, p1, p2]
            = .ok (h, data')) := by
  constructor
  · intro σ get fuel data data' fh probs h hbuilt
    unfold InterFrameMacroblockHeader.of_data at hbuilt
    split at hbuilt
    · simp at hbuilt
    · split at hbuilt
      · simp at hbuilt
      · dsimp only at hbuilt
        split at hbuilt
        · simp at hbuilt
        · rename_i h' hinit
          simp only [Except.ok.injEq, Prod.mk.injEq] at hbuilt
          obtain ⟨hh, _⟩ := hbuilt
          subst hh
          exact flipped_of_init _ fh h' hinit
  · intro σ get fuel data fh p0 p1 p2 hskip
    obtain ⟨id, data1, hseg, _, _⟩ := read_segment_id_ok get fuel
      (updates_segmentation_map fh.update_segmentation) p0 p1 p2 data
    obtain ⟨prob, hprob⟩ : ∃ prob, fh.prob_skip_false = some prob :=
      Option.isSome_iff_exists.mp hskip
    unfold InterFrameMacroblockHeader.of_data
    simp only [hseg, hprob, optional_get]
    obtain ⟨h, hinit⟩ := init_motion_vectors_flipped_ok get id
      (read_optional_flag get (some prob).isSome prob data1).1
      (read_optional_flag get (some prob).isSome prob data1).2 fh
    rw [hinit]
    exact ⟨h, _, rfl⟩

/-- Witness for C12: with the bits `0` (skip), `1` (inter), `1` (`sel1`),
`0` (`sel2`) the macroblock refers to the golden frame, whose sign bias is
set, and its motion vectors are flipped. -/
theorem motion_vectors_flipped_iff_witness :
    InterFrameMacroblockHeader.of_data Script.get 2 ⟨[false, true, true, false], []⟩
        golden_biased_header [128, 128, 128]
      = .ok ({ segment_id := none, mb_skip_coeff := some false, is_inter_mb := true
               mb_ref_frame_sel1 := some true, mb_ref_frame_sel2 := some false
               motion_vectors_flipped_ := true },
             ⟨[], [200, 100, 110, 120]⟩) ∧
    ((true = true) ↔
      (InterFrameMacroblockHeader.reference
          { segment_id := none, mb_skip_coeff := some false, is_inter_mb := true
            mb_ref_frame_sel1 := some true, mb_ref_frame_sel2 := some false
            motion_vectors_flipped_ := true }
        = .ok reference_frame.GOLDEN_FRAME ∧ golden_biased_header.sign_bias_golden = true) ∨
      (InterFrameMacroblockHeader.reference
          { segment_id := none, mb_skip_coeff := some false, is_inter_mb := true
            mb_ref_frame_sel1 := some true, mb_ref_frame_sel2 := some false
            motion_vectors_flipped_ := true }
        = .ok reference_frame.ALTREF_FRAME ∧
        golden_biased_header.sign_bias_alternate = true)) :=
  ⟨by decide,
   (motion_vectors_flipped_iff.1 Script Script.get 2 ⟨[false, true, true, false], []⟩
      ⟨[], [200, 100, 110, 120]⟩ golden_biased_header [128, 128, 128]
      { segment_id := none, mb_skip_coeff := some false, is_inter_mb := true
        mb_ref_frame_sel1 := some true, mb_ref_frame_sel2 := some false
        motion_vectors_flipped_ := true }
      (by decide)).1⟩

/-- C17 (evaluation of the code): for a key-frame header whose
`prob_skip_false` is absent the constructor of `KeyFrameMacroblockHeader`
builds no header, for any bit source: the initialiser of `mb_skip_coeff`
reads `prob_skip_false.get()` (without a segmentation update the result is
the failed read itself). When `prob_skip_false` is present with value `p`
the header is built, `mb_skip_coeff` is the bit decoded with `p` right after
the segment id, and `segment_id` is present exactly when the segmentation
update is present with `update_mb_segmentation_map` set. -/
theorem key_frame_header_reads_absent_optional :
    (∀ (σ : Type) (get : σ → Nat → Bool × σ) (fuel : Nat) (data : σ)
        (frame_header : KeyFrameHeader) (mb_segment_tree_probs : List Nat)
        (r : KeyFrameMacroblockHeader × σ),
        KeyFrameMacroblockHeader.of_data get fuel data
          { frame_header with prob_skip_false := none } mb_segment_tree_probs ≠ .ok r) ∧
    (∀ (σ : Type) (get : σ → Nat → Bool × σ) (fuel : Nat) (data : σ)
        (frame_header : KeyFrameHeader) (mb_segment_tree_probs : List Nat),
        KeyFrameMacroblockHeader.of_data get fuel data
          { frame_header with update_segmentation := none, prob_skip_false := none }
          mb_segment_tree_probs = .error .uninitialized) ∧
    (∀ (σ : Type) (get : σ → Nat → Bool × σ) (fuel : Nat) (data : σ)
        (frame_header : KeyFrameHeader) (p p0 p1 p2 : Nat),
        ∃ (id : Option Nat) (data1 : σ),
          read_segment_id get (fuel + 2)
            (updates_segmentation_map frame_header.update_segmentation) [p0, p1, p2] data
            = .ok (id, data1) ∧
          id.isSome = updates_segmentation_map frame_header.update_segmentation ∧
          KeyFrameMacroblockHeader.of_data get (fuel + 2) data
            { frame_header with prob_skip_false := some p } [p0, p1, p2]
            = .ok ({ segment_id := id, mb_skip_coeff := some (get data1 p).1 },
                   (get data1 p).2)) := by
  refine ⟨?_, ?_, ?_⟩
  · intro σ get fuel data fh probs r
    unfold KeyFrameMacroblockHeader.of_data
    cases read_segment_id get fuel (updates_segmentation_map fh.update_segmentation)
        probs data with
    | error e => simp
    | ok r1 => simp [optional_get]
  · intro σ get fuel data fh probs
    simp [KeyFrameMacroblockHeader.of_data, updates_segmentation_map, read_segment_id,
      optional_get]
  · intro σ get fuel data fh p p0 p1 p2
    obtain ⟨id, data1, hseg, hid, _⟩ := read_segment_id_ok get fuel
      (updates_segmentation_map fh.update_segmentation) p0 p1 p2 data
    refine ⟨id, data1, hseg, hid, ?_⟩
    simp [KeyFrameMacroblockHeader.of_data, hseg, optional_get, read_optional_flag]

/-! ## Token parsing of a skipped macroblock -/

/-- C13: for every macroblock whose header has `mb_skip_coeff` present and
true, `parse_tokens` returns with the bool decoder state unchanged and the
macroblock unchanged (no coefficient and no `has_nonzero` flag of the `Y2`,
`Y`, `U` and `V` blocks changes), so the aggregate `has_nonzero_`, false after
construction, is still false. -/
theorem parse_tokens_skipped {σ Header : Type} [MacroblockHeader Header]
    (T : TokenDecoder σ Header) (mb : Macroblock Header) (data : σ)
    (hskip : MacroblockHeader.mb_skip_coeff mb.header_ = some true) :
    mb.parse_tokens T data = (mb, data) ∧
    (mb.parse_tokens T data).2 = data ∧
    (mb.parse_tokens T data).1.Y2_ = mb.Y2_ ∧
    (mb.parse_tokens T data).1.Y_ = mb.Y_ ∧
    (mb.parse_tokens T data).1.U_ = mb.U_ ∧
    (mb.parse_tokens T data).1.V_ = mb.V_ ∧
    (mb.has_nonzero_ = false → (mb.parse_tokens T data).1.has_nonzero_ = false) := by
  have h : mb.parse_tokens T data = (mb, data) := by
    simp [Macroblock.parse_tokens, hskip]
  rw [h]
  exact ⟨rfl, rfl, rfl, rfl, rfl, rfl, fun hz => hz⟩

/-- Witness for C13: with the skip flag set the bits `1, 1, 1` are not read
and the blank macroblock is unchanged; with the flag clear the same decoder
reads them and sets `has_nonzero_`. -/
theorem parse_tokens_skipped_witness :
    (blank_macroblock (some true)).parse_tokens one_bit_tokens ⟨[true, true, true], []⟩
      = (blank_macroblock (some true), ⟨[true, true, true], []⟩) ∧
    ((blank_macroblock (some false)).parse_tokens one_bit_tokens
      ⟨[true, true, true], []⟩).1.has_nonzero_ = true ∧
    ((blank_macroblock (some false)).parse_tokens one_bit_tokens
      ⟨[true, true, true], []⟩).2.bits = [] :=
  ⟨(parse_tokens_skipped one_bit_tokens (blank_macroblock (some true))
      ⟨[true, true, true], []⟩ rfl).1,
   by decide, by decide⟩

/-! ## Walks on well-formed trees -/

section WellformedTrees

variable {σ : Type}

theorem tree_wellformed_entry (nodes : List Int) (hw : tree_wellformed nodes = true)
    (j : Nat) (v : Int) (hj : nodes[j]? = some v) (hv : 0 < v) :
    v % 2 = 0 ∧ (j : Int) < v ∧ v + 2 ≤ (nodes.length : Int) := by
  unfold tree_wellformed at hw
  rw [List.all_eq_true] at hw
  have hlt : j < nodes.length := by
    rcases Nat.lt_or_ge j nodes.length with h | h
    · exact h
    · rw [List.getElem?_eq_none h] at hj
      exact absurd hj (by simp)
  have := hw j (List.mem_range.mpr hlt)
  rw [hj] at this
  have hnot : ¬ v ≤ 0 := by omega
  have h3 : (2 ∣ v ∧ (j : Int) < v) ∧ v + 2 ≤ (nodes.length : Int) := by
    simpa [hnot] using this
  exact ⟨by omega, h3.1.2, h3.2⟩

theorem tree_verify_of_wellformed (nodes : List Int) (hw : tree_wellformed nodes = true) :
    tree_verify nodes = true := by
  unfold tree_verify
  rw [List.all_eq_true]
  intro v hv
  obtain ⟨j, hj, hjv⟩ := List.getElem_of_mem hv
  by_cases hpos : v > 0
  · have h := tree_wellformed_entry nodes hw j v (by rw [List.getElem?_eq_getElem hj, hjv]) hpos
    simp [hpos, h.1]
  · simp [hpos]

/-- On a well-formed tree with one probability per pair of nodes the loop of
`tree`, started at an even index, ends at a leaf of the tree within half the
number of nodes that follow the index. -/
theorem tree_loop_terminates (get : σ → Nat → Bool × σ) (nodes : List Int) (probs : List Nat)
    (hw : tree_wellformed nodes = true) (hlen : nodes.length = 2 * probs.length) :
    ∀ (n i : Nat) (data : σ) (fuel : Nat),
      i % 2 = 0 → i + 2 ≤ nodes.length → nodes.length ≤ i + 2 * n → n ≤ fuel →
      ∃ (v : Int) (data' : σ),
        tree_loop get nodes probs fuel (i : Int) data = .ok (v, data') ∧ v ≤ 0 ∧ v ∈ nodes := by
  intro n
  induction n with
  | zero =>
    intro i data fuel _ h2 h3 _
    omega
  | succ n ih =>
    intro i data fuel hieven h2 h3 hfuel
    obtain ⟨f, rfl⟩ : ∃ f, fuel = f + 1 := ⟨fuel - 1, by omega⟩
    rw [tree_loop_succ]
    have hp : i / 2 < probs.length := by omega
    have hjlt : i + (get data probs[i / 2]).1.toNat < nodes.length := by
      cases (get data probs[i / 2]).1 <;> simp <;> omega
    have hnode : nodes[i + (get data probs[i / 2]).1.toNat]?
        = some nodes[i + (get data probs[i / 2]).1.toNat] := List.getElem?_eq_getElem hjlt
    generalize nodes[i + (get data probs[i / 2]).1.toNat] = v at hnode
    have hstep : ref_step get nodes probs i data = some (v, (get data probs[i / 2]).2) := by
      unfold ref_step
      rw [List.getElem?_eq_getElem hp]
      simp only
      rw [hnode]
    rw [hstep]
    simp only
    have hmem : v ∈ nodes := List.getElem?_mem hnode
    by_cases hpos : v > 0
    · rw [if_pos hpos]
      have hentry := tree_wellformed_entry nodes hw (i + (get data probs[i / 2]).1.toNat) v
        hnode hpos
      have hcast : ((v.toNat : Nat) : Int) = v := Int.toNat_of_nonneg (by omega)
      have hnext := ih v.toNat (get data probs[i / 2]).2 f (by omega) (by omega) (by
        have : (i : Int) + 2 ≤ v := by
          have hb : (0 : Int) ≤ ((get data probs[i / 2]).1.toNat : Int) := by omega
          omega
        omega) (by omega)
      rw [hcast] at hnext
      exact hnext
    · rw [if_neg hpos]
      exact ⟨v, _, rfl, by omega, hmem⟩

/-- On a well-formed tree `tree` returns for every bit source once the loop
budget covers the probabilities, and the symbol is the negation of a leaf. -/
theorem tree_terminates (get : σ → Nat → Bool × σ) (nodes : List Int) (probs : List Nat)
    (fuel : Nat) (data : σ)
    (hw : tree_wellformed nodes = true) (hlen : nodes.length = 2 * probs.length)
    (hprobs : 0 < probs.length) (hfuel : probs.length ≤ fuel) :
    ∃ (v : Int) (data' : σ),
      tree get fuel nodes probs data = .ok (-v, data') ∧ v ≤ 0 ∧ v ∈ nodes := by
  obtain ⟨v, data', hloop, hv, hmem⟩ := tree_loop_terminates get nodes probs hw hlen
    probs.length 0 data fuel (by simp) (by omega) (by omega) hfuel
  simp only [Nat.cast_zero] at hloop
  refine ⟨v, data', ?_, hv, hmem⟩
  simp [tree, tree_verify_of_wellformed nodes hw, hloop]

end WellformedTrees

/-! ## Prediction modes of macroblocks without `B_PRED` -/

section PredictionModeLemmas

variable {σ : Type}

theorem mbmode.of_val_val (m : mbmode) : mbmode.of_val m.val = some m := by
  cases m <;> rfl

/-- Outside `B_PRED` the key-frame loop over the `Y` blocks reads no bit and
gives every block the implied mode. -/
theorem kf_sub_block_modes_implied (get : σ → Nat → Bool × σ) (fuel : Nat)
    (kf_b_mode_probs : bmode → bmode → List Nat) (above left : Option (List bmode))
    (y_mode : mbmode) (mode : bmode) (hy : y_mode ≠ mbmode.B_PRED)
    (himplied : implied_subblock_mode y_mode = .ok mode) :
    ∀ (todo done : List (Block bmode)) (data : σ),
      kf_sub_block_modes get fuel kf_b_mode_probs above left y_mode done todo data
        = .ok (done ++ todo.map (fun b => { b with prediction_mode := mode }), data) := by
  intro todo
  induction todo with
  | nil => intro done data; simp [kf_sub_block_modes]
  | cons block rest ih =>
    intro done data
    rw [kf_sub_block_modes]
    simp only [hy, if_false, himplied]
    rw [ih]
    simp

/-- Outside `B_PRED` the inter-frame loop over the `Y` blocks of an intra
macroblock reads no bit and gives every block the implied mode. -/
theorem intra_sub_block_modes_implied (get : σ → Nat → Bool × σ) (fuel : Nat)
    (invariant_b_mode_probs : List Nat)
    (y_mode : mbmode) (mode : bmode) (hy : y_mode ≠ mbmode.B_PRED)
    (himplied : implied_subblock_mode y_mode = .ok mode) :
    ∀ (todo done : List (Block bmode)) (data : σ),
      intra_sub_block_modes get fuel invariant_b_mode_probs y_mode done todo data
        = .ok (done ++ todo.map (fun b => { b with prediction_mode := mode }), data) := by
  intro todo
  induction todo with
  | nil => intro done data; simp [intra_sub_block_modes]
  | cons block rest ih =>
    intro done data
    rw [intra_sub_block_modes]
    simp only [hy, if_false, himplied]
    rw [ih]
    simp

/-- A read of a luma mode with either luma tree returns one of the five
intra modes. -/
theorem y_mode_read (get : σ → Nat → Bool × σ) (fuel : Nat) (nodes : List Int)
    (hnodes : nodes = kf_y_mode_tree ∨ nodes = y_mode_tree)
    (probs : List Nat) (hprobs : probs.length = 4) (data : σ) :
    ∃ (y_mode : mbmode) (data1 : σ),
      tree get (fuel + 4) nodes probs data = .ok (y_mode.val, data1) ∧
      (y_mode ≠ mbmode.B_PRED → ∃ mode : bmode, implied_subblock_mode y_mode = .ok mode) := by
  have hw : tree_wellformed nodes = true := by
    rcases hnodes with h | h <;> subst h <;> decide
  have hlen : nodes.length = 2 * probs.length := by
    rcases hnodes with h | h <;> subst h <;> simp [kf_y_mode_tree, y_mode_tree, hprobs]
  obtain ⟨v, data1, hread, hv, hmem⟩ := tree_terminates get nodes probs (fuel + 4) data hw hlen
    (by omega) (by omega)
  have hleaf : v = 0 ∨ v = -1 ∨ v = -2 ∨ v = -3 ∨ v = -4 := by
    have hall : ∀ w ∈ nodes, w ≤ 0 → (w = 0 ∨ w = -1 ∨ w = -2 ∨ w = -3 ∨ w = -4) := by
      rcases hnodes with h | h <;> subst h <;> decide
    exact hall v hmem hv
  rcases hleaf with h | h | h | h | h <;> subst h
  · exact ⟨mbmode.DC_PRED, data1, hread, fun _ => ⟨_, rfl⟩⟩
  · exact ⟨mbmode.V_PRED, data1, hread, fun _ => ⟨_, rfl⟩⟩
  · exact ⟨mbmode.H_PRED, data1, hread, fun _ => ⟨_, rfl⟩⟩
  · exact ⟨mbmode.TM_PRED, data1, hread, fun _ => ⟨_, rfl⟩⟩
  · exact ⟨mbmode.B_PRED, data1, hread, fun h => absurd rfl h⟩

/-- A read of a chroma mode returns one of the four chroma modes. -/
theorem uv_mode_read (get : σ → Nat → Bool × σ) (fuel : Nat)
    (probs : List Nat) (hprobs : probs.length = 3) (data : σ) :
    ∃ (uv_mode : mbmode) (data1 : σ),
      tree get (fuel + 4) uv_mode_tree probs data = .ok (uv_mode.val, data1) := by
  obtain ⟨v, data1, hread, hv, hmem⟩ := tree_terminates get uv_mode_tree probs (fuel + 4) data
    (by decide) (by simp [uv_mode_tree, hprobs]) (by omega) (by omega)
  have hleaf : v = 0 ∨ v = -1 ∨ v = -2 ∨ v = -3 := by
    have hall : ∀ w ∈ uv_mode_tree, w ≤ 0 → (w = 0 ∨ w = -1 ∨ w = -2 ∨ w = -3) := by decide
    exact hall v hmem hv
  rcases hleaf with h | h | h | h <;> subst h
  · exact ⟨mbmode.DC_PRED, data1, hread⟩
  · exact ⟨mbmode.V_PRED, data1, hread⟩
  · exact ⟨mbmode.H_PRED, data1, hread⟩
  · exact ⟨mbmode.TM_PRED, data1, hread⟩

end PredictionModeLemmas

/-- C14: for every key-frame macroblock and every intra-coded inter-frame
macroblock, the luma mode `m` is read with the luma tree, and if `m` is not
`B_PRED` then `decode_prediction_modes` returns with every `Y` sub-block set
to `implied_subblock_mode(m)` (`DC_PRED` to `B_DC_PRED`, `V_PRED` to
`B_VE_PRED`, `H_PRED` to `B_HE_PRED`, `TM_PRED` to `B_TM_PRED`) and with the
decoder state of the chroma-mode read that starts right after the luma-mode
read: no bit is consumed for the sub-block modes. -/
theorem sub_block_modes_implied :
    (∀ (σ : Type) (get : σ → Nat → Bool × σ) (fuel : Nat) (P : KeyFrameModeProbs)
        (above left : Option (List bmode)) (mb : Macroblock KeyFrameMacroblockHeader) (data : σ),
        P.kf_y_mode_probs.length = 4 → P.kf_uv_mode_probs.length = 3 → mb.U_ ≠ [] →
        ∃ (y_mode : mbmode) (data1 : σ),
          tree get (fuel + 4) kf_y_mode_tree P.kf_y_mode_probs data = .ok (y_mode.val, data1) ∧
          (y_mode ≠ mbmode.B_PRED →
            ∃ (mode : bmode) (uv_mode : mbmode) (data2 : σ)
              (mb' : Macroblock KeyFrameMacroblockHeader),
              implied_subblock_mode y_mode = .ok mode ∧
              tree get (fuel + 4) uv_mode_tree P.kf_uv_mode_probs data1
                = .ok (uv_mode.val, data2) ∧
              KeyFrameMacroblock.decode_prediction_modes get (fuel + 4) P above left mb data
                = .ok (mb', data2) ∧
              mb'.Y2_.prediction_mode = y_mode ∧
              mb'.Y_ = mb.Y_.map (fun b => { b with prediction_mode := mode }) ∧
              mb'.Y_.length = mb.Y_.length ∧
              (∀ b ∈ mb'.Y_, b.prediction_mode = mode))) ∧
    (∀ (σ : Type) (get : σ → Nat → Bool × σ) (fuel : Nat) (S : StdSort)
        (P : InterFrameModeProbs) (above left above_left : Option Neighbour)
        (mb : Macroblock InterFrameMacroblockHeader) (data : σ),
        mb.header_.is_inter_mb = false →
        P.y_mode_probs.length = 4 → P.uv_mode_probs.length = 3 → mb.U_ ≠ [] →
        ∃ (y_mode : mbmode) (data1 : σ),
          tree get (fuel + 4) y_mode_tree P.y_mode_probs data = .ok (y_mode.val, data1) ∧
          (y_mode ≠ mbmode.B_PRED →
            ∃ (mode : bmode) (uv_mode : mbmode) (data2 : σ)
              (mb' : Macroblock InterFrameMacroblockHeader),
              implied_subblock_mode y_mode = .ok mode ∧
              tree get (fuel + 4) uv_mode_tree P.uv_mode_probs data1
                = .ok (uv_mode.val, data2) ∧
              InterFrameMacroblock.decode_prediction_modes get (fuel + 4) S P above left
                above_left mb data = .ok (mb', data2) ∧
              mb'.Y2_.prediction_mode = y_mode ∧
              mb'.Y_ = mb.Y_.map (fun b => { b with prediction_mode := mode }) ∧
              mb'.Y_.length = mb.Y_.length ∧
              (∀ b ∈ mb'.Y_, b.prediction_mode = mode))) ∧
    (implied_subblock_mode mbmode.DC_PRED = .ok bmode.B_DC_PRED ∧
     implied_subblock_mode mbmode.V_PRED = .ok bmode.B_VE_PRED ∧
     implied_subblock_mode mbmode.H_PRED = .ok bmode.B_HE_PRED ∧
     implied_subblock_mode mbmode.TM_PRED = .ok bmode.B_TM_PRED) := by
  refine ⟨?_, ?_, ⟨rfl, rfl, rfl, rfl⟩⟩
  · intro σ get fuel P above left mb data hy huv hU
    obtain ⟨y_mode, data1, hread, himp⟩ := y_mode_read get fuel kf_y_mode_tree (Or.inl rfl)
      P.kf_y_mode_probs hy data
    refine ⟨y_mode, data1, hread, ?_⟩
    intro hnb
    obtain ⟨mode, hmode⟩ := himp hnb
    obtain ⟨uv_mode, data2, huvread⟩ := uv_mode_read get fuel P.kf_uv_mode_probs huv data1
    obtain ⟨u, us, hUeq⟩ := List.exists_cons_of_ne_nil hU
    have hset : (set_if_coded { mb.Y2_ with prediction_mode := y_mode }).prediction_mode
        = y_mode := by
      simp [set_if_coded, hnb]
    refine ⟨mode, uv_mode, data2,
      { mb with
        Y2_ := set_if_coded { mb.Y2_ with prediction_mode := y_mode }
        Y_ := mb.Y_.map (fun b => { b with prediction_mode := mode })
        U_ := { u with prediction_mode := uv_mode } :: us },
      hmode, huvread, ?_, hset, rfl, by simp, ?_⟩
    · unfold KeyFrameMacroblock.decode_prediction_modes
      simp only [hread, mbmode.of_val_val,
        kf_sub_block_modes_implied get (fuel + 4) P.kf_b_mode_probs above left y_mode mode hnb
          hmode, hUeq, huvread, List.nil_append]
    · intro b hb
      obtain ⟨b0, _, rfl⟩ := List.mem_map.mp hb
      rfl
  · intro σ get fuel S P above left above_left mb data hintra hy huv hU
    obtain ⟨y_mode, data1, hread, himp⟩ := y_mode_read get fuel y_mode_tree (Or.inr rfl)
      P.y_mode_probs hy data
    refine ⟨y_mode, data1, hread, ?_⟩
    intro hnb
    obtain ⟨mode, hmode⟩ := himp hnb
    obtain ⟨uv_mode, data2, huvread⟩ := uv_mode_read get fuel P.uv_mode_probs huv data1
    obtain ⟨u, us, hUeq⟩ := List.exists_cons_of_ne_nil hU
    have hset : (set_if_coded { mb.Y2_ with prediction_mode := y_mode }).prediction_mode
        = y_mode := by
      simp [set_if_coded, hnb]
    refine ⟨mode, uv_mode, data2,
      { mb with
        Y2_ := set_if_coded { mb.Y2_ with prediction_mode := y_mode }
        Y_ := mb.Y_.map (fun b => { b with prediction_mode := mode })
        U_ := { u with prediction_mode := uv_mode } :: us },
      hmode, huvread, ?_, hset, rfl, by simp, ?_⟩
    · unfold InterFrameMacroblock.decode_prediction_modes
      simp only [hintra, if_true, hread, mbmode.of_val_val,
        intra_sub_block_modes_implied get (fuel + 4) P.invariant_b_mode_probs y_mode mode hnb
          hmode, hUeq, huvread, List.nil_append]
    · intro b hb
      obtain ⟨b0, _, rfl⟩ := List.mem_map.mp hb
      rfl

/-- Witness for C14: on a key frame the bits `1, 0, 1` decode `V_PRED` and
the next bit `0` decodes the chroma mode `DC_PRED`; the sixteen `Y` blocks get
`B_VE_PRED` and exactly these four bits are read. -/
theorem sub_block_modes_implied_witness :
    KeyFrameMacroblock.decode_prediction_modes Script.get 4 example_kf_mode_probs none none
        (blank_macroblock (some false)) ⟨[true, false, true, false, true], []⟩
      = .ok ({ blank_macroblock (some false) with
               Y2_ := blank_block mbmode.V_PRED
               Y_ := List.replicate 16 (blank_block bmode.B_VE_PRED) },
             ⟨[true], [145, 156, 163, 142]⟩) ∧
    ∃ (y_mode : mbmode) (data1 : Script),
      tree Script.get (0 + 4) kf_y_mode_tree example_kf_mode_probs.kf_y_mode_probs
        ⟨[true, false, true, false, true], []⟩ = .ok (y_mode.val, data1) ∧
      (y_mode ≠ mbmode.B_PRED →
        ∃ (mode : bmode) (uv_mode : mbmode) (data2 : Script)
          (mb' : Macroblock KeyFrameMacroblockHeader),
          implied_subblock_mode y_mode = .ok mode ∧
          tree Script.get (0 + 4) uv_mode_tree example_kf_mode_probs.kf_uv_mode_probs data1
            = .ok (uv_mode.val, data2) ∧
          KeyFrameMacroblock.decode_prediction_modes Script.get (0 + 4) example_kf_mode_probs
            none none (blank_macroblock (some false)) ⟨[true, false, true, false, true], []⟩
            = .ok (mb', data2) ∧
          mb'.Y2_.prediction_mode = y_mode ∧
          mb'.Y_ = (blank_macroblock (some false)).Y_.map
            (fun b => { b with prediction_mode := mode }) ∧
          mb'.Y_.length = (blank_macroblock (some false)).Y_.length ∧
          (∀ b ∈ mb'.Y_, b.prediction_mode = mode)) :=
  ⟨by decide,
   sub_block_modes_implied.1 Script Script.get 0 example_kf_mode_probs none none
     (blank_macroblock (some false)) ⟨[true, false, true, false, true], []⟩
     (by decide) (by decide) (by decide)⟩

/-! ## Reconstruction without residual -/

/-- C15: for every macroblock whose aggregate `has_nonzero_` is false,
`intra_predict_and_inverse_transform` returns the raster of the intra
predictions alone (chroma `U` and `V` prediction, then the whole-macroblock
luma prediction, or the per-sub-block luma predictions in raster order when
the luma mode is `B_PRED`): no inverse DCT and no Walsh-Hadamard transform is
applied, whatever these operations are; and it does return when the `U` grid
is not empty. -/
theorem no_residual_prediction_only {R Header : Type} (ops : Reconstruction R)
    (mb : Macroblock Header) (raster : R) (hzero : mb.has_nonzero_ = false) :
    mb.intra_predict_and_inverse_transform ops raster = predictions_alone ops mb raster ∧
    (∀ (idct_Y : Block bmode → Nat → Nat → R → R) (idct_U idct_V : Block mbmode → Nat → Nat → R → R)
        (walsh : Block mbmode → List (Block bmode) → List (Block bmode)),
        mb.intra_predict_and_inverse_transform
          { ops with idct_Y_sub := idct_Y, idct_U_sub := idct_U, idct_V_sub := idct_V
                     walsh_transform := walsh } raster
        = mb.intra_predict_and_inverse_transform ops raster) ∧
    (mb.U_ ≠ [] → ∃ r : R, mb.intra_predict_and_inverse_transform ops raster = .ok r) := by
  have hmain : ∀ ops' : Reconstruction R,
      mb.intra_predict_and_inverse_transform ops' raster = predictions_alone ops' mb raster := by
    intro ops'
    unfold Macroblock.intra_predict_and_inverse_transform predictions_alone
    cases mb.U_ with
    | nil => rfl
    | cons u us =>
      simp only [hzero, Bool.false_eq_true, if_false]
  refine ⟨hmain ops, ?_, ?_⟩
  · intro idct_Y idct_U idct_V walsh
    rw [hmain, hmain]
    rfl
  · intro hU
    rw [hmain]
    unfold predictions_alone
    obtain ⟨u, us, hUeq⟩ := List.exists_cons_of_ne_nil hU
    rw [hUeq]
    simp only
    split <;> exact ⟨_, rfl⟩

/-- Witness for C15: a `DC_PRED` macroblock without residual gets the three
predictions only; with `has_nonzero_` set the inverse transforms run too. -/
theorem no_residual_prediction_only_witness :
    (blank_macroblock (some false)).intra_predict_and_inverse_transform recording_ops []
      = .ok [RasterOp.predict_U mbmode.DC_PRED, RasterOp.predict_V mbmode.DC_PRED,
             RasterOp.predict_Y mbmode.DC_PRED] ∧
    (blank_macroblock (some false)).intra_predict_and_inverse_transform recording_ops []
      = predictions_alone recording_ops (blank_macroblock (some false)) [] ∧
    (({ blank_macroblock (some false) with has_nonzero_ := true }
        : Macroblock KeyFrameMacroblockHeader).intra_predict_and_inverse_transform
        recording_ops []).map List.length = .ok 27 :=
  ⟨by decide,
   (no_residual_prediction_only recording_ops (blank_macroblock (some false)) [] rfl).1,
   by decide⟩

/-! ## The motion-vector census -/

/-- C16: for every `Scorer` (whatever votes were added to it) and every sort
that meets the contract of `std::sort`, `calculate()` returns; afterwards the
score list is the sorted list padded with zero-score zero-vector entries, it is
sorted by descending score, has at least three entries (exactly
`max 3 n` for `n` votes), `best_` is `scores[0]`, and `nearest_`, `near_` are
`scores[1]`, `scores[2]` when `scores[0]` holds the zero vector and
`scores[0]`, `scores[1]` otherwise. -/
theorem scorer_calculate_sorted (S : StdSort) (s : Scorer) :
    ∃ s' : Scorer, s.calculate S = .ok s' ∧
      s'.scores_ = S.sort s.scores_ ++
        List.replicate (3 - (S.sort s.scores_).length) ((0, (0, 0)) : ScoredMV) ∧
      s'.scores_.Perm
        (s.scores_ ++ List.replicate (3 - s.scores_.length) ((0, (0, 0)) : ScoredMV)) ∧
      s'.scores_.Pairwise (fun a b => a.1 ≥ b.1) ∧
      3 ≤ s'.scores_.length ∧
      s'.scores_.length = max 3 s.scores_.length ∧
      (∃ (first second third : ScoredMV) (rest : List ScoredMV),
        s'.scores_ = first :: second :: third :: rest ∧
        s'.best_ = first ∧
        (first.2 = (0, 0) → s'.nearest_ = second ∧ s'.near_ = third) ∧
        (first.2 ≠ (0, 0) → s'.nearest_ = first ∧ s'.near_ = second)) ∧
      s'.splitmv_score_ = s.splitmv_score_ ∧
      s'.motion_vectors_flipped_ = s.motion_vectors_flipped_ := by
  have hlen : (S.sort s.scores_).length = s.scores_.length := (S.perm s.scores_).length_eq
  have hsorted : (S.sort s.scores_ ++
      List.replicate (3 - (S.sort s.scores_).length) ((0, (0, 0)) : ScoredMV)).Pairwise
      (fun a b => a.1 ≥ b.1) := by
    rw [List.pairwise_append]
    refine ⟨List.Pairwise.imp (fun {a b} h => Nat.not_lt.mp h) (S.sorted s.scores_), ?_, ?_⟩
    · rw [List.pairwise_replicate]
      right
      exact Nat.le_refl _
    · intro a _ b hb
      rw [List.eq_of_mem_replicate hb]
      exact Nat.zero_le _
  have hperm : (S.sort s.scores_ ++
      List.replicate (3 - (S.sort s.scores_).length) ((0, (0, 0)) : ScoredMV)).Perm
      (s.scores_ ++ List.replicate (3 - s.scores_.length) ((0, (0, 0)) : ScoredMV)) := by
    rw [hlen]
    exact List.Perm.append_right _ (S.perm s.scores_)
  have hlength : (S.sort s.scores_ ++
      List.replicate (3 - (S.sort s.scores_).length) ((0, (0, 0)) : ScoredMV)).length
      = max 3 s.scores_.length := by
    rw [List.length_append, List.length_replicate, hlen]
    omega
  unfold Scorer.calculate
  generalize hsc : S.sort s.scores_ ++
      List.replicate (3 - (S.sort s.scores_).length) ((0, (0, 0)) : ScoredMV) = scores
    at hsorted hperm hlength
  simp only [hsc]
  match scores, hlength with
  | [], h => simp at h; omega
  | [_], h => simp at h; omega
  | [_, _], h => simp at h; omega
  | first :: second :: third :: rest, h =>
    by_cases hz : first.2 = (0, 0)
    · refine ⟨{ s with scores_ := first :: second :: third :: rest, best_ := first
                       nearest_ := second, near_ := third }, ?_, rfl, hperm, hsorted,
        by simp, h, ⟨first, second, third, rest, rfl, rfl, fun _ => ⟨rfl, rfl⟩,
          fun hne => absurd hz hne⟩, rfl, rfl⟩
      simp [at_index, hz]
    · refine ⟨{ s with scores_ := first :: second :: third :: rest, best_ := first
                       nearest_ := first, near_ := second }, ?_, rfl, hperm, hsorted,
        by simp, h, ⟨first, second, third, rest, rfl, rfl, fun he => absurd he hz,
          fun _ => ⟨rfl, rfl⟩⟩, rfl, rfl⟩
      have hz0 : ¬ first.2 = 0 := hz
      simp [at_index, hz0]

/-- Every sort that meets the contract of `std::sort` leaves a list of two
entries with strictly descending scores as it is. -/
theorem StdSort.sort_pair (S : StdSort) (a b : ScoredMV) (h : a.1 > b.1) :
    S.sort [a, b] = [a, b] := by
  have hp := S.perm [a, b]
  have hs := S.sorted [a, b]
  have hl : (S.sort [a, b]).length = 2 := hp.length_eq
  obtain ⟨x, y, hxy⟩ := List.length_eq_two.mp hl
  rw [hxy] at hp hs ⊢
  have hne : a ≠ b := fun he => by rw [he] at h; exact Nat.lt_irrefl _ h
  have hx : x = a ∨ x = b := by
    have : x ∈ [a, b] := hp.subset (by simp)
    simpa using this
  have hy : y = a ∨ y = b := by
    have : y ∈ [a, b] := hp.subset (by simp)
    simpa using this
  have ha : a = x ∨ a = y := by
    have : a ∈ [x, y] := hp.symm.subset (by simp)
    simpa using this
  have hb : b = x ∨ b = y := by
    have : b ∈ [x, y] := hp.symm.subset (by simp)
    simpa using this
  have hord : ¬ y.1 > x.1 := by
    have := List.pairwise_cons.mp hs
    exact this.1 y (by simp)
  rcases hx with hx | hx <;> rcases hy with hy | hy <;> subst hx <;> subst hy
  · rcases hb with hb | hb <;> exact absurd hb.symm hne
  · rfl
  · exact absurd h hord
  · rcases ha with ha | ha <;> exact absurd ha hne

/-- Witness for C16: three votes for two vectors, sorted by insertion sort:
the list is padded to three entries and `nearest_`, `near_` are the first two
entries, as the best vector is not zero. -/
theorem scorer_calculate_sorted_witness :
    (census insertion_sort false (some (inter_neighbour (1, 1))) (some (inter_neighbour (3, 2)))
        (some (inter_neighbour (3, 2)))).map
      (fun s => (s.scores_, s.best_, s.nearest_, s.near_))
      = .ok ([(3, (3, 2)), (2, (1, 1)), (0, (0, 0))], (3, (3, 2)), (3, (3, 2)), (2, (1, 1))) ∧
    ∃ s' : Scorer,
      Scorer.calculate insertion_sort
        { Scorer.of_flipped false with scores_ := [(2, (1, 1)), (3, (3, 2))] } = .ok s' ∧
      s'.scores_ = insertion_sort.sort [(2, (1, 1)), (3, (3, 2))] ++
        List.replicate (3 - (insertion_sort.sort [(2, (1, 1)), (3, (3, 2))]).length)
          ((0, (0, 0)) : ScoredMV) ∧
      s'.scores_.Perm ([(2, (1, 1)), (3, (3, 2))] ++
        List.replicate (3 - [((2 : Nat), ((1 : Int), (1 : Int))), (3, (3, 2))].length)
          ((0, (0, 0)) : ScoredMV)) ∧
      s'.scores_.Pairwise (fun a b => a.1 ≥ b.1) ∧
      3 ≤ s'.scores_.length ∧
      s'.scores_.length = max 3 [((2 : Nat), ((1 : Int), (1 : Int))), (3, (3, 2))].length ∧
      (∃ (first second third : ScoredMV) (rest : List ScoredMV),
        s'.scores_ = first :: second :: third :: rest ∧
        s'.best_ = first ∧
        (first.2 = (0, 0) → s'.nearest_ = second ∧ s'.near_ = third) ∧
        (first.2 ≠ (0, 0) → s'.nearest_ = first ∧ s'.near_ = second)) ∧
      s'.splitmv_score_ = 0 ∧
      s'.motion_vectors_flipped_ = false :=
  ⟨by rfl,
   scorer_calculate_sorted insertion_sort
     { Scorer.of_flipped false with scores_ := [(2, (1, 1)), (3, (3, 2))] }⟩

/-- C18, as the code behaves: with the above and left neighbours inter-coded
with base motion vector `(1, 1)` and the above-left neighbour inter-coded
with the zero motion vector, the votes are 4 for `(1, 1)` and 1 for the zero
vector, and after `calculate()` (with any sort that meets the contract of
`std::sort`) `near_` holds the zero motion vector with score 1: the zero
vector is reported as near with a positive score. The same holds with the
above-left neighbour absent, whose vote goes to the zero vector too. -/
theorem census_reports_zero_vector_as_near (S : StdSort) :
    (census S false (some (inter_neighbour (1, 1))) (some (inter_neighbour (1, 1)))
        (some (inter_neighbour (0, 0)))).map
      (fun s => (s.scores_, s.best_, s.nearest_, s.near_))
      = .ok ([(4, (1, 1)), (1, (0, 0)), (0, (0, 0))], (4, (1, 1)), (4, (1, 1)), (1, (0, 0))) ∧
    (census S false (some (inter_neighbour (1, 1))) (some (inter_neighbour (1, 1)))
        (some (inter_neighbour (0, 0)))).map
      (fun s => decide (s.near_.2 = (0, 0) ∧ 0 < s.near_.1)) = .ok true ∧
    (census S false (some (inter_neighbour (1, 1))) (some (inter_neighbour (1, 1))) none).map
      (fun s => (s.scores_, s.best_, s.nearest_, s.near_))
      = .ok ([(4, (1, 1)), (1, (0, 0)), (0, (0, 0))], (4, (1, 1)), (4, (1, 1)), (1, (0, 0))) := by
  have hvotes : (((Scorer.of_flipped false).add 2 (some (inter_neighbour (1, 1)))).add 2
      (some (inter_neighbour (1, 1)))).add 1 (some (inter_neighbour (0, 0)))
      = { Scorer.of_flipped false with scores_ := [(4, (1, 1)), (1, (0, 0))] } := by decide
  have hvotes_absent : (((Scorer.of_flipped false).add 2 (some (inter_neighbour (1, 1)))).add 2
      (some (inter_neighbour (1, 1)))).add 1 none
      = { Scorer.of_flipped false with scores_ := [(4, (1, 1)), (1, (0, 0))] } := by decide
  unfold census
  rw [hvotes, hvotes_absent]
  unfold Scorer.calculate
  simp only [S.sort_pair (4, (1, 1)) (1, (0, 0)) (by decide)]
  exact ⟨rfl, rfl, rfl⟩

/-- C19, as the code behaves: `Macroblock::loopfilter` reads nothing of the
header but the segment id, so two inter-frame macroblocks that differ in
their reference selectors only are filtered alike, with the adjustment of
`CURRENT_FRAME`. With frame level 10, `ref_adjustments = [0, -10, 0, 0]` and
zero mode adjustments, a `NEARESTMV` macroblock that references `LAST_FRAME`
has level 0 by its own reference (filter disabled), while the method adjusts
by `ref_adjustments[0]`, keeps level 10 and runs all four edge passes. -/
theorem loopfilter_ignores_own_reference :
    (∀ {Plane : Type} (E : EdgeFilters Plane) (mb : Macroblock InterFrameMacroblockHeader)
        (is_inter_mb : Bool) (sel1 sel2 : Option Bool)
        (refs modes : SafeArray Int 4) (frame : FilterParameters)
        (segments : SafeArray FilterParameters 4) (raster : RasterMacroblock Plane),
        InterFrameMacroblock.loopfilter E
          { mb with header_ := { mb.header_ with is_inter_mb := is_inter_mb
                                                 mb_ref_frame_sel1 := sel1
                                                 mb_ref_frame_sel2 := sel2 } }
          refs modes frame segments raster
        = InterFrameMacroblock.loopfilter E mb refs modes frame segments raster) ∧
    (inter_macroblock (some false) none).header_.reference = .ok reference_frame.LAST_FRAME ∧
    own_reference_filter_parameters (inter_macroblock (some false) none)
        ⟨![0, -10, 0, 0]⟩ ⟨![0, 0, 0, 0]⟩
        { type := LoopFilterType.Normal, filter_level := 10, sharpness_level := 0 }
        ⟨fun _ => { type := LoopFilterType.Normal, filter_level := 10, sharpness_level := 0 }⟩
      = .ok { type := LoopFilterType.Normal, filter_level := 0, sharpness_level := 0 } ∧
    (InterFrameMacroblock.loopfilter marking_filters (inter_macroblock (some false) none)
        ⟨![0, -10, 0, 0]⟩ ⟨![0, 0, 0, 0]⟩
        { type := LoopFilterType.Normal, filter_level := 10, sharpness_level := 0 }
        ⟨fun _ => { type := LoopFilterType.Normal, filter_level := 10, sharpness_level := 0 }⟩
        { Y := 0, U := 0, V := 0, left := true, above := true }).map
        (fun r => (r.Y, r.U, r.V))
      = .ok (1111, 1111, 1111) ∧
    (FilterParameters.adjust
        { type := LoopFilterType.Normal, filter_level := 10, sharpness_level := 0 }
        ⟨![0, -10, 0, 0]⟩ ⟨![0, 0, 0, 0]⟩ reference_frame.CURRENT_FRAME mbmode.NEARESTMV).map
        (fun p => p.filter_level) = .ok 10 := by
  refine ⟨?_, by decide, by decide, by decide, by decide⟩
  intro Plane E mb is_inter_mb sel1 sel2 refs modes frame segments raster
  rfl

/-! ## The order of the normal filter -/

/-- A store keeps the dimension of the block. -/
theorem SampleBlock.set_dimension (b : SampleBlock) (position : Int × Int) (value : Nat) :
    (b.set position value).dimension = b.dimension := rfl

/-- A fold of dimension-preserving steps preserves the dimension. -/
theorem foldl_dimension {α : Type} (g : SampleBlock → α → SampleBlock)
    (hg : ∀ b a, (g b a).dimension = b.dimension) (l : List α) (b : SampleBlock) :
    (l.foldl g b).dimension = b.dimension := by
  induction l generalizing b with
  | nil => rfl
  | cons a rest ih => rw [List.foldl_cons, ih, hg]

/-- The macroblock-edge pass on the left edge preserves the dimension. -/
theorem filter_mb_vertical_dimension (K : Kernels) (f : NormalLoopFilter) (b : SampleBlock) :
    (filter_mb_vertical K f b).dimension = b.dimension := by
  unfold filter_mb_vertical
  apply foldl_dimension
  intro _ _
  rfl

/-- The macroblock-edge pass on the top edge preserves the dimension. -/
theorem filter_mb_horizontal_dimension (K : Kernels) (f : NormalLoopFilter) (b : SampleBlock) :
    (filter_mb_horizontal K f b).dimension = b.dimension := by
  unfold filter_mb_horizontal
  apply foldl_dimension
  intro _ _
  rfl

/-- One vertical sub-block edge preserves the dimension. -/
theorem sb_vertical_edge_dimension (K : Kernels) (f : NormalLoopFilter) (size center : Nat)
    (b : SampleBlock) : (sb_vertical_edge K f size center b).dimension = b.dimension := by
  unfold sb_vertical_edge
  apply foldl_dimension
  intro _ _
  rfl

/-- One horizontal sub-block edge preserves the dimension. -/
theorem sb_horizontal_edge_dimension (K : Kernels) (f : NormalLoopFilter) (size center : Nat)
    (b : SampleBlock) : (sb_horizontal_edge K f size center b).dimension = b.dimension := by
  unfold sb_horizontal_edge
  apply foldl_dimension
  intro _ _
  rfl

/-- On a block of dimension 16 the vertical sub-block pass filters the edges
at columns 4, 8 and 12, in this order. -/
theorem filter_sb_vertical_16 (K : Kernels) (f : NormalLoopFilter) (b : SampleBlock)
    (h : b.dimension = 16) :
    filter_sb_vertical K f b
      = sb_vertical_edge K f 16 12 (sb_vertical_edge K f 16 8 (sb_vertical_edge K f 16 4 b)) := by
  unfold filter_sb_vertical
  rw [h]
  rfl

/-- On a block of dimension 8 the vertical sub-block pass filters the edge at
column 4. -/
theorem filter_sb_vertical_8 (K : Kernels) (f : NormalLoopFilter) (b : SampleBlock)
    (h : b.dimension = 8) :
    filter_sb_vertical K f b = sb_vertical_edge K f 8 4 b := by
  unfold filter_sb_vertical
  rw [h]
  rfl

/-- On a block of dimension 16 the horizontal sub-block pass filters the edges
at rows 4, 8 and 12, in this order. -/
theorem filter_sb_horizontal_16 (K : Kernels) (f : NormalLoopFilter) (b : SampleBlock)
    (h : b.dimension = 16) :
    filter_sb_horizontal K f b
      = sb_horizontal_edge K f 16 12
          (sb_horizontal_edge K f 16 8 (sb_horizontal_edge K f 16 4 b)) := by
  unfold filter_sb_horizontal
  rw [h]
  rfl

/-- On a block of dimension 8 the horizontal sub-block pass filters the edge
at row 4. -/
theorem filter_sb_horizontal_8 (K : Kernels) (f : NormalLoopFilter) (b : SampleBlock)
    (h : b.dimension = 8) :
    filter_sb_horizontal K f b = sb_horizontal_edge K f 8 4 b := by
  unfold filter_sb_horizontal
  rw [h]
  rfl

/-! ## The edge passes, sample by sample -/

/-- Two blocks of equal dimension and equal samples are equal. -/
theorem SampleBlock.ext_samples (a b : SampleBlock) (hd : a.dimension = b.dimension)
    (hs : ∀ column row, a.sample column row = b.sample column row) : a = b := by
  cases a
  cases b
  simp only at hd hs
  subst hd
  congr
  funext column row
  exact hs column row

/-- A vertical edge of which no row is filtered leaves the block as it is. -/
theorem filtered_vertical_edge_zero (K : Kernels) (f : NormalLoopFilter) (mb : Bool)
    (position : Nat) (b : SampleBlock) : filtered_vertical_edge K f mb position 0 b = b := by
  apply SampleBlock.ext_samples
  · rfl
  · intro column row
    unfold filtered_vertical_edge
    simp only
    rw [if_neg]
    intro h
    omega

/-- A horizontal edge of which no column is filtered leaves the block as it is. -/
theorem filtered_horizontal_edge_zero (K : Kernels) (f : NormalLoopFilter) (mb : Bool)
    (position : Nat) (b : SampleBlock) : filtered_horizontal_edge K f mb position 0 b = b := by
  apply SampleBlock.ext_samples
  · rfl
  · intro column row
    unfold filtered_horizontal_edge
    simp only
    rw [if_neg]
    intro h
    omega

/-- The first row that is not filtered still holds the samples of the block. -/
theorem filtered_vertical_edge_row (K : Kernels) (f : NormalLoopFilter) (mb : Bool)
    (position n : Nat) (b : SampleBlock) (column : Int) :
    (filtered_vertical_edge K f mb position n b).sample column (n : Int)
      = b.sample column n := by
  unfold filtered_vertical_edge
  simp only
  rw [if_neg]
  intro h
  omega

/-- The first column that is not filtered still holds the samples of the block. -/
theorem filtered_horizontal_edge_column (K : Kernels) (f : NormalLoopFilter) (mb : Bool)
    (position n : Nat) (b : SampleBlock) (row : Int) :
    (filtered_horizontal_edge K f mb position n b).sample (n : Int) row
      = b.sample n row := by
  unfold filtered_horizontal_edge
  simp only
  rw [if_neg]
  intro h
  omega

/-- The samples after the loop body of the macroblock-edge passes. -/
theorem mbfilter_at_sample (K : Kernels) (f : NormalLoopFilter) (central step : Int × Int)
    (b : SampleBlock) (column row : Int) :
    (mbfilter_at K f central step b).sample column row =
      if column = central.1 + 2 * step.1 ∧ row = central.2 + 2 * step.2 then
        (wide_output K f fun k =>
          b.sample (central.1 + k * step.1) (central.2 + k * step.2)).2.2.2.2.2
      else if column = central.1 + 1 * step.1 ∧ row = central.2 + 1 * step.2 then
        (wide_output K f fun k =>
          b.sample (central.1 + k * step.1) (central.2 + k * step.2)).2.2.2.2.1
      else if column = central.1 + 0 * step.1 ∧ row = central.2 + 0 * step.2 then
        (wide_output K f fun k =>
          b.sample (central.1 + k * step.1) (central.2 + k * step.2)).2.2.2.1
      else if column = central.1 + (-1) * step.1 ∧ row = central.2 + (-1) * step.2 then
        (wide_output K f fun k =>
          b.sample (central.1 + k * step.1) (central.2 + k * step.2)).2.2.1
      else if column = central.1 + (-2) * step.1 ∧ row = central.2 + (-2) * step.2 then
        (wide_output K f fun k =>
          b.sample (central.1 + k * step.1) (central.2 + k * step.2)).2.1
      else if column = central.1 + (-3) * step.1 ∧ row = central.2 + (-3) * step.2 then
        (wide_output K f fun k =>
          b.sample (central.1 + k * step.1) (central.2 + k * step.2)).1
      else b.sample column row := rfl

/-- The samples after the loop body of the sub-block passes. -/
theorem sbfilter_at_sample (K : Kernels) (f : NormalLoopFilter) (central step : Int × Int)
    (b : SampleBlock) (column row : Int) :
    (sbfilter_at K f central step b).sample column row =
      if column = central.1 + 1 * step.1 ∧ row = central.2 + 1 * step.2 then
        (narrow_output K f fun k =>
          b.sample (central.1 + k * step.1) (central.2 + k * step.2)).2.2.2
      else if column = central.1 + 0 * step.1 ∧ row = central.2 + 0 * step.2 then
        (narrow_output K f fun k =>
          b.sample (central.1 + k * step.1) (central.2 + k * step.2)).2.2.1
      else if column = central.1 + (-1) * step.1 ∧ row = central.2 + (-1) * step.2 then
        (narrow_output K f fun k =>
          b.sample (central.1 + k * step.1) (central.2 + k * step.2)).2.1
      else if column = central.1 + (-2) * step.1 ∧ row = central.2 + (-2) * step.2 then
        (narrow_output K f fun k =>
          b.sample (central.1 + k * step.1) (central.2 + k * step.2)).1
      else b.sample column row := rfl

/-- The loop body of `filter_mb_vertical` at row `n` filters one more row. -/
theorem mbfilter_at_vertical_step (K : Kernels) (f : NormalLoopFilter) (position n : Nat)
    (b : SampleBlock) :
    mbfilter_at K f ((position : Int), (n : Int)) (1, 0)
        (filtered_vertical_edge K f true position n b)
      = filtered_vertical_edge K f true position (n + 1) b := by
  apply SampleBlock.ext_samples
  · rfl
  · intro column row
    rw [mbfilter_at_sample]
    have hwindow : (fun k : Int => (filtered_vertical_edge K f true position n b).sample
        (((position : Int), (n : Int)).1 + k * ((1 : Int), (0 : Int)).1)
        (((position : Int), (n : Int)).2 + k * ((1 : Int), (0 : Int)).2))
        = fun k : Int => b.sample ((position : Int) + k) (n : Int) := by
      funext k
      simp only [mul_one, mul_zero, add_zero]
      exact filtered_vertical_edge_row K f true position n b _
    rw [hwindow]
    simp only [mul_one, mul_zero, add_zero]
    by_cases hr : row = (n : Int)
    · subst hr
      rw [filtered_vertical_edge_row]
      unfold filtered_vertical_edge
      simp only
      generalize wide_output K f (fun k : Int => b.sample ((position : Int) + k) (n : Int)) = out
      have h1 : (0 : Int) ≤ (n : Int) ∧ (n : Int) < ((n + 1 : Nat) : Int) := by omega
      rw [if_pos h1]
      simp only [if_true, and_true]
      split_ifs <;> first | rfl | omega
    · simp only [hr, and_false, if_false]
      unfold filtered_vertical_edge
      simp only
      have h2 : (0 ≤ row ∧ row < ((n + 1 : Nat) : Int)) ↔ (0 ≤ row ∧ row < (n : Int)) := by omega
      simp only [h2]

/-- The loop body of `filter_sb_vertical` at row `n` filters one more row. -/
theorem sbfilter_at_vertical_step (K : Kernels) (f : NormalLoopFilter) (position n : Nat)
    (b : SampleBlock) :
    sbfilter_at K f ((position : Int), (n : Int)) (1, 0)
        (filtered_vertical_edge K f false position n b)
      = filtered_vertical_edge K f false position (n + 1) b := by
  apply SampleBlock.ext_samples
  · rfl
  · intro column row
    rw [sbfilter_at_sample]
    have hwindow : (fun k : Int => (filtered_vertical_edge K f false position n b).sample
        (((position : Int), (n : Int)).1 + k * ((1 : Int), (0 : Int)).1)
        (((position : Int), (n : Int)).2 + k * ((1 : Int), (0 : Int)).2))
        = fun k : Int => b.sample ((position : Int) + k) (n : Int) := by
      funext k
      simp only [mul_one, mul_zero, add_zero]
      exact filtered_vertical_edge_row K f false position n b _
    rw [hwindow]
    simp only [mul_one, mul_zero, add_zero]
    by_cases hr : row = (n : Int)
    · subst hr
      rw [filtered_vertical_edge_row]
      unfold filtered_vertical_edge
      simp only
      generalize narrow_output K f (fun k : Int => b.sample ((position : Int) + k) (n : Int)) = out
      have h1 : (0 : Int) ≤ (n : Int) ∧ (n : Int) < ((n + 1 : Nat) : Int) := by omega
      rw [if_pos h1]
      simp only [if_true, and_true, Bool.false_eq_true, if_false]
      split_ifs <;> first | rfl | omega
    · simp only [hr, and_false, if_false]
      unfold filtered_vertical_edge
      simp only
      have h2 : (0 ≤ row ∧ row < ((n + 1 : Nat) : Int)) ↔ (0 ≤ row ∧ row < (n : Int)) := by omega
      simp only [h2]

/-- The loop body of `filter_mb_horizontal` at column `n` filters one more
column. -/
theorem mbfilter_at_horizontal_step (K : Kernels) (f : NormalLoopFilter) (position n : Nat)
    (b : SampleBlock) :
    mbfilter_at K f ((n : Int), (position : Int)) (0, 1)
        (filtered_horizontal_edge K f true position n b)
      = filtered_horizontal_edge K f true position (n + 1) b := by
  apply SampleBlock.ext_samples
  · rfl
  · intro column row
    rw [mbfilter_at_sample]
    have hwindow : (fun k : Int => (filtered_horizontal_edge K f true position n b).sample
        (((n : Int), (position : Int)).1 + k * ((0 : Int), (1 : Int)).1)
        (((n : Int), (position : Int)).2 + k * ((0 : Int), (1 : Int)).2))
        = fun k : Int => b.sample (n : Int) ((position : Int) + k) := by
      funext k
      simp only [mul_one, mul_zero, add_zero]
      exact filtered_horizontal_edge_column K f true position n b _
    rw [hwindow]
    simp only [mul_one, mul_zero, add_zero]
    by_cases hc : column = (n : Int)
    · subst hc
      rw [filtered_horizontal_edge_column]
      unfold filtered_horizontal_edge
      simp only
      generalize wide_output K f (fun k : Int => b.sample (n : Int) ((position : Int) + k)) = out
      have h1 : (0 : Int) ≤ (n : Int) ∧ (n : Int) < ((n + 1 : Nat) : Int) := by omega
      rw [if_pos h1]
      simp only [if_true, true_and]
      split_ifs <;> first | rfl | omega
    · simp only [hc, false_and, if_false]
      unfold filtered_horizontal_edge
      simp only
      have h2 : (0 ≤ column ∧ column < ((n + 1 : Nat) : Int))
          ↔ (0 ≤ column ∧ column < (n : Int)) := by omega
      simp only [h2]

/-- The loop body of `filter_sb_horizontal` at column `n` filters one more
column. -/
theorem sbfilter_at_horizontal_step (K : Kernels) (f : NormalLoopFilter) (position n : Nat)
    (b : SampleBlock) :
    sbfilter_at K f ((n : Int), (position : Int)) (0, 1)
        (filtered_horizontal_edge K f false position n b)
      = filtered_horizontal_edge K f false position (n + 1) b := by
  apply SampleBlock.ext_samples
  · rfl
  · intro column row
    rw [sbfilter_at_sample]
    have hwindow : (fun k : Int => (filtered_horizontal_edge K f false position n b).sample
        (((n : Int), (position : Int)).1 + k * ((0 : Int), (1 : Int)).1)
        (((n : Int), (position : Int)).2 + k * ((0 : Int), (1 : Int)).2))
        = fun k : Int => b.sample (n : Int) ((position : Int) + k) := by
      funext k
      simp only [mul_one, mul_zero, add_zero]
      exact filtered_horizontal_edge_column K f false position n b _
    rw [hwindow]
    simp only [mul_one, mul_zero, add_zero]
    by_cases hc : column = (n : Int)
    · subst hc
      rw [filtered_horizontal_edge_column]
      unfold filtered_horizontal_edge
      simp only
      generalize narrow_output K f (fun k : Int => b.sample (n : Int) ((position : Int) + k)) = out
      have h1 : (0 : Int) ≤ (n : Int) ∧ (n : Int) < ((n + 1 : Nat) : Int) := by omega
      rw [if_pos h1]
      simp only [if_true, true_and, Bool.false_eq_true, if_false]
      split_ifs <;> first | rfl | omega
    · simp only [hc, false_and, if_false]
      unfold filtered_horizontal_edge
      simp only
      have h2 : (0 ≤ column ∧ column < ((n + 1 : Nat) : Int))
          ↔ (0 ≤ column ∧ column < (n : Int)) := by omega
      simp only [h2]

/-- A loop over the lines `0 .. n - 1` whose body filters one more line each
time filters `n` lines. -/
theorem foldl_range_lines (body : Nat → SampleBlock → SampleBlock)
    (lines : Nat → SampleBlock) (b0 : SampleBlock) (h0 : lines 0 = b0)
    (hstep : ∀ n, body n (lines n) = lines (n + 1)) :
    ∀ n, (List.range n).foldl (fun (b : SampleBlock) (line : Nat) => body line b) b0
      = lines n := by
  intro n
  induction n with
  | zero => simpa using h0.symm
  | succ n ih =>
    rw [List.range_succ, List.foldl_append, ih]
    simp only [List.foldl_cons, List.foldl_nil]
    exact hstep n

/-- The method `filter_mb_vertical` is the macroblock-edge filter on the left
edge, on every row of the block. -/
theorem filter_mb_vertical_eq (K : Kernels) (f : NormalLoopFilter) (b : SampleBlock) :
    filter_mb_vertical K f b = filtered_vertical_edge K f true 0 b.dimension b := by
  have h := foldl_range_lines
    (fun row b => mbfilter_at K f (((0 : Nat) : Int), (row : Int)) (1, 0) b)
    (fun n => filtered_vertical_edge K f true 0 n b) b
    (filtered_vertical_edge_zero K f true 0 b)
    (fun n => mbfilter_at_vertical_step K f 0 n b) b.dimension
  simp only [Nat.cast_zero] at h
  exact h

/-- The method `filter_mb_horizontal` is the macroblock-edge filter on the top
edge, on every column of the block. -/
theorem filter_mb_horizontal_eq (K : Kernels) (f : NormalLoopFilter) (b : SampleBlock) :
    filter_mb_horizontal K f b = filtered_horizontal_edge K f true 0 b.dimension b := by
  have h := foldl_range_lines
    (fun column b => mbfilter_at K f ((column : Int), ((0 : Nat) : Int)) (0, 1) b)
    (fun n => filtered_horizontal_edge K f true 0 n b) b
    (filtered_horizontal_edge_zero K f true 0 b)
    (fun n => mbfilter_at_horizontal_step K f 0 n b) b.dimension
  simp only [Nat.cast_zero] at h
  exact h

/-- The inner loop of `filter_sb_vertical` is the sub-block filter on the
vertical edge at `center_column`, on `size` rows. -/
theorem sb_vertical_edge_eq (K : Kernels) (f : NormalLoopFilter) (size center_column : Nat)
    (b : SampleBlock) :
    sb_vertical_edge K f size center_column b
      = filtered_vertical_edge K f false center_column size b :=
  foldl_range_lines
    (fun row b => sbfilter_at K f ((center_column : Int), (row : Int)) (1, 0) b)
    (fun n => filtered_vertical_edge K f false center_column n b) b
    (filtered_vertical_edge_zero K f false center_column b)
    (fun n => sbfilter_at_vertical_step K f center_column n b) size

/-- The inner loop of `filter_sb_horizontal` is the sub-block filter on the
horizontal edge at `center_row`, on `size` columns. -/
theorem sb_horizontal_edge_eq (K : Kernels) (f : NormalLoopFilter) (size center_row : Nat)
    (b : SampleBlock) :
    sb_horizontal_edge K f size center_row b
      = filtered_horizontal_edge K f false center_row size b :=
  foldl_range_lines
    (fun column b => sbfilter_at K f ((column : Int), (center_row : Int)) (0, 1) b)
    (fun n => filtered_horizontal_edge K f false center_row n b) b
    (filtered_horizontal_edge_zero K f false center_row b)
    (fun n => sbfilter_at_horizontal_step K f center_row n b) size

/-- C20: for every macroblock raster (`Y` of dimension 16, `U` and `V` of
dimension 8), every kernel set and either value of `skip_subblock_edges`,
`NormalLoopFilter::filter` with the edge passes of the source is the four
steps of the specification in order, each given sample by sample: (1) the
macroblock-edge filter (wide kernel, macroblock edge limit) on the left edge
of `Y`, `U`, `V`, on every row, exactly when the left neighbour exists;
(2) the sub-block filter (narrow kernel, sub-block edge limit) on the
vertical edges at columns 4, 8, 12 of `Y` and column 4 of `U` and `V` exactly
when `skip_subblock_edges` is false; (3) the macroblock-edge filter on the
top edge, on every column, exactly when the above neighbour exists; (4) the
sub-block filter on the horizontal edges at rows 4, 8, 12 of `Y` and row 4 of
`U` and `V` exactly when `skip_subblock_edges` is false. With no left and no
above neighbour and `skip_subblock_edges = true` the raster is returned
unchanged. -/
theorem normal_filter_four_steps (K : Kernels) (f : NormalLoopFilter)
    (raster : RasterMacroblock SampleBlock) (skip_subblock_edges : Bool)
    (hY : raster.Y.dimension = 16) (hU : raster.U.dimension = 8)
    (hV : raster.V.dimension = 8) :
    f.filter (source_edge_filters K) raster skip_subblock_edges
      = four_steps K f raster skip_subblock_edges ∧
    (raster.left = false → raster.above = false → skip_subblock_edges = true →
      f.filter (source_edge_filters K) raster skip_subblock_edges = raster) := by
  obtain ⟨Y, U, V, left, above⟩ := raster
  simp only at hY hU hV
  have hv : ∀ (mb : Bool) (position lines : Nat) (b : SampleBlock),
      (filtered_vertical_edge K f mb position lines b).dimension = b.dimension :=
    fun _ _ _ _ => rfl
  have hh : ∀ (mb : Bool) (position lines : Nat) (b : SampleBlock),
      (filtered_horizontal_edge K f mb position lines b).dimension = b.dimension :=
    fun _ _ _ _ => rfl
  constructor
  · cases left <;> cases above <;> cases skip_subblock_edges <;>
      simp [NormalLoopFilter.filter, four_steps, source_edge_filters, filter_sb_vertical_16,
        filter_sb_vertical_8, filter_sb_horizontal_16, filter_sb_horizontal_8,
        filter_mb_vertical_eq, filter_mb_horizontal_eq, sb_vertical_edge_eq,
        sb_horizontal_edge_eq, hv, hh, hY, hU, hV]
  · intro hl ha hs
    simp only at hl ha
    subst hl ha hs
    rfl

/-- Witness for C20: on a blank raster with both neighbours and sub-block
edges filtered, the result is the four steps. In the `U` plane the sample
left of the left edge in row 5 holds the third value of the wide kernel, stored by the left
pass alone; the sample above the top edge in column 4 holds the third value
of the wide kernel and the sample at column 4, row 0 its fourth value, stored
after the narrow kernel of the vertical edge at column 4. Without neighbours
the narrow kernel's value stays, and with sub-block edges skipped as well
nothing is stored. -/
theorem normal_filter_four_steps_witness :
    (example_normal_filter.filter (source_edge_filters stamping_kernels)
        (blank_raster true true) false
      = four_steps stamping_kernels example_normal_filter (blank_raster true true) false ∧
     ((blank_raster true true).left = false → (blank_raster true true).above = false →
        false = true →
        example_normal_filter.filter (source_edge_filters stamping_kernels)
          (blank_raster true true) false = blank_raster true true)) ∧
    (example_normal_filter.filter (source_edge_filters stamping_kernels)
        (blank_raster true true) false).U.sample (-1) 5 = 3 ∧
    (example_normal_filter.filter (source_edge_filters stamping_kernels)
        (blank_raster true false) true).U.sample (-3) 7 = 1 ∧
    (example_normal_filter.filter (source_edge_filters stamping_kernels)
        (blank_raster true false) true).U.sample 2 0 = 6 ∧
    (example_normal_filter.filter (source_edge_filters stamping_kernels)
        (blank_raster true false) true).U.sample 3 0 = 0 ∧
    (example_normal_filter.filter (source_edge_filters stamping_kernels)
        (blank_raster false true) true).U.sample 7 (-3) = 1 ∧
    (example_normal_filter.filter (source_edge_filters stamping_kernels)
        (blank_raster true true) false).U.sample 4 (-1) = 3 ∧
    (example_normal_filter.filter (source_edge_filters stamping_kernels)
        (blank_raster true true) false).U.sample 4 0 = 4 ∧
    (example_normal_filter.filter (source_edge_filters stamping_kernels)
        (blank_raster false false) false).U.sample 4 0 = 13 ∧
    (example_normal_filter.filter (source_edge_filters stamping_kernels)
        (blank_raster false false) true).Y.sample 4 0 = 0 ∧
    (four_steps stamping_kernels example_normal_filter (blank_raster true false) true).Y.sample
        (-1) 15 = 3 ∧
    (four_steps stamping_kernels example_normal_filter (blank_raster false false) false).Y.sample
        12 15 = 13 :=
  ⟨normal_filter_four_steps stamping_kernels example_normal_filter (blank_raster true true)
     false rfl rfl rfl,
   by decide, by decide, by decide, by decide, by decide, by decide, by decide, by decide,
   by decide, by decide, by decide⟩

/-! ## Termination of `tree` on well-formed trees -/

/-- C21 as stated fails for `N = 1`: the tree array of length `2 * (1 - 1) = 0`
has no entry, so every positive entry is even, greater than its index and at
most the bound; the probability array has `1 - 1 = 0` entries; and the first
evaluation of the loop condition of `tree` reads `probabilities.at( 0 )`,
which is outside the array, whatever the loop budget. -/
theorem tree_on_empty_arrays_out_of_range :
    ([] : List Int).length = 2 * (1 - 1) ∧
    ([] : List Nat).length = 1 - 1 ∧
    tree_wellformed [] = true ∧
    tree_verify [] = true ∧
    tree Script.get 1 [] [] ⟨[true, false], []⟩ = .error .out_of_range ∧
    tree Script.get 100 [] [] ⟨[true, false], []⟩ = .error .out_of_range := by
  decide

/-- C21 (amended): for every `N ≥ 2`, every tree array `nodes` of length
`2 * (N - 1)` in which every positive entry `nodes[j]` is even, greater than
`j` and at most `2 * (N - 1) - 2`, every array of `N - 1` probabilities and
every bit source, the evenness assertion of `tree` does not fire and `tree`
returns (every access `nodes.at( i + bit )` and `probabilities.at( i >> 1 )`
is within bounds) once the loop budget is at least `N - 1`: it returns the
negation of a leaf of the tree after `k` steps of the walk, having read
exactly `k` bits, with `1 ≤ k ≤ N - 1`. -/
theorem tree_terminates_within_bounds {σ : Type} (get : σ → Nat → Bool × σ) (N : Nat)
    (nodes : List Int) (probs : List Nat) (data : σ) (fuel : Nat)
    (hN : 2 ≤ N) (hnodes : nodes.length = 2 * (N - 1)) (hprobs : probs.length = N - 1)
    (hw : tree_wellformed nodes = true) (hfuel : N - 1 ≤ fuel) :
    tree_verify nodes = true ∧
    ∃ (v : Int) (data' : σ) (k : Nat),
      1 ≤ k ∧ k ≤ N - 1 ∧ v ≤ 0 ∧ v ∈ nodes ∧
      ref_walk get nodes probs k 0 data = some (v, data') ∧
      tree get fuel nodes probs data = .ok (-v, data') ∧
      (∀ n : Nat, tree (counting get) fuel nodes probs (data, n) = .ok (-v, (data', n + k))) := by
  have hverify := tree_verify_of_wellformed nodes hw
  have hlen : nodes.length = 2 * probs.length := by omega
  obtain ⟨v, data', hloop, hv, hmem⟩ := tree_loop_terminates get nodes probs hw hlen
    (N - 1) 0 data (N - 1) (by simp) (by omega) (by omega) (Nat.le_refl _)
  obtain ⟨j, hj, hwalk, _⟩ := ref_walk_of_tree_loop get nodes probs (N - 1) 0 data data' v hloop
  refine ⟨hverify, v, data', j + 1, by omega, hj, hv, hmem, hwalk, ?_, ?_⟩
  · have h := tree_loop_of_ref_walk get nodes probs j 0 data data' v fuel hwalk hv (by omega)
    simp only [Nat.cast_zero] at h
    simp [tree, hverify, h]
  · intro n
    have hc := ref_walk_counting get nodes probs j 0 data data' v n hwalk
    have h := tree_loop_of_ref_walk (counting get) nodes probs j 0 (data, n)
      (data', n + (j + 1)) v fuel hc hv (by omega)
    simp only [Nat.cast_zero] at h
    simp [tree, hverify, h]

/-- Witness for C21 (amended): the tree of the five motion-vector reference
modes (`N = 5`, eight nodes, four probabilities) is well formed; with the bits
`1, 1, 1, 0` the walk takes `4 = N - 1` steps and `tree` returns `NEWMV`
having read four bits. -/
theorem tree_terminates_within_bounds_witness :
    tree_wellformed mv_ref_tree = true ∧
    tree (counting Script.get) 4 mv_ref_tree [10, 20, 30, 40]
        (⟨[true, true, true, false, true], []⟩, 0)
      = .ok (mbmode.NEWMV.val, (⟨[true], [10, 20, 30, 40]⟩, 4)) ∧
    (tree_verify mv_ref_tree = true ∧
      ∃ (v : Int) (data' : Script) (k : Nat),
        1 ≤ k ∧ k ≤ 5 - 1 ∧ v ≤ 0 ∧ v ∈ mv_ref_tree ∧
        ref_walk Script.get mv_ref_tree [10, 20, 30, 40] k 0
          ⟨[true, true, true, false, true], []⟩ = some (v, data') ∧
        tree Script.get 4 mv_ref_tree [10, 20, 30, 40] ⟨[true, true, true, false, true], []⟩
          = .ok (-v, data') ∧
        (∀ n : Nat, tree (counting Script.get) 4 mv_ref_tree [10, 20, 30, 40]
          (⟨[true, true, true, false, true], []⟩, n) = .ok (-v, (data', n + k)))) :=
  ⟨by decide, by decide,
   tree_terminates_within_bounds Script.get 5 mv_ref_tree [10, 20, 30, 40]
     ⟨[true, true, true, false, true], []⟩ 4 (by decide) (by decide) (by decide) (by decide)
     (by decide)⟩

/-! ## Bounds of the census -/

/-- A score below 256 is stored in a `uint8_t` unchanged. -/
theorem to_uint8_of_lt (n : Nat) (h : n < 256) : to_uint8 (n : Int) = n := by
  unfold to_uint8
  omega

/-- A vote adds its weight to the sum of the scores, as long as the sum stays
below 256. -/
theorem add_score_sum (score : Nat) (mv : MotionVector) :
    ∀ scores : List ScoredMV, score_sum scores + score < 256 →
      score_sum (add_score scores score mv) = score_sum scores + score := by
  intro scores
  induction scores with
  | nil => intro _; simp [add_score, score_sum]
  | cons x xs ih =>
    intro h
    have hx : score_sum (x :: xs) = x.1 + score_sum xs := by simp [score_sum]
    rw [hx] at h ⊢
    unfold add_score
    by_cases hmv : mv = x.2
    · rw [if_pos hmv]
      have hcast : ((x.1 : Int) + (score : Int)) = ((x.1 + score : Nat) : Int) := by
        push_cast
        rfl
      have hsmall : to_uint8 ((x.1 : Int) + (score : Int)) = x.1 + score := by
        rw [hcast]
        exact to_uint8_of_lt _ (by omega)
      have : score_sum ((to_uint8 ((x.1 : Int) + (score : Int)), x.2) :: xs)
          = to_uint8 ((x.1 : Int) + (score : Int)) + score_sum xs := by simp [score_sum]
      rw [this, hsmall]
      omega
    · rw [if_neg hmv]
      have : score_sum (x :: add_score xs score mv) = x.1 + score_sum (add_score xs score mv) := by
        simp [score_sum]
      rw [this, ih (by omega)]
      omega

/-- One vote of the census raises the sum of the scores and the split
score by at most its weight and keeps the flag of the scorer. -/
theorem Scorer.add_bound (s : Scorer) (score : Nat) (mb : Option Neighbour)
    (hsum : score_sum s.scores_ + score < 256) (hsplit : s.splitmv_score_ + score < 256) :
    score_sum (s.add score mb).scores_ ≤ score_sum s.scores_ + score ∧
    (s.add score mb).splitmv_score_ ≤ s.splitmv_score_ + score ∧
    (s.add score mb).motion_vectors_flipped_ = s.motion_vectors_flipped_ := by
  have hcast : ((s.splitmv_score_ : Int) + (score : Int))
      = ((s.splitmv_score_ + score : Nat) : Int) := by
    push_cast
    rfl
  have hsmall : to_uint8 ((s.splitmv_score_ : Int) + (score : Int))
      = s.splitmv_score_ + score := by
    rw [hcast]
    exact to_uint8_of_lt _ hsplit
  unfold Scorer.add
  cases mb with
  | none =>
    simp only
    rw [add_score_sum score (0, 0) s.scores_ hsum]
    exact ⟨Nat.le_refl _, Nat.le_add_right _ _, by first | rfl | trivial⟩
  | some n =>
    simp only
    by_cases hinter : n.is_inter_mb = true
    · rw [if_pos hinter]
      by_cases hsplitmv : n.y_prediction_mode = mbmode.SPLITMV
      · rw [if_pos hsplitmv]
        simp only
        rw [add_score_sum score _ s.scores_ hsum, hsmall]
        exact ⟨Nat.le_refl _, Nat.le_refl _, by first | rfl | trivial⟩
      · rw [if_neg hsplitmv]
        simp only
        rw [add_score_sum score _ s.scores_ hsum]
        exact ⟨Nat.le_refl _, Nat.le_add_right _ _, by first | rfl | trivial⟩
    · rw [if_neg hinter]
      exact ⟨Nat.le_add_right _ _, Nat.le_add_right _ _, rfl⟩

/-- An entry of a score list has at most the sum of the scores. -/
theorem score_le_score_sum (scores : List ScoredMV) (x : ScoredMV) (hx : x ∈ scores) :
    x.1 ≤ score_sum scores := by
  induction scores with
  | nil => simp at hx
  | cons y ys ih =>
    have hy : score_sum (y :: ys) = y.1 + score_sum ys := by simp [score_sum]
    rw [hy]
    rcases List.mem_cons.mp hx with h | h
    · subst h
      omega
    · have := ih h
      omega

/-- The method `calculate()` returns; it keeps the sum of the scores and the
split score, and `best_`, `nearest_` and `near_` are entries of the list. -/
theorem Scorer.calculate_members (S : StdSort) (s : Scorer) :
    ∃ s' : Scorer, s.calculate S = .ok s' ∧
      score_sum s'.scores_ = score_sum s.scores_ ∧
      s'.best_ ∈ s'.scores_ ∧ s'.nearest_ ∈ s'.scores_ ∧ s'.near_ ∈ s'.scores_ ∧
      s'.splitmv_score_ = s.splitmv_score_ := by
  have hsum : score_sum (S.sort s.scores_ ++
      List.replicate (3 - (S.sort s.scores_).length) ((0, (0, 0)) : ScoredMV))
      = score_sum s.scores_ := by
    unfold score_sum
    rw [List.map_append, List.sum_append, List.map_replicate, List.sum_replicate,
      ((S.perm s.scores_).map _).sum_eq]
    simp
  have hlength : 3 ≤ (S.sort s.scores_ ++
      List.replicate (3 - (S.sort s.scores_).length) ((0, (0, 0)) : ScoredMV)).length := by
    rw [List.length_append, List.length_replicate]
    omega
  unfold Scorer.calculate
  generalize hsc : S.sort s.scores_ ++
      List.replicate (3 - (S.sort s.scores_).length) ((0, (0, 0)) : ScoredMV) = scores
    at hsum hlength
  simp only [hsc]
  match scores, hlength with
  | [], h => simp at h
  | [_], h => simp at h
  | [_, _], h => simp at h
  | first :: second :: third :: rest, _ =>
    by_cases hz : first.2 = (0, 0)
    · refine ⟨{ s with scores_ := first :: second :: third :: rest, best_ := first
                       nearest_ := second, near_ := third }, ?_, hsum, by simp, by simp,
        by simp, rfl⟩
      simp [at_index, hz]
    · refine ⟨{ s with scores_ := first :: second :: third :: rest, best_ := first
                       nearest_ := first, near_ := second }, ?_, hsum, by simp, by simp,
        by simp, rfl⟩
      have hz0 : ¬ first.2 = 0 := hz
      simp [at_index, hz0]

/-- The census returns, with the sum of the scores and the split score at
most `5 = 2 + 2 + 1` and `best_`, `nearest_`, `near_` entries of the list. -/
theorem census_bounds (S : StdSort) (flipped : Bool) (above left above_left : Option Neighbour) :
    ∃ s : Scorer, census S flipped above left above_left = .ok s ∧
      score_sum s.scores_ ≤ 5 ∧ s.splitmv_score_ ≤ 5 ∧
      s.best_.1 ≤ 5 ∧ s.nearest_.1 ≤ 5 ∧ s.near_.1 ≤ 5 := by
  have h0 : score_sum (Scorer.of_flipped flipped).scores_ = 0 := rfl
  have h0s : (Scorer.of_flipped flipped).splitmv_score_ = 0 := rfl
  obtain ⟨a1, a2, _⟩ := Scorer.add_bound (Scorer.of_flipped flipped) 2 above
    (by omega) (by omega)
  obtain ⟨b1, b2, _⟩ := Scorer.add_bound ((Scorer.of_flipped flipped).add 2 above) 2 left
    (by omega) (by omega)
  obtain ⟨c1, c2, _⟩ := Scorer.add_bound
    (((Scorer.of_flipped flipped).add 2 above).add 2 left) 1 above_left (by omega) (by omega)
  obtain ⟨s, hs, hsum, hbest, hnearest, hnear, hsplit⟩ := Scorer.calculate_members S
    ((((Scorer.of_flipped flipped).add 2 above).add 2 left).add 1 above_left)
  have hle : score_sum s.scores_ ≤ 5 := by omega
  refine ⟨s, hs, hle, by omega, ?_, ?_, ?_⟩
  · exact Nat.le_trans (score_le_score_sum _ _ hbest) hle
  · exact Nat.le_trans (score_le_score_sum _ _ hnearest) hle
  · exact Nat.le_trans (score_le_score_sum _ _ hnear) hle

/-- C22: for every combination of above, left and above-left neighbours
(and every sort that meets the contract of `std::sort`), the census returns,
each of the four values of `mode_contexts()` (best, nearest, near and split
score) is at most `5 = 2 + 2 + 1`, the sum of all scores in the score list is
at most 5, and so every lookup `mv_counts_to_probs.at( count )` is in the six
rows of the table: `decode_prediction_modes` of an inter-coded macroblock
returns with one of the five inter modes. -/
theorem mode_contexts_at_most_5 (S : StdSort) (above left above_left : Option Neighbour) :
    (∀ flipped : Bool,
      ∃ s : Scorer, census S flipped above left above_left = .ok s ∧
        (∀ k : Fin 4, s.mode_contexts.storage k ≤ 5) ∧
        s.best_.1 ≤ 5 ∧ s.nearest_.1 ≤ 5 ∧ s.near_.1 ≤ 5 ∧ s.splitmv_score_ ≤ 5 ∧
        score_sum s.scores_ ≤ 5 ∧
        (∀ (table : SafeArray (SafeArray Nat 4) 6) (k : Fin 4),
          ∃ h : s.mode_contexts.storage k < 6,
            table.at_ (s.mode_contexts.storage k)
              = .ok (table.storage ⟨s.mode_contexts.storage k, h⟩))) ∧
    (∀ (σ : Type) (get : σ → Nat → Bool × σ) (fuel : Nat) (P : InterFrameModeProbs)
        (mb : Macroblock InterFrameMacroblockHeader) (data : σ),
        mb.header_.is_inter_mb = true →
        ∃ (y_mode : mbmode) (data1 : σ),
          InterFrameMacroblock.decode_prediction_modes get (fuel + 4) S P above left above_left
            mb data
            = .ok ({ mb with Y2_ := set_if_coded { mb.Y2_ with prediction_mode := y_mode } },
                   data1) ∧
          (y_mode = mbmode.NEARESTMV ∨ y_mode = mbmode.NEARMV ∨ y_mode = mbmode.ZEROMV ∨
            y_mode = mbmode.NEWMV ∨ y_mode = mbmode.SPLITMV)) := by
  have hcontexts : ∀ s : Scorer, s.best_.1 ≤ 5 → s.nearest_.1 ≤ 5 → s.near_.1 ≤ 5 →
      s.splitmv_score_ ≤ 5 → ∀ k : Fin 4, s.mode_contexts.storage k ≤ 5 := by
    intro s h1 h2 h3 h4 k
    unfold Scorer.mode_contexts
    fin_cases k
    · exact h1
    · exact h2
    · exact h3
    · exact h4
  constructor
  · intro flipped
    obtain ⟨s, hs, hsum, hsplit, hbest, hnearest, hnear⟩ :=
      census_bounds S flipped above left above_left
    have hk := hcontexts s hbest hnearest hnear hsplit
    refine ⟨s, hs, hk, hbest, hnearest, hnear, hsplit, hsum, ?_⟩
    intro table k
    have hlt : s.mode_contexts.storage k < 6 := Nat.lt_succ_of_le (hk k)
    exact ⟨hlt, SafeArray.at_lt table _ hlt⟩
  · intro σ get fuel P mb data hinter
    obtain ⟨s, hs, _, hsplit, hbest, hnearest, hnear⟩ :=
      census_bounds S mb.header_.motion_vectors_flipped_ above left above_left
    have hk := hcontexts s hbest hnearest hnear hsplit
    unfold InterFrameMacroblock.decode_prediction_modes
    rw [if_neg (by simp [hinter]), hs]
    simp only
    rw [SafeArray.at_lt _ _ (Nat.lt_succ_of_le (hk 0)),
      SafeArray.at_lt _ _ (Nat.lt_succ_of_le (hk 1)),
      SafeArray.at_lt _ _ (Nat.lt_succ_of_le (hk 2)),
      SafeArray.at_lt _ _ (Nat.lt_succ_of_le (hk 3))]
    simp only
    obtain ⟨v, data1, hread, hv, hmem⟩ := tree_terminates get mv_ref_tree
      [(P.mv_counts_to_probs.storage ⟨s.mode_contexts.storage 0,
          Nat.lt_succ_of_le (hk 0)⟩).storage 0,
       (P.mv_counts_to_probs.storage ⟨s.mode_contexts.storage 1,
          Nat.lt_succ_of_le (hk 1)⟩).storage 1,
       (P.mv_counts_to_probs.storage ⟨s.mode_contexts.storage 2,
          Nat.lt_succ_of_le (hk 2)⟩).storage 2,
       (P.mv_counts_to_probs.storage ⟨s.mode_contexts.storage 3,
          Nat.lt_succ_of_le (hk 3)⟩).storage 3]
      (fuel + 4) data (by decide) (by simp [mv_ref_tree]) (by simp) (by simp)
    rw [hread]
    have hleaf : v = -5 ∨ v = -6 ∨ v = -7 ∨ v = -8 ∨ v = -9 := by
      have hall : ∀ w ∈ mv_ref_tree, w ≤ 0 → (w = -5 ∨ w = -6 ∨ w = -7 ∨ w = -8 ∨ w = -9) := by
        decide
      exact hall v hmem hv
    rcases hleaf with h | h | h | h | h <;> subst h
    · exact ⟨mbmode.NEARESTMV, data1, rfl, by simp⟩
    · exact ⟨mbmode.NEARMV, data1, rfl, by simp⟩
    · exact ⟨mbmode.ZEROMV, data1, rfl, by simp⟩
    · exact ⟨mbmode.NEWMV, data1, rfl, by simp⟩
    · exact ⟨mbmode.SPLITMV, data1, rfl, by simp⟩

/-- Witness for C22: three `SPLITMV` neighbours with the same motion vector
give the contexts `[5, 5, 0, 5]`, so the bound 5 is reached; the inter-coded
macroblock then reads its mode with the probabilities of rows 5, 5, 0 and 5:
the bits `1, 0` give `NEARESTMV`. -/
theorem mode_contexts_at_most_5_witness :
    (census insertion_sort false (some (split_neighbour (1, 1))) (some (split_neighbour (1, 1)))
        (some (split_neighbour (1, 1)))).map
      (fun s => (s.best_.1, s.nearest_.1, s.near_.1, s.splitmv_score_, score_sum s.scores_))
      = .ok (5, 5, 0, 5, 5) ∧
    (InterFrameMacroblock.decode_prediction_modes Script.get 4 insertion_sort
        example_inter_mode_probs (some (split_neighbour (1, 1)))
        (some (split_neighbour (1, 1))) (some (split_neighbour (1, 1)))
        (inter_macroblock (some false) none) ⟨[true, false, true], []⟩).map
      (fun r => (r.1.Y2_.prediction_mode, r.2))
      = .ok (mbmode.NEARESTMV, ⟨[true], [5, 5]⟩) ∧
    ∃ (y_mode : mbmode) (data1 : Script),
      InterFrameMacroblock.decode_prediction_modes Script.get (0 + 4) insertion_sort
        example_inter_mode_probs (some (split_neighbour (1, 1)))
        (some (split_neighbour (1, 1))) (some (split_neighbour (1, 1)))
        (inter_macroblock (some false) none) ⟨[true, false, true], []⟩
        = .ok ({ inter_macroblock (some false) none with
                 Y2_ := set_if_coded
                   { (inter_macroblock (some false) none).Y2_ with prediction_mode := y_mode } },
               data1) ∧
      (y_mode = mbmode.NEARESTMV ∨ y_mode = mbmode.NEARMV ∨ y_mode = mbmode.ZEROMV ∨
        y_mode = mbmode.NEWMV ∨ y_mode = mbmode.SPLITMV) :=
  ⟨by rfl, by rfl,
   (mode_contexts_at_most_5 insertion_sort (some (split_neighbour (1, 1)))
      (some (split_neighbour (1, 1))) (some (split_neighbour (1, 1)))).2
     Script Script.get 0 example_inter_mode_probs (inter_macroblock (some false) none)
     ⟨[true, false, true], []⟩ rfl⟩

/-! ## Presence of the reference selectors -/

/-- The conditional flag is present exactly when its condition holds. -/
theorem read_optional_flag_isSome {σ : Type} (get : σ → Nat → Bool × σ) (is_present : Bool)
    (probability : Nat) (data : σ) :
    (read_optional_flag get is_present probability data).1.isSome = is_present := by
  unfold read_optional_flag
  cases is_present <;> rfl

/-- The initialiser of `motion_vectors_flipped_` changes no other member, and
`reference()` returns on the header it leaves. -/
theorem init_motion_vectors_flipped_members (partly : InterFrameMacroblockHeader)
    (fh : InterFrameHeader) (h : InterFrameMacroblockHeader)
    (hinit : init_motion_vectors_flipped partly fh = .ok h) :
    h.is_inter_mb = partly.is_inter_mb ∧
    h.mb_ref_frame_sel1 = partly.mb_ref_frame_sel1 ∧
    h.mb_ref_frame_sel2 = partly.mb_ref_frame_sel2 ∧
    ∃ r : reference_frame, h.reference = .ok r := by
  unfold init_motion_vectors_flipped at hinit
  cases hr : partly.reference with
  | error e => simp [hr] at hinit
  | ok r =>
    simp only [hr, Except.ok.injEq] at hinit
    subst hinit
    refine ⟨rfl, rfl, rfl, r, ?_⟩
    rw [reference_flipped_irrelevant, hr]

/-- C23: for every inter-frame header and bit source, whenever the
constructor of `InterFrameMacroblockHeader` builds a header, `mb_ref_frame_sel1`
is present if and only if `is_inter_mb` is true and `mb_ref_frame_sel2` is
present if and only if `mb_ref_frame_sel1` is present and true, and
`reference()` returns a reference frame on it without reading the value of an
absent optional; reference() returns on every header with these two
properties; and the constructor does build a header for every bit source
when `prob_skip_false` is present (three segment-tree probabilities, loop
budget at least 2). -/
theorem selectors_present_iff :
    (∀ (σ : Type) (get : σ → Nat → Bool × σ) (fuel : Nat) (data data' : σ)
        (frame_header : InterFrameHeader) (mb_segment_tree_probs : List Nat)
        (h : InterFrameMacroblockHeader),
        InterFrameMacroblockHeader.of_data get fuel data frame_header mb_segment_tree_probs
          = .ok (h, data') →
        (h.mb_ref_frame_sel1.isSome = true ↔ h.is_inter_mb = true) ∧
        (h.mb_ref_frame_sel2.isSome = true ↔ h.mb_ref_frame_sel1 = some true) ∧
        ∃ r : reference_frame, h.reference = .ok r) ∧
    (∀ h : InterFrameMacroblockHeader,
        (h.mb_ref_frame_sel1.isSome = true ↔ h.is_inter_mb = true) →
        (h.mb_ref_frame_sel2.isSome = true ↔ h.mb_ref_frame_sel1 = some true) →
        ∃ r : reference_frame, h.reference = .ok r) ∧
    (∀ (σ : Type) (get : σ → Nat → Bool × σ) (fuel : Nat) (data : σ)
        (frame_header : InterFrameHeader) (p0 p1 p2 : Nat),
        frame_header.prob_skip_false.isSome = true →
        ∃ (h : InterFrameMacroblockHeader) (data' : σ),
          InterFrameMacroblockHeader.of_data get (fuel + 2) data frame_header [p0, p1, p2]
            = .ok (h, data')) := by
  refine ⟨?_, ?_, ?_⟩
  · intro σ get fuel data data' fh probs h hbuilt
    unfold InterFrameMacroblockHeader.of_data at hbuilt
    split at hbuilt
    · simp at hbuilt
    · split at hbuilt
      · simp at hbuilt
      · dsimp only at hbuilt
        split at hbuilt
        · simp at hbuilt
        · rename_i h' hinit
          simp only [Except.ok.injEq, Prod.mk.injEq] at hbuilt
          obtain ⟨hh, _⟩ := hbuilt
          subst hh
          obtain ⟨hi, h1, h2, hr⟩ := init_motion_vectors_flipped_members _ fh h' hinit
          simp only at hi h1 h2
          refine ⟨?_, ?_, hr⟩
          · rw [h1, hi, read_optional_flag_isSome]
          · rw [h2, h1, read_optional_flag_isSome]
            generalize (read_optional_flag get _ fh.prob_references_last _).1 = sel1
            cases sel1 with
            | none => simp
            | some b => cases b <;> simp
  · intro h hsel1 hsel2
    unfold InterFrameMacroblockHeader.reference
    cases hi : h.is_inter_mb with
    | false => exact ⟨reference_frame.CURRENT_FRAME, by simp⟩
    | true =>
      have h1 : h.mb_ref_frame_sel1.isSome = true := hsel1.mpr hi
      obtain ⟨sel1, hs1⟩ := Option.isSome_iff_exists.mp h1
      cases sel1 with
      | false => exact ⟨reference_frame.LAST_FRAME, by simp [hs1, optional_get]⟩
      | true =>
        have h2 : h.mb_ref_frame_sel2.isSome = true := hsel2.mpr hs1
        obtain ⟨sel2, hs2⟩ := Option.isSome_iff_exists.mp h2
        cases sel2 with
        | false => exact ⟨reference_frame.GOLDEN_FRAME, by simp [hs1, hs2, optional_get]⟩
        | true => exact ⟨reference_frame.ALTREF_FRAME, by simp [hs1, hs2, optional_get]⟩
  · intro σ get fuel data fh p0 p1 p2 hskip
    obtain ⟨id, data1, hseg, _, _⟩ := read_segment_id_ok get fuel
      (updates_segmentation_map fh.update_segmentation) p0 p1 p2 data
    obtain ⟨prob, hprob⟩ : ∃ prob, fh.prob_skip_false = some prob :=
      Option.isSome_iff_exists.mp hskip
    unfold InterFrameMacroblockHeader.of_data
    simp only [hseg, hprob, optional_get]
    obtain ⟨h, hinit⟩ := init_motion_vectors_flipped_ok get id
      (read_optional_flag get (some prob).isSome prob data1).1
      (read_optional_flag get (some prob).isSome prob data1).2 fh
    rw [hinit]
    exact ⟨h, _, rfl⟩

/-- Witness for C23: with the bits `0` (skip), `1` (inter), `0` (`sel1`) the
header is inter-coded with `sel1` present and false and `sel2` absent, and
`reference()` returns `LAST_FRAME`; with the bits `0`, `0` the macroblock is
intra-coded and both selectors are absent. -/
theorem selectors_present_iff_witness :
    InterFrameMacroblockHeader.of_data Script.get 2 ⟨[false, true, false, true], []⟩
        golden_biased_header [128, 128, 128]
      = .ok ({ segment_id := none, mb_skip_coeff := some false, is_inter_mb := true
               mb_ref_frame_sel1 := some false, mb_ref_frame_sel2 := none
               motion_vectors_flipped_ := false },
             ⟨[true], [200, 100, 110]⟩) ∧
    InterFrameMacroblockHeader.of_data Script.get 2 ⟨[false, false, true], []⟩
        golden_biased_header [128, 128, 128]
      = .ok ({ segment_id := none, mb_skip_coeff := some false, is_inter_mb := false
               mb_ref_frame_sel1 := none, mb_ref_frame_sel2 := none
               motion_vectors_flipped_ := false },
             ⟨[true], [200, 100]⟩) ∧
    ((some false : Option Bool).isSome = true ↔ true = true) ∧
    ((none : Option Bool).isSome = true ↔ (some false : Option Bool) = some true) ∧
    (∃ r : reference_frame,
      InterFrameMacroblockHeader.reference
        { segment_id := none, mb_skip_coeff := some false, is_inter_mb := true
          mb_ref_frame_sel1 := some false, mb_ref_frame_sel2 := none
          motion_vectors_flipped_ := false } = .ok r) :=
  ⟨by decide, by decide,
   selectors_present_iff.1 Script Script.get 2 ⟨[false, true, false, true], []⟩
     ⟨[true], [200, 100, 110]⟩ golden_biased_header [128, 128, 128]
     { segment_id := none, mb_skip_coeff := some false, is_inter_mb := true
       mb_ref_frame_sel1 := some false, mb_ref_frame_sel2 := none
       motion_vectors_flipped_ := false }
     (by decide)⟩

end VP8
